import Mathlib

/-! # LuaSocket internet-domain functions (`src/inet.c`) and serial ports (`src/serial.c`)

A shallow embedding of `inet.c`: the establishers `inet_tryconnect` and
`inet_trybind`, the host lookup `inet_gethost`, the marshaller
`inet_pushresolved`, the five functions of the `dns` table, and the bundled
`inet_aton`; and of `serial.c`: `set_termios`, `meth_options` and the opening
of the device in `global_create`.

The C functions mostly coordinate calls to external collaborators (the system
resolver, the socket layer, the timeout layer, the Lua API).  The resolver and
the socket and timeout layers are modelled as records of state-passing
functions over an arbitrary world state `σ` (`World` for the establishers,
`Dns` for the dns functions); the embedded functions thread that state and
append every external call they make to a trace, so that statements about
*which* calls are made, on which arguments and in which order become
statements about a list.  The Lua API is modelled by a stack of values.

Conventions:
* a C string is a `String`, a possibly-NULL C string is an `Option String`
  (`none` is `NULL`);
* a NULL-terminated `struct addrinfo` chain is a `List Addrinfo`
  (`[]` is the `NULL` pointer, `ai_next` is the tail);
* `p_socket` and `p_timeout` are pointers; they are modelled by the identity
  of the object they point to, whose contents live in the world state;
* machine integers are natural numbers or integers, reduced modulo `2 ^ 32`
  where a conversion can wrap.
-/

namespace LuaSocket

/-! ## Data model -/

/-- One node of a `struct addrinfo` chain (the `ai_next` link is the list tail). -/
structure Addrinfo where
  ai_flags : Int
  ai_family : Int
  ai_socktype : Int
  ai_protocol : Int
  ai_addrlen : Nat
  ai_addr : List Nat
  deriving DecidableEq, Repr

/-- Identity of the socket object a `p_socket` points to. -/
abbrev p_socket := Nat

/-- Identity of the timeout object a `p_timeout` points to. -/
abbrev p_timeout := Nat

/-- External calls made by the establishers, with the arguments they are made on. -/
inductive Call where
  | getaddrinfo (node : Option String) (service : Option String) (hints : Option Addrinfo)
  | freeaddrinfo (res : List Addrinfo)
  | timeout_markstart (tm : p_timeout)
  | socket_connect (ps : p_socket) (addr : List Nat) (len : Nat) (tm : p_timeout)
  | socket_bind (ps : p_socket) (addr : List Nat) (len : Nat)
  | socket_destroy (ps : p_socket)
  deriving DecidableEq, Repr

/-- The external collaborators of `inet.c`, as state-passing functions over a
world state `σ`.  `getaddrinfo` returns its status code, the value it leaves
in `resolved`, and the next world state.  The two error translators are pure
tables from a status code to an optional message (`none` is `NULL`). -/
structure World (σ : Type) where
  getaddrinfo : σ → Option String → Option String → Option Addrinfo → Int × List Addrinfo × σ
  freeaddrinfo : σ → List Addrinfo → σ
  timeout_markstart : σ → p_timeout → σ
  socket_connect : σ → p_socket → List Nat → Nat → p_timeout → Int × σ
  socket_bind : σ → p_socket → List Nat → Nat → Int × σ
  socket_destroy : σ → p_socket → σ
  socket_gaistrerror : Int → Option String
  socket_strerror : Int → Option String

/-- Machine state: the world and the trace of external calls made so far. -/
structure St (σ : Type) where
  world : σ
  trace : List Call

variable {σ : Type}

/-! ## External calls, logged -/

/-- Call `getaddrinfo(node, service, hints, &resolved)`. -/
def call_getaddrinfo (w : World σ) (node service : Option String) (hints : Option Addrinfo)
    (st : St σ) : Int × List Addrinfo × St σ :=
  let r := w.getaddrinfo st.world node service hints
  (r.1, r.2.1, ⟨r.2.2, st.trace ++ [Call.getaddrinfo node service hints]⟩)

/-- Call `freeaddrinfo(resolved)`. -/
def call_freeaddrinfo (w : World σ) (resolved : List Addrinfo) (st : St σ) : St σ :=
  ⟨w.freeaddrinfo st.world resolved, st.trace ++ [Call.freeaddrinfo resolved]⟩

/-- Call `timeout_markstart(tm)`. -/
def call_timeout_markstart (w : World σ) (tm : p_timeout) (st : St σ) : St σ :=
  ⟨w.timeout_markstart st.world tm, st.trace ++ [Call.timeout_markstart tm]⟩

/-- Call `socket_connect(ps, addr, len, tm)`. -/
def call_socket_connect (w : World σ) (ps : p_socket) (addr : List Nat) (len : Nat)
    (tm : p_timeout) (st : St σ) : Int × St σ :=
  let r := w.socket_connect st.world ps addr len tm
  (r.1, ⟨r.2, st.trace ++ [Call.socket_connect ps addr len tm]⟩)

/-- Call `socket_bind(ps, addr, len)`. -/
def call_socket_bind (w : World σ) (ps : p_socket) (addr : List Nat) (len : Nat)
    (st : St σ) : Int × St σ :=
  let r := w.socket_bind st.world ps addr len
  (r.1, ⟨r.2, st.trace ++ [Call.socket_bind ps addr len]⟩)

/-- Call `socket_destroy(ps)`. -/
def call_socket_destroy (w : World σ) (ps : p_socket) (st : St σ) : St σ :=
  ⟨w.socket_destroy st.world ps, st.trace ++ [Call.socket_destroy ps]⟩

/-! ## `inet_tryconnect` (inet.c, lines 345-371) -/

/-- The `for (iterator = resolved; iterator; iterator = iterator->ai_next)` loop of
`inet_tryconnect`.  The second argument is the current value of `err`. -/
def inet_tryconnect_loop (w : World σ) (ps : p_socket) (tm : p_timeout) :
    List Addrinfo → Option String → St σ → Option String × St σ
  | [], err, st => (err, st)
  | iterator :: ai_next, _, st =>
    let st1 := call_timeout_markstart w tm st
    let r := call_socket_connect w ps iterator.ai_addr iterator.ai_addrlen tm st1
    let err := w.socket_strerror r.1
    if err = none then (err, r.2)
    else inet_tryconnect_loop w ps tm ai_next err r.2

/-- Embedding of `inet_tryconnect(ps, address, serv, tm, connecthints)`. -/
def inet_tryconnect (w : World σ) (ps : p_socket) (address serv : Option String)
    (tm : p_timeout) (connecthints : Option Addrinfo) (s : σ) : Option String × St σ :=
  let g := call_getaddrinfo w address serv connecthints ⟨s, []⟩
  let resolved := g.2.1
  let err := w.socket_gaistrerror g.1
  if err ≠ none then
    if resolved ≠ [] then (err, call_freeaddrinfo w resolved g.2.2)
    else (err, g.2.2)
  else
    let l := inet_tryconnect_loop w ps tm resolved err g.2.2
    (l.1, call_freeaddrinfo w resolved l.2)

/-! ## `inet_trybind` (inet.c, lines 376-405) -/

/-- The `for` loop of `inet_trybind`.  The second argument is the current value of `err`. -/
def inet_trybind_loop (w : World σ) (ps : p_socket) :
    List Addrinfo → Option String → St σ → Option String × St σ
  | [], err, st => (err, st)
  | iterator :: ai_next, _, st =>
    let r := call_socket_bind w ps iterator.ai_addr iterator.ai_addrlen st
    let err := w.socket_strerror r.1
    if err ≠ none then
      inet_trybind_loop w ps ai_next err (call_socket_destroy w ps r.2)
    else (err, r.2)

/-- Embedding of `inet_trybind(ps, address, serv, bindhints)`.  `address` is
dereferenced by `strcmp`, so it is a proper string; `serv` may be `NULL`. -/
def inet_trybind (w : World σ) (ps : p_socket) (address : String) (serv : Option String)
    (bindhints : Option Addrinfo) (s : σ) : Option String × St σ :=
  let address : Option String := if address = "*" then none else some address
  let serv : Option String := if serv = none then some "0" else serv
  let g := call_getaddrinfo w address serv bindhints ⟨s, []⟩
  let resolved := g.2.1
  let err := w.socket_gaistrerror g.1
  if err ≠ none then
    if resolved ≠ [] then (err, call_freeaddrinfo w resolved g.2.2)
    else (err, g.2.2)
  else
    let l := inet_trybind_loop w ps resolved err g.2.2
    (l.1, call_freeaddrinfo w resolved l.2)

/-! ## Vocabulary for stating properties of a run -/

/-- The calls one pass of the connect loop makes when it visits every candidate of `cs`:
for each candidate a `timeout_markstart` followed by a `socket_connect` on its address. -/
def connect_calls (ps : p_socket) (tm : p_timeout) : List Addrinfo → List Call
  | [] => []
  | c :: cs =>
    Call.timeout_markstart tm :: Call.socket_connect ps c.ai_addr c.ai_addrlen tm ::
      connect_calls ps tm cs

/-- Outcome of a connect attempt on candidate `c` made in world state `s`:
the translated error (`none` on success) and the world state after the attempt. -/
def connect_attempt (w : World σ) (ps : p_socket) (tm : p_timeout) (s : σ) (c : Addrinfo) :
    Option String × σ :=
  let r := w.socket_connect (w.timeout_markstart s tm) ps c.ai_addr c.ai_addrlen tm
  (w.socket_strerror r.1, r.2)

/-- World state after connect attempts on every candidate of `cs`, made one after the other. -/
def connect_sweep (w : World σ) (ps : p_socket) (tm : p_timeout) : σ → List Addrinfo → σ
  | s, [] => s
  | s, c :: cs => connect_sweep w ps tm (connect_attempt w ps tm s c).2 cs

/-- Translated errors of connect attempts on every candidate of `cs`, made one after the
other starting in world state `s`. -/
def connect_errors (w : World σ) (ps : p_socket) (tm : p_timeout) :
    σ → List Addrinfo → List (Option String)
  | _, [] => []
  | s, c :: cs =>
    (connect_attempt w ps tm s c).1 :: connect_errors w ps tm (connect_attempt w ps tm s c).2 cs

/-- The calls the bind loop makes on candidates whose bind fails: for each candidate of
`cs` a `socket_bind` on its address followed by a `socket_destroy`. -/
def bind_failed_calls (ps : p_socket) : List Addrinfo → List Call
  | [] => []
  | c :: cs =>
    Call.socket_bind ps c.ai_addr c.ai_addrlen :: Call.socket_destroy ps ::
      bind_failed_calls ps cs

/-- Outcome of a bind attempt on candidate `c` made in world state `s`:
the translated error (`none` on success) and the world state after the attempt. -/
def bind_attempt (w : World σ) (ps : p_socket) (s : σ) (c : Addrinfo) : Option String × σ :=
  let r := w.socket_bind s ps c.ai_addr c.ai_addrlen
  (w.socket_strerror r.1, r.2)

/-- World state after a bind attempt followed by destruction of the socket, for every
candidate of `cs` in turn. -/
def bind_sweep (w : World σ) (ps : p_socket) : σ → List Addrinfo → σ
  | s, [] => s
  | s, c :: cs => bind_sweep w ps (w.socket_destroy (bind_attempt w ps s c).2 ps) cs

/-- Translated errors of bind attempts on every candidate of `cs`, each followed by
destruction of the socket, starting in world state `s`. -/
def bind_errors (w : World σ) (ps : p_socket) : σ → List Addrinfo → List (Option String)
  | _, [] => []
  | s, c :: cs =>
    (bind_attempt w ps s c).1 ::
      bind_errors w ps (w.socket_destroy (bind_attempt w ps s c).2 ps) cs

/-- The resolver's answer to the one resolver call `inet_trybind` makes (inet.c, lines
382-386): the address `"*"` is passed as `NULL`, an absent service as `"0"`. -/
def bind_resolution (w : World σ) (address : String) (serv : Option String)
    (bindhints : Option Addrinfo) (s : σ) : Int × List Addrinfo × σ :=
  w.getaddrinfo s (if address = "*" then none else some address)
    (if serv = none then some "0" else serv) bindhints

/-- Recogniser of `timeout_markstart` calls. -/
def Call.is_markstart : Call → Bool
  | Call.timeout_markstart _ => true
  | _ => false

/-- Recogniser of `socket_connect` calls. -/
def Call.is_connect : Call → Bool
  | Call.socket_connect _ _ _ _ => true
  | _ => false

/-- Recogniser of `socket_bind` calls. -/
def Call.is_bind : Call → Bool
  | Call.socket_bind _ _ _ => true
  | _ => false

/-- Recogniser of `socket_destroy` calls. -/
def Call.is_destroy : Call → Bool
  | Call.socket_destroy _ => true
  | _ => false

/-- Recogniser of `freeaddrinfo` calls. -/
def Call.is_freeaddrinfo : Call → Bool
  | Call.freeaddrinfo _ => true
  | _ => false

/-- Recogniser of `getaddrinfo` calls. -/
def Call.is_getaddrinfo : Call → Bool
  | Call.getaddrinfo _ _ _ => true
  | _ => false

/-! ## A concrete world for examples

The world state counts the external calls made so far.  The resolver answers
with a fixed status and candidate chain; a connect or bind on an address
returns the status code a table assigns to that address. -/

/-- An IPv4 stream candidate with the given address bytes. -/
def cand (addr : List Nat) : Addrinfo :=
  { ai_flags := 0, ai_family := 2, ai_socktype := 1, ai_protocol := 6,
    ai_addrlen := addr.length, ai_addr := addr }

/-- Error table of the example world: status 0 is success, anything else is an error
named after its code. -/
def exStrerror (code : Int) : Option String :=
  if code = 0 then none else some (toString code)

/-- Example world: `gai` is the resolver answer, `conn` and `bnd` give the status of a
connect and of a bind on an address. -/
def exWorld (gai : Int × List Addrinfo) (conn bnd : List Nat → Int) : World Nat where
  getaddrinfo := fun s _ _ _ => (gai.1, gai.2, s + 1)
  freeaddrinfo := fun s _ => s + 1
  timeout_markstart := fun s _ => s + 1
  socket_connect := fun s _ addr _ _ => (conn addr, s + 1)
  socket_bind := fun s _ addr _ => (bnd addr, s + 1)
  socket_destroy := fun s _ => s + 1
  socket_gaistrerror := exStrerror
  socket_strerror := exStrerror

/-- Status table failing (with the first byte as code) on every address except `[10, 0, 0, 3]`. -/
def exStatus (addr : List Nat) : Int :=
  if addr = [10, 0, 0, 3] then 0 else (addr.headD 1 : Nat)

/-- Status table failing on every address, with the last byte as code. -/
def exAllFail (addr : List Nat) : Int := (addr.getLastD 0 : Nat) + 1

/-- Four candidates, the third of which is `[10, 0, 0, 3]`. -/
def exCands : List Addrinfo :=
  [cand [10, 0, 0, 1], cand [10, 0, 0, 2], cand [10, 0, 0, 3], cand [10, 0, 0, 4]]

/-! ## A model of the Lua stack API used by `inet.c`

Only what the dns functions use is modelled.  The stack is a list with the top
first.  A table lives in exactly one stack slot in all the code embedded here
(tables are created by `lua_newtable` and never duplicated), so tables are
modelled by value, as association lists in insertion order with distinct keys. -/

/-- Table keys: the code only uses numbers and strings as keys. -/
inductive Key where
  | num (n : Int)
  | str (s : String)
  deriving DecidableEq, Repr

/-- Lua values.  Numbers pushed by the code are C integers; a userdata is known by its
address (the serial objects of `serial.c` are userdata). -/
inductive LuaValue where
  | nil
  | boolean (b : Bool)
  | number (n : Int)
  | string (s : String)
  | table (fields : List (Key × LuaValue))
  | userdata (ptr : Nat)

/-- The Lua stack, top first. -/
abbrev LuaStack := List LuaValue

/-- Errors raised through `lua_error` (a `longjmp` out of the C function). -/
inductive LuaError where
  | bad_argument (narg : Int) (expected : String)
  | message (msg : String)
  deriving DecidableEq, Repr

/-- Outcome of a Lua C function: it returns `n` and the `n` topmost stack values are its
results (first result deepest), or it raises a Lua error, or its behaviour is undefined
(it reads through a null pointer or reads a buffer nothing was written to). -/
inductive Result where
  | returned (values : List LuaValue)
  | raised (e : LuaError)
  | undefined

/-- Recogniser of `nil`. -/
def LuaValue.is_nil : LuaValue → Bool
  | LuaValue.nil => true
  | _ => false

/-- Assignment `t[k] = v` on the fields of a table: assigning `nil` removes the field, a
present field is overwritten in place, a new field is added at the end. -/
def table_set : List (Key × LuaValue) → Key → LuaValue → List (Key × LuaValue)
  | [], k, v => if v.is_nil then [] else [(k, v)]
  | (k', v') :: t, k, v =>
    if k' = k then (if v.is_nil then t else (k, v) :: t)
    else (k', v') :: table_set t k v

/-- Lookup `t[k]` on the fields of a table (`nil` when the field is absent). -/
def table_get : List (Key × LuaValue) → Key → LuaValue
  | [], _ => LuaValue.nil
  | (k', v') :: t, k => if k' = k then v' else table_get t k

/-- Indexing `v[k]` of a Lua value that is a table (`nil` for anything else). -/
def LuaValue.get : LuaValue → Key → LuaValue
  | LuaValue.table fields, k => table_get fields k
  | _, _ => LuaValue.nil

/-- Number of fields of a Lua value that is a table. -/
def LuaValue.size : LuaValue → Nat
  | LuaValue.table fields => fields.length
  | _ => 0

/-- Position, counted from the top (0 is the top), of the stack slot an acceptable index
denotes in a stack of `len` slots: positive indices count from the bottom, negative ones
from the top.  Pseudo-indices are not used by the code. -/
def stack_pos (len : Nat) (idx : Int) : Option Nat :=
  if 0 < idx then (if idx ≤ len then some (len - idx.toNat) else none)
  else if idx < 0 ∧ -idx ≤ len then some ((-idx).toNat - 1)
  else none

/-- Model of `lua_gettop`: the index of the top slot. -/
def lua_gettop (L : LuaStack) : Int := L.length

/-- Model of `lua_pushnil`. -/
def lua_pushnil (L : LuaStack) : LuaStack := LuaValue.nil :: L

/-- Model of `lua_pushnumber`. -/
def lua_pushnumber (L : LuaStack) (n : Int) : LuaStack := LuaValue.number n :: L

/-- The Lua value `lua_pushstring` pushes for a C string: `nil` for `NULL`. -/
def LuaValue.of_cstring : Option String → LuaValue
  | some s => LuaValue.string s
  | none => LuaValue.nil

/-- Model of `lua_pushstring` (and `lua_pushliteral`). -/
def lua_pushstring (L : LuaStack) (s : Option String) : LuaStack := LuaValue.of_cstring s :: L

/-- Model of `lua_newtable`. -/
def lua_newtable (L : LuaStack) : LuaStack := LuaValue.table [] :: L

/-- The key a Lua value stands for; `nil` is not a key (Lua raises an error), and
booleans and tables are never used as keys by the code. -/
def LuaValue.to_key : LuaValue → Option Key
  | LuaValue.number n => some (Key.num n)
  | LuaValue.string s => some (Key.str s)
  | _ => none

/-- Model of `lua_settable(L, idx)`: with `v` on top and `k` just below, performs
`t[k] = v` on the table `t` at index `idx` and pops `k` and `v`.  The result is `none`
when the stack has fewer than two slots, when `idx` does not denote a table below the
key, or when the key is not a number or a string. -/
def lua_settable (L : LuaStack) (idx : Int) : Option LuaStack :=
  match L with
  | v :: k :: rest =>
    match stack_pos (rest.length + 2) idx, k.to_key with
    | some p, some key =>
      if 2 ≤ p then
        match rest[p - 2]? with
        | some (LuaValue.table fields) =>
          some (rest.set (p - 2) (LuaValue.table (table_set fields key v)))
        | _ => none
      else none
    | _, _ => none
  | _ => none

/-- The results of a C function that returns `n`: the `n` topmost values, deepest first. -/
def lua_results (L : LuaStack) (n : Nat) : List LuaValue := (L.take n).reverse

/-! ## Host entries -/

/-- Model of `struct in_addr`: the 32-bit `s_addr`, in network byte order. -/
structure In_addr where
  s_addr : Nat
  deriving DecidableEq, Repr

/-- Model of `struct hostent`.  `h_aliases` and `h_addr_list` are NULL-terminated arrays
that may themselves be `NULL` (`none`). -/
structure Hostent where
  h_name : String
  h_aliases : Option (List String)
  h_addr_list : Option (List In_addr)
  deriving DecidableEq, Repr

/-! ## `inet_pushresolved` (inet.c, lines 298-333) -/

/-- The `while (*alias)` loop of `inet_pushresolved`; `i` is the running index. -/
def inet_pushresolved_alias : List String → Int → LuaStack → Option LuaStack
  | [], _, L => some L
  | al :: rest, i, L =>
    let L := lua_pushnumber L i
    let L := lua_pushstring L (some al)
    match lua_settable L (-3) with
    | some L => inet_pushresolved_alias rest (i + 1) L
    | none => none

/-- The `while (*addr)` loop of `inet_pushresolved`; `i` is the running index and
`inet_ntoa` the platform's address printer. -/
def inet_pushresolved_addr (inet_ntoa : In_addr → String) :
    List In_addr → Int → LuaStack → Option LuaStack
  | [], _, L => some L
  | addr :: rest, i, L =>
    let L := lua_pushnumber L i
    let L := lua_pushstring L (some (inet_ntoa addr))
    match lua_settable L (-3) with
    | some L => inet_pushresolved_addr inet_ntoa rest (i + 1) L
    | none => none

/-- Embedding of `inet_pushresolved(L, hp)`. -/
def inet_pushresolved (inet_ntoa : In_addr → String) (L : LuaStack) (hp : Hostent) :
    Option LuaStack :=
  let L := lua_newtable L
  let resolved := lua_gettop L
  let L := lua_pushstring L (some "name")
  let L := lua_pushstring L (some hp.h_name)
  (lua_settable L resolved).bind fun L =>
  let L := lua_pushstring L (some "ip")
  let L := lua_pushstring L (some "alias")
  let L := lua_newtable L
  (match hp.h_aliases with
    | some al => inet_pushresolved_alias al 1 L
    | none => some L).bind fun L =>
  (lua_settable L resolved).bind fun L =>
  let L := lua_newtable L
  (match hp.h_addr_list with
    | some addr => inet_pushresolved_addr inet_ntoa addr 1 L
    | none => some L).bind fun L =>
  lua_settable L resolved

/-- The Lua sequence holding the values `vs` at the indices `i`, `i + 1`, ... -/
def lua_seq_from : Int → List LuaValue → List (Key × LuaValue)
  | _, [] => []
  | i, v :: vs => (Key.num i, v) :: lua_seq_from (i + 1) vs

/-- The Lua sequence holding the values `vs` at the indices 1, 2, ... -/
def lua_seq (vs : List LuaValue) : LuaValue := LuaValue.table (lua_seq_from 1 vs)

/-- The Host Record of the specification for a host entry: the three fields `name`,
`alias` and `ip`, the last two being sequences numbered from 1. -/
def host_record (inet_ntoa : In_addr → String) (hp : Hostent) : LuaValue :=
  LuaValue.table
    [(Key.str "name", LuaValue.string hp.h_name),
     (Key.str "alias", lua_seq ((hp.h_aliases.getD []).map LuaValue.string)),
     (Key.str "ip",
       lua_seq ((hp.h_addr_list.getD []).map (fun x => LuaValue.string (inet_ntoa x))))]

/-! ## The bundled `inet_aton` (inet.c, lines 411-431)

`sscanf` belongs to the C library; the directives of the one format the code uses,
`"%u.%u.%u.%u%n"`, are modelled after the C standard: `%u` skips white space, accepts an
optional sign and then needs at least one decimal digit; `.` matches itself; `%n` stores
the number of characters consumed so far and does not count as a conversion.  Where the
standard leaves the value of a field too large for an `unsigned int` open, the model
follows the GNU C library on a 64-bit platform (`to_unsigned`). -/

/-- The white-space characters of the C locale. -/
def isspace (c : Char) : Bool :=
  c = ' ' || c = '\t' || c = '\n' || c = '\x0b' || c = '\x0c' || c = '\r'

/-- The decimal digits. -/
def isdigit (c : Char) : Bool := '0'.toNat ≤ c.toNat && c.toNat ≤ '9'.toNat

/-- Value of a run of decimal digits. -/
def digits_value (ds : List Char) : Nat :=
  ds.foldl (fun acc c => 10 * acc + (c.toNat - '0'.toNat)) 0

/-- The 32-bit `unsigned int` a `%u` conversion stores for a digit run of value `m`,
preceded by a minus sign when `neg`.  The C library converts the run as `strtoul` does,
through an `unsigned long` of 64 bits: a value beyond `ULONG_MAX` gives `ULONG_MAX`,
whatever the sign, and a minus sign negates modulo `2 ^ 64`; the low 32 bits of the
`unsigned long` are stored. -/
def to_unsigned (neg : Bool) (m : Nat) : Nat :=
  (if 2 ^ 64 ≤ m then 2 ^ 64 - 1 else if neg then (2 ^ 64 - m) % 2 ^ 64 else m) % 2 ^ 32

/-- The input left once a sign, if there is one, has been read. -/
def skip_sign : List Char → List Char
  | '-' :: r => r
  | '+' :: r => r
  | s => s

/-- The `%u` directive: the converted value and the input left, or `none` when the
directive fails. -/
def scan_u (s : List Char) : Option (Nat × List Char) :=
  let s1 := s.dropWhile isspace
  let s2 := skip_sign s1
  let ds := s2.takeWhile isdigit
  if ds = [] then none
  else some (to_unsigned (s1.head? = some '-') (digits_value ds), s2.dropWhile isdigit)

/-- The `.` directive: the input left, or `none` when the next character is not a dot. -/
def scan_dot : List Char → Option (List Char)
  | '.' :: r => some r
  | _ => none

/-- What `sscanf` leaves behind: its return value and the five output variables. -/
structure Scanned where
  r : Int
  a : Nat
  b : Nat
  c : Nat
  d : Nat
  n : Nat
  deriving DecidableEq, Repr

/-- Model of `sscanf(cp, "%u.%u.%u.%u%n", &a, &b, &c, &d, &n)` with all five variables
initially 0, as in `inet_aton`.  The return value is the number of conversions made, or
`EOF` (-1) when the input ends before any character of the first field (it holds white
space only). -/
def sscanf_quad (cp : List Char) : Scanned :=
  match scan_u cp with
  | none =>
    if cp.dropWhile isspace = [] then ⟨-1, 0, 0, 0, 0, 0⟩ else ⟨0, 0, 0, 0, 0, 0⟩
  | some (a, s1) =>
  match scan_dot s1 with
  | none => ⟨1, a, 0, 0, 0, 0⟩
  | some s2 =>
  match scan_u s2 with
  | none => ⟨1, a, 0, 0, 0, 0⟩
  | some (b, s3) =>
  match scan_dot s3 with
  | none => ⟨2, a, b, 0, 0, 0⟩
  | some s4 =>
  match scan_u s4 with
  | none => ⟨2, a, b, 0, 0, 0⟩
  | some (c, s5) =>
  match scan_dot s5 with
  | none => ⟨3, a, b, c, 0, 0⟩
  | some s6 =>
  match scan_u s6 with
  | none => ⟨3, a, b, c, 0, 0⟩
  | some (d, s7) => ⟨4, a, b, c, d, cp.length - s7.length⟩

/-- Embedding of the bundled `inet_aton(cp, inp)`.  `inp` is `none` for a `NULL` pointer
and otherwise holds the address stored at `*inp`; the result is the return value and the
address stored at `*inp` afterwards.  `htonl` is the platform's byte-order conversion. -/
def inet_aton (htonl : Nat → Nat) (cp : String) (inp : Option In_addr) :
    Int × Option In_addr :=
  let sc := sscanf_quad cp.toList
  if sc.r = 0 ∨ sc.n = 0 then (0, inp)
  else
    let cp := cp.toList.drop sc.n
    if cp ≠ [] then (0, inp)
    else if sc.a > 255 ∨ sc.b > 255 ∨ sc.c > 255 ∨ sc.d > 255 then (0, inp)
    else
      match inp with
      | some _ =>
        let addr := 0
        let addr := addr + sc.a
        let addr := addr <<< 8
        let addr := addr + sc.b
        let addr := addr <<< 8
        let addr := addr + sc.c
        let addr := addr <<< 8
        let addr := addr + sc.d
        (1, some ⟨htonl addr⟩)
      | none => (1, none)

/-- A field as the `%u` directive reads it: white space, an optional sign, digits. -/
structure Field where
  ws : List Char
  sign : List Char
  digits : List Char
  deriving DecidableEq, Repr

/-- Well-formedness of a field: only white space in `ws`, `sign` is empty or one of `+`
and `-`, and `digits` is a non-empty run of decimal digits. -/
def Field.wf (f : Field) : Prop :=
  (∀ c ∈ f.ws, isspace c = true) ∧ (f.sign = [] ∨ f.sign = ['+'] ∨ f.sign = ['-']) ∧
    f.digits ≠ [] ∧ ∀ c ∈ f.digits, isdigit c = true

instance (f : Field) : Decidable f.wf := by
  unfold Field.wf
  exact inferInstance

/-- The characters of a field. -/
def Field.text (f : Field) : List Char := f.ws ++ f.sign ++ f.digits

/-- The `unsigned int` value of a field. -/
def Field.value (f : Field) : Nat := to_unsigned (f.sign = ['-']) (digits_value f.digits)

/-- A field made of digits only. -/
def Field.plain (ds : List Char) : Field := ⟨[], [], ds⟩

/-! ## The resolver seen by the dns functions -/

/-- Calls to the resolver and to the operating system made by the dns functions. -/
inductive DnsCall where
  | socket_gethostbyaddr (addr : In_addr) (len : Nat)
  | socket_gethostbyname (name : String)
  | getaddrinfo (node : Option String) (service : Option String) (hints : Option Addrinfo)
  | freeaddrinfo (res : List Addrinfo)
  | getnameinfo (sa : List Nat) (salen : Nat) (hostlen : Nat) (servlen : Nat) (flags : Int)
  | gethostname (len : Nat)
  deriving DecidableEq, Repr

/-- What a `getnameinfo` call leaves behind: its status and, when the status is 0, the
strings it wrote to the host and service buffers (a buffer passed with length 0 is not
written; its string is then unused).  A call that fails writes to neither buffer. -/
structure NameInfo where
  ret : Int
  host : String
  serv : String
  deriving DecidableEq, Repr

/-- The external collaborators of the dns functions, as state-passing functions over a
world state `σ`, together with the platform constants the code refers to.
`inet_aton` is the address parser in use (the platform's, or the bundled one when
`INET_ATON` is defined): `some addr` when it returns non-zero and stores `addr`.
The host lookups return their status and the value they leave in `*hp`. -/
structure Dns (σ : Type) where
  IO_DONE : Int
  SOCK_STREAM : Int
  PF_UNSPEC : Int
  AF_INET : Int
  AF_INET6 : Int
  NI_MAXHOST : Nat
  NI_NUMERICHOST : Int
  inet_aton : String → Option In_addr
  inet_ntoa : In_addr → String
  socket_gethostbyaddr : σ → In_addr → Nat → Int × Option Hostent × σ
  socket_gethostbyname : σ → String → Int × Option Hostent × σ
  socket_hoststrerror : Int → Option String
  getaddrinfo : σ → Option String → Option String → Option Addrinfo → Int × List Addrinfo × σ
  freeaddrinfo : σ → List Addrinfo → σ
  socket_gaistrerror : Int → Option String
  getnameinfo : σ → List Nat → Nat → Nat → Nat → Int → NameInfo × σ
  gethostname : σ → Nat → Int × String × σ
  lua_number2str : Int → String

/-- Machine state of a dns function: the world and the trace of external calls so far. -/
structure DnsSt (σ : Type) where
  world : σ
  trace : List DnsCall

/-- Call `socket_gethostbyaddr(addr, len, hp)`. -/
def dns_gethostbyaddr (d : Dns σ) (addr : In_addr) (len : Nat) (st : DnsSt σ) :
    Int × Option Hostent × DnsSt σ :=
  let r := d.socket_gethostbyaddr st.world addr len
  (r.1, r.2.1, ⟨r.2.2, st.trace ++ [DnsCall.socket_gethostbyaddr addr len]⟩)

/-- Call `socket_gethostbyname(name, hp)`. -/
def dns_gethostbyname (d : Dns σ) (name : String) (st : DnsSt σ) :
    Int × Option Hostent × DnsSt σ :=
  let r := d.socket_gethostbyname st.world name
  (r.1, r.2.1, ⟨r.2.2, st.trace ++ [DnsCall.socket_gethostbyname name]⟩)

/-- Call `getaddrinfo(node, service, hints, &resolved)`. -/
def dns_getaddrinfo (d : Dns σ) (node service : Option String) (hints : Option Addrinfo)
    (st : DnsSt σ) : Int × List Addrinfo × DnsSt σ :=
  let r := d.getaddrinfo st.world node service hints
  (r.1, r.2.1, ⟨r.2.2, st.trace ++ [DnsCall.getaddrinfo node service hints]⟩)

/-- Call `freeaddrinfo(resolved)`. -/
def dns_freeaddrinfo (d : Dns σ) (resolved : List Addrinfo) (st : DnsSt σ) : DnsSt σ :=
  ⟨d.freeaddrinfo st.world resolved, st.trace ++ [DnsCall.freeaddrinfo resolved]⟩

/-- Call `getnameinfo(sa, salen, host, hostlen, serv, servlen, flags)`. -/
def dns_getnameinfo (d : Dns σ) (sa : List Nat) (salen hostlen servlen : Nat) (flags : Int)
    (st : DnsSt σ) : NameInfo × DnsSt σ :=
  let r := d.getnameinfo st.world sa salen hostlen servlen flags
  (r.1, ⟨r.2, st.trace ++ [DnsCall.getnameinfo sa salen hostlen servlen flags]⟩)

/-- Call `gethostname(name, len)`. -/
def dns_gethostname (d : Dns σ) (len : Nat) (st : DnsSt σ) : Int × String × DnsSt σ :=
  let r := d.gethostname st.world len
  (r.1, r.2.1, ⟨r.2.2, st.trace ++ [DnsCall.gethostname len]⟩)

/-! ## Argument checking (lauxlib) -/

/-- The C string a Lua string is seen as: its characters up to the first NUL. -/
def c_str (s : String) : String := String.mk (s.toList.takeWhile (fun c => c ≠ '\x00'))

/-- The value at an acceptable index, `none` when the index is beyond the stack. -/
def lua_index (L : LuaStack) (idx : Int) : Option LuaValue :=
  (stack_pos L.length idx).bind (fun p => L[p]?)

/-- Model of `luaL_checkstring(L, narg)`: a string argument is returned as a C string, a
number is first converted to a string in place, anything else raises an argument error. -/
def luaL_checkstring (number2str : Int → String) (L : LuaStack) (narg : Int) :
    Except LuaError (String × LuaStack) :=
  match stack_pos L.length narg with
  | some p =>
    match L[p]? with
    | some (LuaValue.string s) => Except.ok (c_str s, L)
    | some (LuaValue.number n) =>
      Except.ok (c_str (number2str n), L.set p (LuaValue.string (number2str n)))
    | _ => Except.error (LuaError.bad_argument narg "string")
  | none => Except.error (LuaError.bad_argument narg "string")

/-- Model of `luaL_optstring(L, narg, NULL)`: `NULL` when the argument is absent or `nil`,
otherwise as `luaL_checkstring`. -/
def luaL_optstring (number2str : Int → String) (L : LuaStack) (narg : Int) :
    Except LuaError (Option String × LuaStack) :=
  match lua_index L narg with
  | none => Except.ok (none, L)
  | some LuaValue.nil => Except.ok (none, L)
  | some _ =>
    match luaL_checkstring number2str L narg with
    | Except.ok r => Except.ok (some r.1, r.2)
    | Except.error e => Except.error e

/-! ## `inet_gethost` and the host lookups (inet.c, lines 56-80 and 132-145) -/

/-- Embedding of `inet_gethost(address, &hp)`: the status and the value left in `hp`.
`sizeof(addr)` is 4, the size of the 32-bit `struct in_addr`. -/
def inet_gethost (d : Dns σ) (address : String) (st : DnsSt σ) :
    Int × Option Hostent × DnsSt σ :=
  match d.inet_aton address with
  | some addr => dns_gethostbyaddr d addr 4 st
  | none => dns_gethostbyname d address st

/-- Embedding of `inet_global_tohostname(L)`. -/
def inet_global_tohostname (d : Dns σ) (L : LuaStack) (st : DnsSt σ) : Result × DnsSt σ :=
  match luaL_checkstring d.lua_number2str L 1 with
  | Except.error e => (Result.raised e, st)
  | Except.ok (address, L) =>
    let r := inet_gethost d address st
    let err := r.1
    if err ≠ d.IO_DONE then
      let L := lua_pushnil L
      let L := lua_pushstring L (d.socket_hoststrerror err)
      (Result.returned (lua_results L 2), r.2.2)
    else
      match r.2.1 with
      | none => (Result.undefined, r.2.2)
      | some hp =>
        let L := lua_pushstring L (some hp.h_name)
        match inet_pushresolved d.inet_ntoa L hp with
        | some L => (Result.returned (lua_results L 2), r.2.2)
        | none => (Result.undefined, r.2.2)

/-- The address `hp->h_addr`, that is `hp->h_addr_list[0]`, read as a `struct in_addr`:
`none` when the list is `NULL` or empty (the code then reads through a null pointer). -/
def Hostent.h_addr (hp : Hostent) : Option In_addr :=
  match hp.h_addr_list with
  | some (x :: _) => some x
  | _ => none

/-- Embedding of `inet_global_toip(L)`. -/
def inet_global_toip (d : Dns σ) (L : LuaStack) (st : DnsSt σ) : Result × DnsSt σ :=
  match luaL_checkstring d.lua_number2str L 1 with
  | Except.error e => (Result.raised e, st)
  | Except.ok (address, L) =>
    let r := inet_gethost d address st
    let err := r.1
    if err ≠ d.IO_DONE then
      let L := lua_pushnil L
      let L := lua_pushstring L (d.socket_hoststrerror err)
      (Result.returned (lua_results L 2), r.2.2)
    else
      match r.2.1 with
      | none => (Result.undefined, r.2.2)
      | some hp =>
        match hp.h_addr with
        | none => (Result.undefined, r.2.2)
        | some h_addr =>
          let L := lua_pushstring L (some (d.inet_ntoa h_addr))
          match inet_pushresolved d.inet_ntoa L hp with
          | some L => (Result.returned (lua_results L 2), r.2.2)
          | none => (Result.undefined, r.2.2)

/-! ## `inet_global_gethostname` (inet.c, lines 195-207) -/

/-- Embedding of `inet_global_gethostname(L)`. -/
def inet_global_gethostname (d : Dns σ) (L : LuaStack) (st : DnsSt σ) : Result × DnsSt σ :=
  let r := dns_gethostname d 256 st
  if r.1 < 0 then
    let L := lua_pushnil L
    let L := lua_pushstring L (some "gethostname failed")
    (Result.returned (lua_results L 2), r.2.2)
  else
    let L := lua_pushstring L (some r.2.1)
    (Result.returned (lua_results L 1), r.2.2)

/-! ## `inet_global_getaddrinfo` (inet.c, lines 147-189) -/

/-- The hints both address functions build: all zero but for the socket type and the
address family. -/
def dns_hints (d : Dns σ) : Addrinfo :=
  { ai_flags := 0, ai_family := d.PF_UNSPEC, ai_socktype := d.SOCK_STREAM, ai_protocol := 0,
    ai_addrlen := 0, ai_addr := [] }

/-- The `switch (iterator->ai_family)` of `inet_global_getaddrinfo`, with the record
being built on top of the stack. -/
def push_family (d : Dns σ) (ai_family : Int) (L : LuaStack) : Option LuaStack :=
  if ai_family = d.AF_INET then
    let L := lua_pushstring L (some "family")
    let L := lua_pushstring L (some "inet")
    lua_settable L (-3)
  else if ai_family = d.AF_INET6 then
    let L := lua_pushstring L (some "family")
    let L := lua_pushstring L (some "inet6")
    lua_settable L (-3)
  else some L

/-- The `for` loop of `inet_global_getaddrinfo`; `i` is the running index.  The result
table is on top of the stack.  `hbuf` is a buffer of the loop body, with no initial
contents, and the status of `getnameinfo` is not looked at: after a call that failed,
`lua_pushstring(L, hbuf)` reads a buffer nothing was written to, and the outcome is
`none`. -/
def inet_global_getaddrinfo_loop (d : Dns σ) :
    List Addrinfo → Int → LuaStack → DnsSt σ → Option LuaStack × DnsSt σ
  | [], _, L, st => (some L, st)
  | iterator :: ai_next, i, L, st =>
    let r := dns_getnameinfo d iterator.ai_addr iterator.ai_addrlen d.NI_MAXHOST 0
      d.NI_NUMERICHOST st
    let hbuf := if r.1.ret = 0 then some r.1.host else none
    let L := lua_pushnumber L i
    let L := lua_newtable L
    match push_family d iterator.ai_family L with
    | none => (none, r.2)
    | some L =>
      let L := lua_pushstring L (some "addr")
      match hbuf with
      | none => (none, r.2)
      | some hbuf =>
        let L := lua_pushstring L (some hbuf)
        match lua_settable L (-3) with
        | none => (none, r.2)
        | some L =>
          match lua_settable L (-3) with
          | none => (none, r.2)
          | some L => inet_global_getaddrinfo_loop d ai_next (i + 1) L r.2

/-- Embedding of `inet_global_getaddrinfo(L)`. -/
def inet_global_getaddrinfo (d : Dns σ) (L : LuaStack) (st : DnsSt σ) : Result × DnsSt σ :=
  match luaL_checkstring d.lua_number2str L 1 with
  | Except.error e => (Result.raised e, st)
  | Except.ok (hostname, L) =>
    let g := dns_getaddrinfo d (some hostname) none (some (dns_hints d)) st
    let ret := g.1
    let resolved := g.2.1
    if ret ≠ 0 then
      let L := lua_pushnil L
      let L := lua_pushstring L (d.socket_gaistrerror ret)
      (Result.returned (lua_results L 2), g.2.2)
    else
      let L := lua_newtable L
      let l := inet_global_getaddrinfo_loop d resolved 1 L g.2.2
      let st := dns_freeaddrinfo d resolved l.2
      match l.1 with
      | some L => (Result.returned (lua_results L 1), st)
      | none => (Result.undefined, st)

/-! ## `inet_global_getnameinfo` (inet.c, lines 82-126) -/

/-- The `for` loop of `inet_global_getnameinfo`; `i` is the running index, `host` and
`serv` are the contents of the two buffers (`none` while nothing has been written to
them).  The status of `getnameinfo` is not looked at: a call that succeeds writes the
buffers it was given with their full length, a call that fails leaves both as they were,
and `lua_pushstring(L, host)` then pushes what the buffer holds; when it holds nothing
the outcome is `none`.  The result table is on top of the stack. -/
def inet_global_getnameinfo_loop (d : Dns σ) (node service : Option String) :
    List Addrinfo → Int → Option String → Option String → LuaStack → DnsSt σ →
      Option (LuaStack × Option String) × DnsSt σ
  | [], _, _, serv, L, st => (some (L, serv), st)
  | iter :: ai_next, i, host, serv, L, st =>
    let r := dns_getnameinfo d iter.ai_addr iter.ai_addrlen
      (if node.isSome then 1024 else 0) (if service.isSome then 32 else 0) 0 st
    let host := if r.1.ret = 0 ∧ node.isSome then some r.1.host else host
    let serv := if r.1.ret = 0 ∧ service.isSome then some r.1.serv else serv
    if node.isSome then
      match host with
      | none => (none, r.2)
      | some h =>
        let L := lua_pushnumber L i
        let L := lua_pushstring L (some h)
        match lua_settable L (-3) with
        | none => (none, r.2)
        | some L =>
          inet_global_getnameinfo_loop d node service ai_next (i + 1) (some h) serv L r.2
    else inet_global_getnameinfo_loop d node service ai_next (i + 1) host serv L r.2

/-- Embedding of `inet_global_getnameinfo(L)`. -/
def inet_global_getnameinfo (d : Dns σ) (L : LuaStack) (st : DnsSt σ) : Result × DnsSt σ :=
  match luaL_optstring d.lua_number2str L 1 with
  | Except.error e => (Result.raised e, st)
  | Except.ok (node, L) =>
  match luaL_optstring d.lua_number2str L 2 with
  | Except.error e => (Result.raised e, st)
  | Except.ok (service, L) =>
    if ¬ (node.isSome ∨ service.isSome) then
      (Result.raised
        (LuaError.message "You have to specify a hostname, a service, or both"), st)
    else
      let g := dns_getaddrinfo d (some (node.getD "127.0.0.1")) (some (service.getD "7"))
        (some (dns_hints d)) st
      let ret := g.1
      let resolved := g.2.1
      if ret ≠ 0 then
        let L := lua_pushnil L
        let L := lua_pushstring L (d.socket_gaistrerror ret)
        (Result.returned (lua_results L 2), g.2.2)
      else
        let L := lua_newtable L
        let l := inet_global_getnameinfo_loop d node service resolved 1 none none L g.2.2
        let st := dns_freeaddrinfo d resolved l.2
        match l.1 with
        | none => (Result.undefined, st)
        | some (L, serv) =>
          if service.isSome then
            match serv with
            | some serv =>
              let L := lua_pushstring L (some serv)
              (Result.returned (lua_results L 2), st)
            | none => (Result.undefined, st)
          else (Result.returned (lua_results L 1), st)

/-! ## An example resolver -/

/-- Dotted text of an address whose `s_addr` holds the four octets, most significant
first. -/
def exNtoa (a : In_addr) : String :=
  toString (a.s_addr / 2 ^ 24 % 256) ++ "." ++ toString (a.s_addr / 2 ^ 16 % 256) ++ "." ++
    toString (a.s_addr / 2 ^ 8 % 256) ++ "." ++ toString (a.s_addr % 256)

/-- The address parser of the example resolver: the bundled `inet_aton` on a big-endian
platform (`htonl` is the identity). -/
def exAton (s : String) : Option In_addr :=
  match inet_aton id s (some ⟨0⟩) with
  | (1, some a) => some a
  | _ => none

/-- Numeric host text of a socket address given as its list of octets. -/
def exHostText : List Nat → String
  | [] => ""
  | [x] => toString x
  | x :: xs => toString x ++ "." ++ exHostText xs

/-- An example host entry, with one alias and the one address 93.184.216.34. -/
def exHost : Hostent := ⟨"example.org", some ["www.example.org"], some [⟨1572395042⟩]⟩

/-- Example resolver.  `byaddr` and `byname` are the answers of the two host lookups and
`gai` the answer of `getaddrinfo`; `getnameinfo` prints the octets of the address and
answers `"echo"` for the service; the machine is called `"localhost"`.  The world state
counts the calls. -/
def exDns (byaddr byname : Int × Option Hostent) (gai : Int × List Addrinfo) : Dns Nat where
  IO_DONE := 0
  SOCK_STREAM := 1
  PF_UNSPEC := 0
  AF_INET := 2
  AF_INET6 := 10
  NI_MAXHOST := 1025
  NI_NUMERICHOST := 1
  inet_aton := exAton
  inet_ntoa := exNtoa
  socket_gethostbyaddr := fun s _ _ => (byaddr.1, byaddr.2, s + 1)
  socket_gethostbyname := fun s _ => (byname.1, byname.2, s + 1)
  socket_hoststrerror := fun e => if e = 1 then some "host not found" else some (toString e)
  getaddrinfo := fun s _ _ _ => (gai.1, gai.2, s + 1)
  freeaddrinfo := fun s _ => s + 1
  socket_gaistrerror := fun e => if e = 0 then none else some (toString e)
  getnameinfo := fun s sa _ _ _ _ => (⟨0, exHostText sa, "echo"⟩, s + 1)
  gethostname := fun s _ => (0, "localhost", s + 1)
  lua_number2str := fun n => toString n

/-- The example resolver with a `getnameinfo` that fails on every address, with the
status `err`, and writes nothing. -/
def exDnsNoName (err : Int) (gai : Int × List Addrinfo) : Dns Nat :=
  { exDns (1, none) (1, none) gai with
    getnameinfo := fun s _ _ _ _ _ => (⟨err, "", ""⟩, s + 1) }

/-! ## Vocabulary for the results of the address functions -/

/-- Answers of the `getnameinfo` calls made, one after the other starting in world state
`s`, on every candidate of `cs` with the given buffer lengths and flags. -/
def nameinfo_answers (d : Dns σ) (hostlen servlen : Nat) (flags : Int) :
    σ → List Addrinfo → List NameInfo
  | _, [] => []
  | s, c :: cs =>
    (d.getnameinfo s c.ai_addr c.ai_addrlen hostlen servlen flags).1 ::
      nameinfo_answers d hostlen servlen flags
        (d.getnameinfo s c.ai_addr c.ai_addrlen hostlen servlen flags).2 cs

/-- The `family` field of the record of a candidate: `"inet"` for an IPv4 candidate,
`"inet6"` for an IPv6 candidate, no field for any other family. -/
def family_fields (d : Dns σ) (ai_family : Int) : List (Key × LuaValue) :=
  if ai_family = d.AF_INET then [(Key.str "family", LuaValue.string "inet")]
  else if ai_family = d.AF_INET6 then [(Key.str "family", LuaValue.string "inet6")]
  else []

/-- The record of a candidate: its `family` field, if any, and its `addr` field. -/
def addrinfo_record (d : Dns σ) (c : Addrinfo) (host : String) : LuaValue :=
  LuaValue.table (family_fields d c.ai_family ++ [(Key.str "addr", LuaValue.string host)])

/-- Contents of the service buffer of `inet_global_getnameinfo` after the loop: what the
last `getnameinfo` call wrote when a service was supplied and a call was made, and the
initial contents `serv0` otherwise. -/
def serv_after (service : Option String) (answers : List NameInfo) (serv0 : Option String) :
    Option String :=
  if service.isSome then
    match answers.getLast? with
    | some a => some a.serv
    | none => serv0
  else serv0

/-! ## Serial ports (`src/serial.c`): terminal settings

`set_termios` copies the fields of a Lua options table into a `struct termios`;
`meth_options` applies such a table to an open serial object and builds the table of
the settings in force.  The constants of `<termios.h>` and the speed functions of the C
library are parameters. -/

/-- Model of `struct termios`: the four flag words (`tcflag_t`, 32 bits) and the two
speed fields.  Where the speeds are kept (these fields, or bits of a flag word) is up to
the C library.  The code never touches the control characters. -/
structure Termios where
  c_iflag : Nat
  c_oflag : Nat
  c_cflag : Nat
  c_lflag : Nat
  c_ispeed : Nat
  c_ospeed : Nat
  deriving DecidableEq, Repr

/-- The four flag words of a `struct termios`. -/
inductive FlagWord where
  | c_cflag
  | c_lflag
  | c_iflag
  | c_oflag
  deriving DecidableEq, Repr

/-- Reading the flag word `w` of a `struct termios`. -/
def Termios.flag (t : Termios) : FlagWord → Nat
  | FlagWord.c_cflag => t.c_cflag
  | FlagWord.c_lflag => t.c_lflag
  | FlagWord.c_iflag => t.c_iflag
  | FlagWord.c_oflag => t.c_oflag

/-- Assigning the flag word `w` of a `struct termios`. -/
def Termios.with_flag (t : Termios) : FlagWord → Nat → Termios
  | FlagWord.c_cflag, v => { t with c_cflag := v }
  | FlagWord.c_lflag, v => { t with c_lflag := v }
  | FlagWord.c_iflag, v => { t with c_iflag := v }
  | FlagWord.c_oflag, v => { t with c_oflag := v }

/-- The assignment `w |= c` on a `tcflag_t`. -/
def tcflag_or (w c : Nat) : Nat := (w ||| c) % 2 ^ 32

/-- The assignment `w &= ~c` on a `tcflag_t`: `~c` is the 32-bit complement of `c`. -/
def tcflag_andnot (w c : Nat) : Nat := (w &&& (2 ^ 32 - 1 - c % 2 ^ 32)) % 2 ^ 32

/-- What `serial.c` takes from `<termios.h>`: the 32 flag constants, the character size
mask and its four values, the 19 speed constants, the three `tcsetattr` actions, and the
four speed functions of the C library acting on a `struct termios`. -/
structure Termios_h where
  CLOCAL : Nat
  CREAD : Nat
  PARENB : Nat
  CSTOPB : Nat
  PARODD : Nat
  HUPCL : Nat
  ICANON : Nat
  ECHO : Nat
  ECHOE : Nat
  ECHOK : Nat
  ECHONL : Nat
  ISIG : Nat
  TOSTOP : Nat
  IEXTEN : Nat
  IGNBRK : Nat
  BRKINT : Nat
  IGNPAR : Nat
  PARMRK : Nat
  INPCK : Nat
  ISTRIP : Nat
  INLCR : Nat
  IGNCR : Nat
  ICRNL : Nat
  IXON : Nat
  IXANY : Nat
  IXOFF : Nat
  OPOST : Nat
  ONLCR : Nat
  OCRNL : Nat
  ONOCR : Nat
  ONLRET : Nat
  OFILL : Nat
  CSIZE : Nat
  CS5 : Nat
  CS6 : Nat
  CS7 : Nat
  CS8 : Nat
  B0 : Nat
  B50 : Nat
  B75 : Nat
  B110 : Nat
  B134 : Nat
  B150 : Nat
  B200 : Nat
  B300 : Nat
  B600 : Nat
  B1200 : Nat
  B1800 : Nat
  B2400 : Nat
  B4800 : Nat
  B9600 : Nat
  B19200 : Nat
  B38400 : Nat
  B57600 : Nat
  B115200 : Nat
  B230400 : Nat
  TCSANOW : Int
  TCSADRAIN : Int
  TCSAFLUSH : Int
  cfsetispeed : Termios → Nat → Termios
  cfsetospeed : Termios → Nat → Termios
  cfgetispeed : Termios → Nat
  cfgetospeed : Termios → Nat

/-! ### More of the Lua API

Metatables are not modelled: indexing anything but a table raises the error Lua raises
for a value without an index metamethod. -/

/-- Model of `luaL_typename` on a value. -/
def LuaValue.typename : LuaValue → String
  | LuaValue.nil => "nil"
  | LuaValue.boolean _ => "boolean"
  | LuaValue.number _ => "number"
  | LuaValue.string _ => "string"
  | LuaValue.table _ => "table"
  | LuaValue.userdata _ => "userdata"

/-- Model of `luaL_typename(L, idx)`; an index beyond the stack has type `no value`. -/
def luaL_typename (L : LuaStack) (idx : Int) : String :=
  match lua_index L idx with
  | some v => v.typename
  | none => "no value"

/-- Model of `lua_isnoneornil(L, idx)`. -/
def lua_isnoneornil (L : LuaStack) (idx : Int) : Bool :=
  match lua_index L idx with
  | none => true
  | some LuaValue.nil => true
  | some _ => false

/-- Model of `lua_istable(L, idx)`. -/
def lua_istable (L : LuaStack) (idx : Int) : Bool :=
  match lua_index L idx with
  | some (LuaValue.table _) => true
  | _ => false

/-- Model of `lua_isboolean(L, idx)`. -/
def lua_isboolean (L : LuaStack) (idx : Int) : Bool :=
  match lua_index L idx with
  | some (LuaValue.boolean _) => true
  | _ => false

/-- Model of `lua_toboolean(L, idx)`: false for `false`, `nil` and an absent value. -/
def lua_toboolean (L : LuaStack) (idx : Int) : Bool :=
  match lua_index L idx with
  | none => false
  | some LuaValue.nil => false
  | some (LuaValue.boolean b) => b
  | some _ => true

/-- Model of `lua_isnumber(L, idx)`: a number, or a string Lua converts to a number
(`str2number` is Lua's conversion). -/
def lua_isnumber (str2number : String → Option Int) (L : LuaStack) (idx : Int) : Bool :=
  match lua_index L idx with
  | some (LuaValue.number _) => true
  | some (LuaValue.string s) => (str2number s).isSome
  | _ => false

/-- Model of `lua_tointeger(L, idx)`: the value as a `lua_Integer`, 0 for a value that
is not a number.  Numbers are integral and within the range of `lua_Integer`. -/
def lua_tointeger (str2number : String → Option Int) (L : LuaStack) (idx : Int) : Int :=
  match lua_index L idx with
  | some (LuaValue.number n) => n
  | some (LuaValue.string s) => (str2number s).getD 0
  | _ => 0

/-- Conversion of a `lua_Integer` to `int` (32 bits, two's complement), as in the
initialisation `int ispeed = lua_tointeger(L, -1)`. -/
def to_int (n : Int) : Int := (n + 2 ^ 31) % 2 ^ 32 - 2 ^ 31

/-- Model of `lua_pushboolean`. -/
def lua_pushboolean (L : LuaStack) (b : Bool) : LuaStack := LuaValue.boolean b :: L

/-- Model of `lua_pop(L, n)`. -/
def lua_pop (L : LuaStack) (n : Nat) : LuaStack := L.drop n

/-- Model of `lua_createtable(L, narr, nrec)`: the sizes are only hints. -/
def lua_createtable (L : LuaStack) (_narr _nrec : Nat) : LuaStack := LuaValue.table [] :: L

/-- The error Lua raises when a value that is not a table is indexed. -/
def index_error (t : Option LuaValue) : LuaError :=
  LuaError.message ("attempt to index a " ++
    (match t with
      | some v => v.typename
      | none => "nil") ++ " value")

/-- Model of `lua_getfield(L, idx, k)`: pushes `t[k]` for the table `t` at `idx`. -/
def lua_getfield (L : LuaStack) (idx : Int) (k : String) : Except LuaError LuaStack :=
  match lua_index L idx with
  | some (LuaValue.table fields) => Except.ok (table_get fields (Key.str k) :: L)
  | t => Except.error (index_error t)

/-- Model of `lua_gettable(L, idx)`: with the key on top, replaces it by `t[key]` for the
table `t` at `idx`.  A key that is neither a number nor a string finds `nil`. -/
def lua_gettable (L : LuaStack) (idx : Int) : Except LuaError LuaStack :=
  match L with
  | k :: rest =>
    match lua_index L idx with
    | some (LuaValue.table fields) =>
      Except.ok ((match k.to_key with
        | some key => table_get fields key
        | none => LuaValue.nil) :: rest)
    | t => Except.error (index_error t)
  | [] => Except.error (index_error none)

/-- Model of `lua_setfield(L, idx, k)`: with `v` on top, performs `t[k] = v` on the table
`t` at `idx` and pops `v`.  When `idx` denotes the value itself, the table assigned to is
the one popped. -/
def lua_setfield (L : LuaStack) (idx : Int) (k : String) : Except LuaError LuaStack :=
  match L with
  | v :: rest =>
    match stack_pos (rest.length + 1) idx with
    | some 0 =>
      (match v with
        | LuaValue.table _ => Except.ok rest
        | t => Except.error (index_error (some t)))
    | some (p + 1) =>
      (match rest[p]? with
        | some (LuaValue.table fields) =>
          Except.ok (rest.set p (LuaValue.table (table_set fields (Key.str k) v)))
        | t => Except.error (index_error t))
    | none => Except.error (index_error none)
  | [] => Except.error (index_error none)

/-- Model of `luaL_checkoption(L, narg, NULL, lst)`: the position in `lst` of the string
argument, an argument error when it is not listed. -/
def luaL_checkoption (number2str : Int → String) (L : LuaStack) (narg : Int)
    (lst : List String) : Except LuaError (Nat × LuaStack) :=
  match luaL_checkstring number2str L narg with
  | Except.error e => Except.error e
  | Except.ok (name, L) =>
    if lst.indexOf name < lst.length then Except.ok (lst.indexOf name, L)
    else Except.error (LuaError.bad_argument narg ("invalid option \x27" ++ name ++ "\x27"))

/-! ### `set_termios` (serial.c, lines 158-175 and 245-402) -/

/-- The macro `SET_FLAG_IN_TERMIOS_STRUCT(L, options, tab_ind, flag_type, key_str,
constant)`: a boolean field `key_str` of the table at `tab_ind` sets or clears
`constant` in the flag word `flag_type`; an absent field changes nothing; a field of
another type raises an error. -/
def SET_FLAG_IN_TERMIOS_STRUCT (L : LuaStack) (options : Termios) (tab_ind : Int)
    (flag_type : FlagWord) (key_str : String) (constant : Nat) :
    Except LuaError (Termios × LuaStack) :=
  let L := lua_pushstring L (some key_str)
  match lua_gettable L tab_ind with
  | Except.error e => Except.error e
  | Except.ok L =>
    if !lua_isnoneornil L (-1) then
      if lua_isboolean L (-1) then
        if lua_toboolean L (-1) then
          Except.ok (options.with_flag flag_type (tcflag_or (options.flag flag_type) constant),
            lua_pop L 1)
        else
          Except.ok (options.with_flag flag_type
            (tcflag_andnot (options.flag flag_type) constant), lua_pop L 1)
      else
        Except.error (LuaError.message ("Option flags must be of type boolean; flag " ++
          key_str ++ " is of type " ++ luaL_typename L (-1)))
    else Except.ok (options, lua_pop L 1)

/-- The 32 flags in the order `set_termios` and `meth_options` go through them: the flag
word, the key of the options table and the constant of each macro invocation. -/
def termios_flags (h : Termios_h) : List (FlagWord × String × Nat) :=
  [(FlagWord.c_cflag, "clocal", h.CLOCAL),
   (FlagWord.c_cflag, "cread", h.CREAD),
   (FlagWord.c_cflag, "parenb", h.PARENB),
   (FlagWord.c_cflag, "cstopb", h.CSTOPB),
   (FlagWord.c_cflag, "parodd", h.PARODD),
   (FlagWord.c_cflag, "hupcl", h.HUPCL),
   (FlagWord.c_lflag, "icanon", h.ICANON),
   (FlagWord.c_lflag, "echo", h.ECHO),
   (FlagWord.c_lflag, "echoe", h.ECHOE),
   (FlagWord.c_lflag, "echok", h.ECHOK),
   (FlagWord.c_lflag, "echonl", h.ECHONL),
   (FlagWord.c_lflag, "isig", h.ISIG),
   (FlagWord.c_lflag, "tostop", h.TOSTOP),
   (FlagWord.c_lflag, "iexten", h.IEXTEN),
   (FlagWord.c_iflag, "ignbrk", h.IGNBRK),
   (FlagWord.c_iflag, "brkint", h.BRKINT),
   (FlagWord.c_iflag, "ignpar", h.IGNPAR),
   (FlagWord.c_iflag, "parmrk", h.PARMRK),
   (FlagWord.c_iflag, "inpck", h.INPCK),
   (FlagWord.c_iflag, "istrip", h.ISTRIP),
   (FlagWord.c_iflag, "inlcr", h.INLCR),
   (FlagWord.c_iflag, "igncr", h.IGNCR),
   (FlagWord.c_iflag, "icrnl", h.ICRNL),
   (FlagWord.c_iflag, "ixon", h.IXON),
   (FlagWord.c_iflag, "ixany", h.IXANY),
   (FlagWord.c_iflag, "ixoff", h.IXOFF),
   (FlagWord.c_oflag, "opost", h.OPOST),
   (FlagWord.c_oflag, "onlcr", h.ONLCR),
   (FlagWord.c_oflag, "ocrnl", h.OCRNL),
   (FlagWord.c_oflag, "onocr", h.ONOCR),
   (FlagWord.c_oflag, "onlret", h.ONLRET),
   (FlagWord.c_oflag, "ofill", h.OFILL)]

/-- The `reset_flags_first` block of `set_termios` (lines 247-260). -/
def set_termios_reset (L : LuaStack) (options : Termios) (tab_ind : Int) :
    Except LuaError (Termios × LuaStack) :=
  match lua_getfield L tab_ind "reset_flags_first" with
  | Except.error e => Except.error e
  | Except.ok L =>
    if !lua_isnoneornil L (-1) then
      if lua_isboolean L (-1) then
        if lua_toboolean L (-1) then
          Except.ok ({ options with c_cflag := 0, c_lflag := 0, c_oflag := 0, c_iflag := 0 },
            lua_pop L 1)
        else Except.ok (options, lua_pop L 1)
      else
        Except.error (LuaError.message
          ("The reset_flags_first option must be a boolean; is of type " ++
            luaL_typename L (-1)))
    else Except.ok (options, lua_pop L 1)

/-- The 19 `case` labels of the baud-rate `switch` statements with their speed constants:
`case 50: cfsetispeed(options, B50)` in `set_termios`, `case B50: lua_pushnumber(L, 50)`
in `meth_options`. -/
def baud_cases (h : Termios_h) : List (Int × Nat) :=
  [(0, h.B0), (50, h.B50), (75, h.B75), (110, h.B110), (134, h.B134), (150, h.B150),
   (200, h.B200), (300, h.B300), (600, h.B600), (1200, h.B1200), (1800, h.B1800),
   (2400, h.B2400), (4800, h.B4800), (9600, h.B9600), (19200, h.B19200), (38400, h.B38400),
   (57600, h.B57600), (115200, h.B115200), (230400, h.B230400)]

/-- The two baud-rate `switch` statements of `set_termios`: the speed constant of the
label equal to the `int` value `speed`, `none` for the `default` label. -/
def baud_constant (h : Termios_h) (speed : Int) : Option Nat :=
  ((baud_cases h).find? fun p => p.1 = speed).map Prod.snd

/-- The text listing the baud rates in the two error messages. -/
def baud_list : String :=
  "0, 50, 75, 110, 134, 150, 200, 300, 600, 1200, 1800, 2400, 4800, 9600, 19200, 38400, " ++
  "57600, 115200 or 230400"

/-- The `ispeed` block of `set_termios` (lines 262-294). -/
def set_termios_ispeed (h : Termios_h) (str2number : String → Option Int) (L : LuaStack)
    (options : Termios) (tab_ind : Int) : Except LuaError (Termios × LuaStack) :=
  match lua_getfield L tab_ind "ispeed" with
  | Except.error e => Except.error e
  | Except.ok L =>
    if !lua_isnoneornil L (-1) then
      if lua_isnumber str2number L (-1) then
        let ispeed := to_int (lua_tointeger str2number L (-1))
        match baud_constant h ispeed with
        | some b => Except.ok (h.cfsetispeed options b, lua_pop L 1)
        | none => Except.error (LuaError.message
            ("Baud rate (for ispeed) must be one of " ++ baud_list))
      else
        Except.error (LuaError.message
          ("Baud rates must be of type number; flag ispeed is of type " ++
            luaL_typename L (-1)))
    else Except.ok (options, lua_pop L 1)

/-- The `ospeed` block of `set_termios` (lines 296-328). -/
def set_termios_ospeed (h : Termios_h) (str2number : String → Option Int) (L : LuaStack)
    (options : Termios) (tab_ind : Int) : Except LuaError (Termios × LuaStack) :=
  match lua_getfield L tab_ind "ospeed" with
  | Except.error e => Except.error e
  | Except.ok L =>
    if !lua_isnoneornil L (-1) then
      if lua_isnumber str2number L (-1) then
        let ospeed := to_int (lua_tointeger str2number L (-1))
        match baud_constant h ospeed with
        | some b => Except.ok (h.cfsetospeed options b, lua_pop L 1)
        | none => Except.error (LuaError.message
            ("Baud rate (for ospeed) must be one of " ++ baud_list))
      else
        Except.error (LuaError.message
          ("Baud rates must be of type number; flag ospeed is of type " ++
            luaL_typename L (-1)))
    else Except.ok (options, lua_pop L 1)

/-- The case labels of the `csize` `switch` of `set_termios`, which switches on the
`lua_Integer` itself: the `CS` constant selected, `none` for the `default` label. -/
def csize_constant (h : Termios_h) (n : Int) : Option Nat :=
  if n = 5 then some h.CS5
  else if n = 6 then some h.CS6
  else if n = 7 then some h.CS7
  else if n = 8 then some h.CS8
  else none

/-- The `csize` block of `set_termios` (lines 330-365). -/
def set_termios_csize (h : Termios_h) (str2number : String → Option Int) (L : LuaStack)
    (options : Termios) (tab_ind : Int) : Except LuaError (Termios × LuaStack) :=
  match lua_getfield L tab_ind "csize" with
  | Except.error e => Except.error e
  | Except.ok L =>
    if !lua_isnoneornil L (-1) then
      if lua_isnumber str2number L (-1) then
        match csize_constant h (lua_tointeger str2number L (-1)) with
        | some cs =>
          Except.ok ({ options with
            c_cflag := tcflag_or (tcflag_andnot options.c_cflag h.CSIZE) cs }, lua_pop L 1)
        | none => Except.error (LuaError.message
            "The character size mask (csize) must be one of 5, 6, 7 or 8")
      else
        Except.error (LuaError.message
          ("The character size mask (csize) must be of type number; is of type " ++
            luaL_typename L (-1)))
    else Except.ok (options, lua_pop L 1)

/-- The 32 invocations of `SET_FLAG_IN_TERMIOS_STRUCT` of `set_termios`, in order. -/
def set_termios_flags : List (FlagWord × String × Nat) → LuaStack → Termios → Int →
    Except LuaError (Termios × LuaStack)
  | [], L, options, _ => Except.ok (options, L)
  | (flag_type, key_str, constant) :: rest, L, options, tab_ind =>
    match SET_FLAG_IN_TERMIOS_STRUCT L options tab_ind flag_type key_str constant with
    | Except.error e => Except.error e
    | Except.ok r => set_termios_flags rest r.2 r.1 tab_ind

/-- Embedding of `set_termios(L, options, tab_ind)`: the new `struct termios` and the
stack, or the error raised. -/
def set_termios (h : Termios_h) (str2number : String → Option Int) (L : LuaStack)
    (options : Termios) (tab_ind : Int) : Except LuaError (Termios × LuaStack) :=
  (set_termios_reset L options tab_ind).bind fun r =>
  (set_termios_ispeed h str2number r.2 r.1 tab_ind).bind fun r =>
  (set_termios_ospeed h str2number r.2 r.1 tab_ind).bind fun r =>
  (set_termios_csize h str2number r.2 r.1 tab_ind).bind fun r =>
  set_termios_flags (termios_flags h) r.2 r.1 tab_ind

/-! ### `meth_options` (serial.c, lines 177-182 and 415-536) -/

/-- What `meth_options` uses from outside `serial.c`, over a state `σ` of the devices:
`auxiliar_checkgroup` gives the descriptor `un->sock` of the serial object at an index
(`none` when the value there is not one, which raises an argument error), `tcgetattr`
reads and `tcsetattr` writes the settings of a descriptor. -/
structure Tty (σ : Type) where
  auxiliar_checkgroup : LuaStack → Int → Option Int
  tcgetattr : σ → Int → Termios
  tcsetattr : σ → Int → Int → Termios → σ
  lua_number2str : Int → String
  lua_str2number : String → Option Int

/-- The macro `GET_FLAG_FROM_TERMIOS_STRUCT(L, options, tab_ind, flag_type, key_str,
constant)`: pushes the boolean `flag_type && constant` (the logical conjunction of the C
source) and stores it in the field `key_str` of the table at `tab_ind`. -/
def GET_FLAG_FROM_TERMIOS_STRUCT (L : LuaStack) (options : Termios) (tab_ind : Int)
    (flag_type : FlagWord) (key_str : String) (constant : Nat) : Except LuaError LuaStack :=
  let L := lua_pushboolean L (options.flag flag_type != 0 && constant != 0)
  lua_setfield L tab_ind key_str

/-- The 32 invocations of `GET_FLAG_FROM_TERMIOS_STRUCT` of `meth_options`, in order. -/
def get_termios_flags : List (FlagWord × String × Nat) → LuaStack → Termios → Int →
    Except LuaError LuaStack
  | [], L, _, _ => Except.ok L
  | (flag_type, key_str, constant) :: rest, L, options, tab_ind =>
    match GET_FLAG_FROM_TERMIOS_STRUCT L options tab_ind flag_type key_str constant with
    | Except.error e => Except.error e
    | Except.ok L => get_termios_flags rest L options tab_ind

/-- The two speed `switch` statements of `meth_options`: the rate of the first label
equal to the speed, `none` for the `default` label. -/
def baud_rate (h : Termios_h) (speed : Nat) : Option Int :=
  ((baud_cases h).find? fun p => p.2 = speed).map Prod.fst

/-- One speed `switch` of `meth_options`: pushes the rate of the speed, or the string
`unknown`. -/
def push_speed (h : Termios_h) (L : LuaStack) (speed : Nat) : LuaStack :=
  match baud_rate h speed with
  | some r => lua_pushnumber L r
  | none => lua_pushstring L (some "unknown")

/-- The `csize` chain of `meth_options` (lines 486-498), with the logical conjunctions
of the C source. -/
def meth_options_csize (h : Termios_h) (L : LuaStack) (options : Termios) :
    Except LuaError LuaStack :=
  if options.c_cflag != 0 && h.CS5 != 0 then lua_setfield (lua_pushnumber L 5) 1 "csize"
  else if options.c_cflag != 0 && h.CS6 != 0 then lua_setfield (lua_pushnumber L 6) 1 "csize"
  else if options.c_cflag != 0 && h.CS7 != 0 then lua_setfield (lua_pushnumber L 7) 1 "csize"
  else if options.c_cflag != 0 && h.CS8 != 0 then lua_setfield (lua_pushnumber L 8) 1 "csize"
  else Except.ok L

/-- The second half of `meth_options` (lines 439-535): the fields stored, through stack
index 1, from the `struct termios`. -/
def meth_options_fill (h : Termios_h) (L : LuaStack) (options : Termios) :
    Except LuaError LuaStack :=
  (lua_setfield (push_speed h L (h.cfgetospeed options)) 1 "ospeed").bind fun L =>
  (lua_setfield (push_speed h L (h.cfgetispeed options)) 1 "ispeed").bind fun L =>
  (meth_options_csize h L options).bind fun L =>
  get_termios_flags (termios_flags h) L options 1

/-- The `when` argument of `meth_options` (lines 421-428): `TCSANOW` unless the third
argument names another action; the argument is popped. -/
def meth_options_when (h : Termios_h) (y : Tty σ) (L : LuaStack) :
    Except LuaError (Int × LuaStack) :=
  if !lua_isnoneornil L 3 then
    match luaL_checkoption y.lua_number2str L 3 ["now", "drain", "flush"] with
    | Except.error e => Except.error e
    | Except.ok (i, L) =>
      Except.ok ((if i = 0 then h.TCSANOW else if i = 1 then h.TCSADRAIN else h.TCSAFLUSH),
        lua_pop L 1)
  else Except.ok (h.TCSANOW, L)

/-- The first half of `meth_options` after `tcgetattr` (lines 418-437): an options table
as second argument is applied with `set_termios` and written with `tcsetattr`. -/
def meth_options_apply (h : Termios_h) (y : Tty σ) (L : LuaStack) (s : σ) (sock : Int)
    (options : Termios) : Except LuaError (Termios × LuaStack × σ) :=
  if !lua_isnoneornil L 2 then
    if lua_istable L 2 then
      match meth_options_when h y L with
      | Except.error e => Except.error e
      | Except.ok (when, L) =>
        match set_termios h y.lua_str2number L options 2 with
        | Except.error e => Except.error e
        | Except.ok (options, L) =>
          Except.ok (options, lua_pop L 1, y.tcsetattr s sock when options)
    else Except.error (LuaError.bad_argument 2 "Please pass a table or nil")
  else Except.ok (options, L, s)

/-- Embedding of `meth_options(L)`: the outcome and the state of the devices. -/
def meth_options (h : Termios_h) (y : Tty σ) (L : LuaStack) (s : σ) : Result × σ :=
  match y.auxiliar_checkgroup L 1 with
  | none => (Result.raised (LuaError.bad_argument 1 "serial{any}"), s)
  | some sock =>
    match meth_options_apply h y L s sock (y.tcgetattr s sock) with
    | Except.error e => (Result.raised e, s)
    | Except.ok (options, L, s) =>
      let L := lua_pop L 1
      let L := lua_createtable L 0 37
      match meth_options_fill h L options with
      | Except.error e => (Result.raised e, s)
      | Except.ok L => (Result.returned (lua_results L 1), s)

/-- The field `k` of the table a C function returned as its only result (`nil` when
the outcome is anything else). -/
def Result.field (r : Result) (k : String) : LuaValue :=
  match r with
  | Result.returned [v] => v.get (Key.str k)
  | _ => LuaValue.nil

/-! ### `global_create` (serial.c, lines 541-572) -/

/-- The open flags `serial.c` takes from `<fcntl.h>`. -/
structure Fcntl_h where
  O_RDONLY : Nat
  O_WRONLY : Nat
  O_RDWR : Nat
  O_NOCTTY : Nat
  O_NDELAY : Nat

/-- The `do ... while` scan of the mode string in `global_create`.  The argument is the
rest of the C string from `mode[i]` on, the empty list standing for the terminating NUL,
and `rd`, `wr` are the two flags on entry to the loop body. -/
def mode_scan : List Char → Bool → Bool → Bool × Bool
  | [], rd, wr => (rd, wr)
  | m :: rest, rd, wr =>
    let rd := if m = 'r' then true else rd
    let wr := if m = 'w' then true else wr
    if m ≠ '\x00' ∧ (!rd || !wr) then mode_scan rest rd wr else (rd, wr)

/-- The call of `open` that `global_create` makes. -/
structure OpenCall where
  path : String
  flags : Nat
  deriving DecidableEq, Repr

/-- Model of `lua_newuserdata`: pushes a fresh userdata, known by its address. -/
def lua_newuserdata (L : LuaStack) (ptr : Nat) : LuaStack := LuaValue.userdata ptr :: L

/-- The part of `global_create` up to and including its call of `open` (lines 541-572):
the argument error raised, or the `open` call made and the stack at that point.  `ptr`
is the address `lua_newuserdata` gives the new object. -/
def global_create_open (f : Fcntl_h) (number2str : Int → String) (ptr : Nat)
    (L : LuaStack) : Except LuaError (OpenCall × LuaStack) :=
  match luaL_checkstring number2str L 1 with
  | Except.error e => Except.error e
  | Except.ok (path, L) =>
    match luaL_checkstring number2str L 2 with
    | Except.error e => Except.error e
    | Except.ok (mode, L) =>
      let r := mode_scan mode.toList false false
      let rd := r.1
      let wr := r.2
      if !(rd || wr) then
        Except.error (LuaError.bad_argument 2 "Please specify at least read or write mode")
      else if !(lua_istable L 3 || lua_isnoneornil L 3) then
        Except.error (LuaError.bad_argument 3 "Please pass a table or a nil")
      else
        let L := lua_newuserdata L ptr
        Except.ok (⟨path, (if rd && wr then f.O_RDWR else if rd then f.O_RDONLY
          else f.O_WRONLY) ||| f.O_NOCTTY ||| f.O_NDELAY⟩, L)

/-! ### An example platform -/

/-- The speed mask `CBAUD` of Linux; it includes the bit `CBAUDEX`. -/
def linux_CBAUD : Nat := 0o10017

/-- The bit of `c_iflag` in which the C library on Linux records an input speed of 0,
which stands for the output speed. -/
def linux_IBAUD0 : Nat := 0o20000000000

/-- The test by which the speed setters of the C library on Linux refuse a speed: a bit
outside `CBAUD` and a value outside `B57600` .. `B4000000`. -/
def linux_bad_speed (speed : Nat) : Bool :=
  tcflag_andnot speed linux_CBAUD != 0 && (speed < 0o10001 || speed > 0o10017)

/-- `cfsetospeed` of the C library on Linux: the speed is put in the `CBAUD` bits of
`c_cflag` (and in `c_ospeed`); a refused speed changes nothing. -/
def linux_cfsetospeed (t : Termios) (speed : Nat) : Termios :=
  if linux_bad_speed speed then t
  else { t with c_ospeed := speed,
                c_cflag := tcflag_or (tcflag_andnot t.c_cflag linux_CBAUD) speed }

/-- `cfsetispeed` of the C library on Linux: speed 0 sets `IBAUD0` in `c_iflag`, any
other speed clears it and is put in the `CBAUD` bits of `c_cflag`, the same bits as the
output speed (and in `c_ispeed`); a refused speed changes nothing. -/
def linux_cfsetispeed (t : Termios) (speed : Nat) : Termios :=
  if linux_bad_speed speed then t
  else if speed = 0 then
    { t with c_ispeed := speed, c_iflag := tcflag_or t.c_iflag linux_IBAUD0 }
  else
    { t with c_ispeed := speed, c_iflag := tcflag_andnot t.c_iflag linux_IBAUD0,
             c_cflag := tcflag_or (tcflag_andnot t.c_cflag linux_CBAUD) speed }

/-- `cfgetospeed` of the C library on Linux: the `CBAUD` bits of `c_cflag`. -/
def linux_cfgetospeed (t : Termios) : Nat := t.c_cflag &&& linux_CBAUD

/-- `cfgetispeed` of the C library on Linux: 0 when `IBAUD0` is set, else the `CBAUD`
bits of `c_cflag`. -/
def linux_cfgetispeed (t : Termios) : Nat :=
  if t.c_iflag &&& linux_IBAUD0 != 0 then 0 else t.c_cflag &&& linux_CBAUD

/-- The constants of Linux (`asm-generic/termbits.h`) and the speed functions of the GNU C
library on Linux, which keeps both speeds in the `CBAUD` bits of `c_cflag`. -/
def linux_termios : Termios_h where
  CLOCAL := 0o4000
  CREAD := 0o200
  PARENB := 0o400
  CSTOPB := 0o100
  PARODD := 0o1000
  HUPCL := 0o2000
  ICANON := 0o2
  ECHO := 0o10
  ECHOE := 0o20
  ECHOK := 0o40
  ECHONL := 0o100
  ISIG := 0o1
  TOSTOP := 0o400
  IEXTEN := 0o100000
  IGNBRK := 0o1
  BRKINT := 0o2
  IGNPAR := 0o4
  PARMRK := 0o10
  INPCK := 0o20
  ISTRIP := 0o40
  INLCR := 0o100
  IGNCR := 0o200
  ICRNL := 0o400
  IXON := 0o2000
  IXANY := 0o4000
  IXOFF := 0o10000
  OPOST := 0o1
  ONLCR := 0o4
  OCRNL := 0o10
  ONOCR := 0o20
  ONLRET := 0o40
  OFILL := 0o100
  CSIZE := 0o60
  CS5 := 0o0
  CS6 := 0o20
  CS7 := 0o40
  CS8 := 0o60
  B0 := 0o0
  B50 := 0o1
  B75 := 0o2
  B110 := 0o3
  B134 := 0o4
  B150 := 0o5
  B200 := 0o6
  B300 := 0o7
  B600 := 0o10
  B1200 := 0o11
  B1800 := 0o12
  B2400 := 0o13
  B4800 := 0o14
  B9600 := 0o15
  B19200 := 0o16
  B38400 := 0o17
  B57600 := 0o10001
  B115200 := 0o10002
  B230400 := 0o10003
  TCSANOW := 0
  TCSADRAIN := 1
  TCSAFLUSH := 2
  cfsetispeed := linux_cfsetispeed
  cfsetospeed := linux_cfsetospeed
  cfgetispeed := linux_cfgetispeed
  cfgetospeed := linux_cfgetospeed

/-- The open flags of Linux. -/
def linux_fcntl : Fcntl_h where
  O_RDONLY := 0o0
  O_WRONLY := 0o1
  O_RDWR := 0o2
  O_NOCTTY := 0o400
  O_NDELAY := 0o4000

/-- An example terminal layer over one device whose settings are the state: every
userdata is a serial object whose descriptor is its address. -/
def exTty : Tty Termios where
  auxiliar_checkgroup := fun L idx =>
    match lua_index L idx with
    | some (LuaValue.userdata p) => some (p : Int)
    | _ => none
  tcgetattr := fun s _ => s
  tcsetattr := fun _ _ _ t => t
  lua_number2str := fun n => toString n
  lua_str2number := fun s => s.toInt?

/-- Settings of a raw 8-bit line, speed `B0`: `c_cflag` is `CS8 | CREAD | CLOCAL`. -/
def exRaw : Termios := ⟨0, 0, 0o4260, 0, 0, 0⟩

/-- An options table with the single field `k = v`. -/
def options_table (k : String) (v : LuaValue) : LuaValue := LuaValue.table [(Key.str k, v)]

/-! ### Vocabulary for the serial options -/

/-- The 19 baud rates listed by the error messages of `set_termios`. -/
def baud_rates : List Int :=
  [0, 50, 75, 110, 134, 150, 200, 300, 600, 1200, 1800, 2400, 4800, 9600, 19200, 38400,
   57600, 115200, 230400]

/-- The 19 speed constants, in the order of the rates. -/
def speed_constants (h : Termios_h) : List Nat :=
  [h.B0, h.B50, h.B75, h.B110, h.B134, h.B150, h.B200, h.B300, h.B600, h.B1200, h.B1800,
   h.B2400, h.B4800, h.B9600, h.B19200, h.B38400, h.B57600, h.B115200, h.B230400]

/-! ## Lemmas on the connect loop -/

theorem connect_calls_append (ps : p_socket) (tm : p_timeout) (a b : List Addrinfo) :
    connect_calls ps tm (a ++ b) = connect_calls ps tm a ++ connect_calls ps tm b := by
  induction a with
  | nil => rfl
  | cons c a ih => simp [connect_calls, ih]

theorem connect_errors_append (w : World σ) (ps : p_socket) (tm : p_timeout) (s : σ)
    (a b : List Addrinfo) :
    connect_errors w ps tm s (a ++ b) =
      connect_errors w ps tm s a ++ connect_errors w ps tm (connect_sweep w ps tm s a) b := by
  induction a generalizing s with
  | nil => rfl
  | cons c a ih => simp [connect_errors, connect_sweep, ih]

/-- While the attempts fail, the loop walks down the chain: it logs a mark-start and a
connect per candidate, keeps the latest error in `err`, and goes on with the rest. -/
theorem inet_tryconnect_loop_failed (w : World σ) (ps : p_socket) (tm : p_timeout)
    (pre rest : List Addrinfo) (err : Option String) (st : St σ)
    (hfail : ∀ e ∈ connect_errors w ps tm st.world pre, e ≠ none) :
    inet_tryconnect_loop w ps tm (pre ++ rest) err st =
      inet_tryconnect_loop w ps tm rest
        ((connect_errors w ps tm st.world pre).getLast?.getD err)
        ⟨connect_sweep w ps tm st.world pre, st.trace ++ connect_calls ps tm pre⟩ := by
  induction pre generalizing err st with
  | nil => simp [connect_errors, connect_sweep, connect_calls]
  | cons c pre ih =>
    have hc : (connect_attempt w ps tm st.world c).1 ≠ none :=
      hfail _ (by simp [connect_errors])
    have hrest : ∀ e ∈ connect_errors w ps tm (connect_attempt w ps tm st.world c).2 pre,
        e ≠ none := fun e he => hfail e (by simp [connect_errors, he])
    have hc2 : w.socket_strerror
        (w.socket_connect (w.timeout_markstart st.world tm) ps c.ai_addr c.ai_addrlen tm).1
          ≠ none := hc
    rw [List.cons_append, inet_tryconnect_loop]
    simp only [call_socket_connect, call_timeout_markstart, if_neg hc2]
    rw [ih _ _ hrest]
    simp [connect_errors, connect_sweep, connect_calls, connect_attempt, List.getLast?_cons]

/-- A successful attempt ends the loop with no error, after one mark-start and one connect. -/
theorem inet_tryconnect_loop_success (w : World σ) (ps : p_socket) (tm : p_timeout)
    (c : Addrinfo) (rest : List Addrinfo) (err : Option String) (st : St σ)
    (hok : (connect_attempt w ps tm st.world c).1 = none) :
    inet_tryconnect_loop w ps tm (c :: rest) err st =
      (none, ⟨(connect_attempt w ps tm st.world c).2, st.trace ++ connect_calls ps tm [c]⟩) := by
  have hc2 : w.socket_strerror
      (w.socket_connect (w.timeout_markstart st.world tm) ps c.ai_addr c.ai_addrlen tm).1
        = none := hok
  rw [inet_tryconnect_loop]
  simp only [call_socket_connect, call_timeout_markstart, if_pos hc2]
  simp [connect_calls, connect_attempt, hc2]

theorem connect_calls_filter_connect (ps : p_socket) (tm : p_timeout) (cs : List Addrinfo) :
    (connect_calls ps tm cs).filter Call.is_connect =
      cs.map (fun c => Call.socket_connect ps c.ai_addr c.ai_addrlen tm) := by
  induction cs with
  | nil => rfl
  | cons c cs ih => simp [connect_calls, Call.is_connect, ih]

/-! ## `inet_tryconnect`: first success and total failure -/

/-- C1: when resolution succeeds with the candidate chain `pre ++ ck :: post`, the
connect attempts on the candidates of `pre` (made one after the other) all fail and the
attempt on `ck` that follows them succeeds, then `inet_tryconnect` returns no error, and
its external calls are exactly: the resolver call, then for each of `pre ++ [ck]` in order
one mark-start and one connect, then the release of the chain.  In particular the connect
calls are those on `pre ++ [ck]`, once each and in order, and none is made on `post`. -/
theorem inet_tryconnect_first_success (w : World σ) (ps : p_socket)
    (address serv : Option String) (tm : p_timeout) (hints : Option Addrinfo) (s : σ)
    (pre post : List Addrinfo) (ck : Addrinfo)
    (hres : w.socket_gaistrerror (w.getaddrinfo s address serv hints).1 = none)
    (hcs : (w.getaddrinfo s address serv hints).2.1 = pre ++ ck :: post)
    (hfail : ∀ e ∈ connect_errors w ps tm (w.getaddrinfo s address serv hints).2.2 pre,
      e ≠ none)
    (hok : (connect_attempt w ps tm
      (connect_sweep w ps tm (w.getaddrinfo s address serv hints).2.2 pre) ck).1 = none) :
    (inet_tryconnect w ps address serv tm hints s).1 = none ∧
    (inet_tryconnect w ps address serv tm hints s).2.trace =
      Call.getaddrinfo address serv hints :: connect_calls ps tm (pre ++ [ck]) ++
        [Call.freeaddrinfo (pre ++ ck :: post)] ∧
    (inet_tryconnect w ps address serv tm hints s).2.trace.filter Call.is_connect =
      (pre ++ [ck]).map (fun c => Call.socket_connect ps c.ai_addr c.ai_addrlen tm) := by
  have hrun : inet_tryconnect w ps address serv tm hints s =
      (none, call_freeaddrinfo w (pre ++ ck :: post)
        ⟨(connect_attempt w ps tm
            (connect_sweep w ps tm (w.getaddrinfo s address serv hints).2.2 pre) ck).2,
          ([] ++ [Call.getaddrinfo address serv hints] ++ connect_calls ps tm pre) ++
            connect_calls ps tm [ck]⟩) := by
    unfold inet_tryconnect
    simp only [call_getaddrinfo, hres, hcs, ne_eq, not_true_eq_false, if_false]
    rw [inet_tryconnect_loop_failed w ps tm pre (ck :: post) none _ hfail,
      inet_tryconnect_loop_success w ps tm ck post _ _ hok]
  have htr : (inet_tryconnect w ps address serv tm hints s).2.trace =
      Call.getaddrinfo address serv hints :: connect_calls ps tm (pre ++ [ck]) ++
        [Call.freeaddrinfo (pre ++ ck :: post)] := by
    rw [hrun]
    simp [call_freeaddrinfo, connect_calls_append]
  refine ⟨by rw [hrun], htr, ?_⟩
  rw [htr]
  simp [List.filter_cons, Call.is_connect, connect_calls_filter_connect]

/-- Witness for C1: four candidates, connects fail on the first two and succeed on the
third; the fourth is never tried. -/
theorem inet_tryconnect_first_success_witness :
    (inet_tryconnect (exWorld (0, exCands) exStatus exStatus) 7 (some "example.org")
        (some "80") 9 none 0).1 = none ∧
    (inet_tryconnect (exWorld (0, exCands) exStatus exStatus) 7 (some "example.org")
        (some "80") 9 none 0).2.trace =
      [Call.getaddrinfo (some "example.org") (some "80") none,
       Call.timeout_markstart 9, Call.socket_connect 7 [10, 0, 0, 1] 4 9,
       Call.timeout_markstart 9, Call.socket_connect 7 [10, 0, 0, 2] 4 9,
       Call.timeout_markstart 9, Call.socket_connect 7 [10, 0, 0, 3] 4 9,
       Call.freeaddrinfo exCands] :=
  have h := inet_tryconnect_first_success (exWorld (0, exCands) exStatus exStatus) 7
    (some "example.org") (some "80") 9 none 0
    [cand [10, 0, 0, 1], cand [10, 0, 0, 2]] [cand [10, 0, 0, 4]] (cand [10, 0, 0, 3])
    (by decide) (by decide) (by decide) (by decide)
  ⟨h.1, h.2.1⟩

/-- C2: when resolution succeeds with a non-empty candidate chain `cs` and the connect
attempts on its candidates (made one after the other) all fail, then every candidate is
attempted, once and in order, and the error `inet_tryconnect` returns is the error string
of the attempt on the last candidate. -/
theorem inet_tryconnect_all_fail (w : World σ) (ps : p_socket)
    (address serv : Option String) (tm : p_timeout) (hints : Option Addrinfo) (s : σ)
    (cs : List Addrinfo)
    (hres : w.socket_gaistrerror (w.getaddrinfo s address serv hints).1 = none)
    (hcs : (w.getaddrinfo s address serv hints).2.1 = cs)
    (hne : cs ≠ [])
    (hfail : ∀ e ∈ connect_errors w ps tm (w.getaddrinfo s address serv hints).2.2 cs,
      e ≠ none) :
    (connect_errors w ps tm (w.getaddrinfo s address serv hints).2.2 cs).getLast? =
      some (inet_tryconnect w ps address serv tm hints s).1 ∧
    (inet_tryconnect w ps address serv tm hints s).1 ≠ none ∧
    (inet_tryconnect w ps address serv tm hints s).2.trace =
      Call.getaddrinfo address serv hints :: connect_calls ps tm cs ++
        [Call.freeaddrinfo cs] ∧
    (inet_tryconnect w ps address serv tm hints s).2.trace.filter Call.is_connect =
      cs.map (fun c => Call.socket_connect ps c.ai_addr c.ai_addrlen tm) := by
  have hrun : inet_tryconnect w ps address serv tm hints s =
      ((connect_errors w ps tm (w.getaddrinfo s address serv hints).2.2 cs).getLast?.getD none,
        call_freeaddrinfo w cs
          ⟨connect_sweep w ps tm (w.getaddrinfo s address serv hints).2.2 cs,
            [] ++ [Call.getaddrinfo address serv hints] ++ connect_calls ps tm cs⟩) := by
    unfold inet_tryconnect
    simp only [call_getaddrinfo, hres, hcs, ne_eq, not_true_eq_false, if_false]
    have h := inet_tryconnect_loop_failed w ps tm cs [] none
      ⟨(w.getaddrinfo s address serv hints).2.2, [] ++ [Call.getaddrinfo address serv hints]⟩
      hfail
    rw [List.append_nil] at h
    rw [h]
    simp [inet_tryconnect_loop]
  have hlen : connect_errors w ps tm (w.getaddrinfo s address serv hints).2.2 cs ≠ [] := by
    cases cs with
    | nil => exact absurd rfl hne
    | cons c cs => simp [connect_errors]
  obtain ⟨e, he⟩ := Option.ne_none_iff_exists'.mp
    (fun h => hlen (List.getLast?_eq_none_iff.mp h))
  have hmem : e ∈ connect_errors w ps tm (w.getaddrinfo s address serv hints).2.2 cs :=
    List.mem_of_getLast?_eq_some he
  have htr : (inet_tryconnect w ps address serv tm hints s).2.trace =
      Call.getaddrinfo address serv hints :: connect_calls ps tm cs ++
        [Call.freeaddrinfo cs] := by
    rw [hrun]
    simp [call_freeaddrinfo]
  refine ⟨?_, ?_, htr, ?_⟩
  · rw [hrun, he]; rfl
  · rw [hrun, he]; exact hfail e hmem
  · rw [htr]
    simp [List.filter_cons, Call.is_connect, connect_calls_filter_connect]

/-- Witness for C2: four candidates, every connect fails; the error returned is the one
of the fourth attempt. -/
theorem inet_tryconnect_all_fail_witness :
    (inet_tryconnect (exWorld (0, exCands) exAllFail exAllFail) 7 (some "example.org")
        (some "80") 9 none 0).1 = some "5" ∧
    (inet_tryconnect (exWorld (0, exCands) exAllFail exAllFail) 7 (some "example.org")
        (some "80") 9 none 0).2.trace.filter Call.is_connect =
      [Call.socket_connect 7 [10, 0, 0, 1] 4 9, Call.socket_connect 7 [10, 0, 0, 2] 4 9,
       Call.socket_connect 7 [10, 0, 0, 3] 4 9, Call.socket_connect 7 [10, 0, 0, 4] 4 9] :=
  have h := inet_tryconnect_all_fail (exWorld (0, exCands) exAllFail exAllFail) 7
    (some "example.org") (some "80") 9 none 0 exCands
    (by decide) (by decide) (by decide) (by decide)
  ⟨(Option.some.inj h.1).symm, h.2.2.2⟩

/-! ## Lemmas on the bind loop -/

theorem bind_failed_calls_append (ps : p_socket) (a b : List Addrinfo) :
    bind_failed_calls ps (a ++ b) = bind_failed_calls ps a ++ bind_failed_calls ps b := by
  induction a with
  | nil => rfl
  | cons c a ih => simp [bind_failed_calls, ih]

theorem bind_errors_append (w : World σ) (ps : p_socket) (s : σ) (a b : List Addrinfo) :
    bind_errors w ps s (a ++ b) =
      bind_errors w ps s a ++ bind_errors w ps (bind_sweep w ps s a) b := by
  induction a generalizing s with
  | nil => rfl
  | cons c a ih => simp [bind_errors, bind_sweep, ih]

/-- While the binds fail, the loop walks down the chain: it logs a bind and a destroy per
candidate, keeps the latest error in `err`, and goes on with the rest. -/
theorem inet_trybind_loop_failed (w : World σ) (ps : p_socket)
    (pre rest : List Addrinfo) (err : Option String) (st : St σ)
    (hfail : ∀ e ∈ bind_errors w ps st.world pre, e ≠ none) :
    inet_trybind_loop w ps (pre ++ rest) err st =
      inet_trybind_loop w ps rest
        ((bind_errors w ps st.world pre).getLast?.getD err)
        ⟨bind_sweep w ps st.world pre, st.trace ++ bind_failed_calls ps pre⟩ := by
  induction pre generalizing err st with
  | nil => simp [bind_errors, bind_sweep, bind_failed_calls]
  | cons c pre ih =>
    have hc : (bind_attempt w ps st.world c).1 ≠ none := hfail _ (by simp [bind_errors])
    have hrest : ∀ e ∈ bind_errors w ps
        (w.socket_destroy (bind_attempt w ps st.world c).2 ps) pre, e ≠ none :=
      fun e he => hfail e (by simp [bind_errors, he])
    have hc2 : w.socket_strerror (w.socket_bind st.world ps c.ai_addr c.ai_addrlen).1 ≠ none :=
      hc
    rw [List.cons_append, inet_trybind_loop]
    simp only [call_socket_bind, call_socket_destroy, if_pos hc2]
    rw [ih _ _ hrest]
    simp [bind_errors, bind_sweep, bind_failed_calls, bind_attempt, List.getLast?_cons]

/-- A successful bind ends the loop with no error, after one bind and no destroy. -/
theorem inet_trybind_loop_success (w : World σ) (ps : p_socket)
    (c : Addrinfo) (rest : List Addrinfo) (err : Option String) (st : St σ)
    (hok : (bind_attempt w ps st.world c).1 = none) :
    inet_trybind_loop w ps (c :: rest) err st =
      (none, ⟨(bind_attempt w ps st.world c).2,
        st.trace ++ [Call.socket_bind ps c.ai_addr c.ai_addrlen]⟩) := by
  have hc2 : w.socket_strerror (w.socket_bind st.world ps c.ai_addr c.ai_addrlen).1 = none :=
    hok
  rw [inet_trybind_loop]
  simp only [call_socket_bind, ne_eq, hc2, not_true_eq_false, if_false]
  simp [bind_attempt]

theorem bind_failed_calls_filter_bind (ps : p_socket) (cs : List Addrinfo) :
    (bind_failed_calls ps cs).filter Call.is_bind =
      cs.map (fun c => Call.socket_bind ps c.ai_addr c.ai_addrlen) := by
  induction cs with
  | nil => rfl
  | cons c cs ih => simp [bind_failed_calls, Call.is_bind, ih]

theorem bind_failed_calls_count_destroy (ps : p_socket) (cs : List Addrinfo) :
    (bind_failed_calls ps cs).countP Call.is_destroy = cs.length := by
  induction cs with
  | nil => rfl
  | cons c cs ih => simp [bind_failed_calls, Call.is_destroy, List.countP_cons, ih]

/-! ## Resolution failure -/

/-- C3: if the resolver call fails, that is, its status translates to an error string `e`,
then `inet_tryconnect` (first part) and `inet_trybind` (second part) return `e`, and their
only external calls are the one resolver call and, when the resolver left a chain behind,
its release: no connect, bind, mark-start or destroy call is made. -/
theorem resolution_failure_returns_at_once (w : World σ) (ps : p_socket)
    (node : Option String) (address : String) (serv : Option String) (tm : p_timeout) (hints : Option Addrinfo)
    (s : σ) (e : String) :
    (w.socket_gaistrerror (w.getaddrinfo s node serv hints).1 = some e →
      (inet_tryconnect w ps node serv tm hints s).1 = some e ∧
      (inet_tryconnect w ps node serv tm hints s).2.trace =
        Call.getaddrinfo node serv hints ::
          (if (w.getaddrinfo s node serv hints).2.1 = [] then []
           else [Call.freeaddrinfo (w.getaddrinfo s node serv hints).2.1]) ∧
      (inet_tryconnect w ps node serv tm hints s).2.trace.countP
        Call.is_getaddrinfo = 1 ∧
      ∀ c ∈ (inet_tryconnect w ps node serv tm hints s).2.trace,
        c.is_connect = false ∧ c.is_bind = false ∧ c.is_markstart = false ∧
          c.is_destroy = false) ∧
    (w.socket_gaistrerror (bind_resolution w address serv hints s).1 = some e →
      (inet_trybind w ps address serv hints s).1 = some e ∧
      (inet_trybind w ps address serv hints s).2.trace =
        Call.getaddrinfo (if address = "*" then none else some address)
            (if serv = none then some "0" else serv) hints ::
          (if (bind_resolution w address serv hints s).2.1 = [] then []
           else [Call.freeaddrinfo (bind_resolution w address serv hints s).2.1]) ∧
      (inet_trybind w ps address serv hints s).2.trace.countP Call.is_getaddrinfo = 1 ∧
      ∀ c ∈ (inet_trybind w ps address serv hints s).2.trace,
        c.is_connect = false ∧ c.is_bind = false ∧ c.is_markstart = false ∧
          c.is_destroy = false) := by
  constructor
  · intro h
    have hrun : inet_tryconnect w ps node serv tm hints s =
        (some e,
          if (w.getaddrinfo s node serv hints).2.1 = [] then
            ⟨(w.getaddrinfo s node serv hints).2.2,
              [Call.getaddrinfo node serv hints]⟩
          else
            ⟨w.freeaddrinfo (w.getaddrinfo s node serv hints).2.2
                (w.getaddrinfo s node serv hints).2.1,
              [Call.getaddrinfo node serv hints,
                Call.freeaddrinfo (w.getaddrinfo s node serv hints).2.1]⟩) := by
      unfold inet_tryconnect
      by_cases hr : (w.getaddrinfo s node serv hints).2.1 = [] <;>
        simp [call_getaddrinfo, call_freeaddrinfo, h, hr]
    rw [hrun]
    by_cases hr : (w.getaddrinfo s node serv hints).2.1 = [] <;>
      simp [hr, Call.is_getaddrinfo, Call.is_connect, Call.is_bind, Call.is_markstart,
        Call.is_destroy, List.countP_cons]
  · intro h
    have h2 := h
    unfold bind_resolution at h2
    have hrun : inet_trybind w ps address serv hints s =
        (some e,
          if (bind_resolution w address serv hints s).2.1 = [] then
            ⟨(bind_resolution w address serv hints s).2.2,
              [Call.getaddrinfo (if address = "*" then none else some address)
                (if serv = none then some "0" else serv) hints]⟩
          else
            ⟨w.freeaddrinfo (bind_resolution w address serv hints s).2.2
                (bind_resolution w address serv hints s).2.1,
              [Call.getaddrinfo (if address = "*" then none else some address)
                  (if serv = none then some "0" else serv) hints,
                Call.freeaddrinfo (bind_resolution w address serv hints s).2.1]⟩) := by
      unfold inet_trybind
      by_cases hr : (bind_resolution w address serv hints s).2.1 = []
      · have hr2 := hr
        unfold bind_resolution at hr2
        simp [call_getaddrinfo, call_freeaddrinfo, h2, hr, hr2, bind_resolution]
      · have hr2 := hr
        unfold bind_resolution at hr2
        simp [call_getaddrinfo, call_freeaddrinfo, h2, hr, hr2, bind_resolution]
    rw [hrun]
    by_cases hr : (bind_resolution w address serv hints s).2.1 = [] <;>
      simp [hr, Call.is_getaddrinfo, Call.is_connect, Call.is_bind, Call.is_markstart,
        Call.is_destroy, List.countP_cons]

/-- Witness for C3: the resolver fails with status -2 and leaves no chain. -/
theorem resolution_failure_returns_at_once_witness :
    ((inet_tryconnect (exWorld (-2, []) exStatus exStatus) 7 (some "nonexistent.invalid")
        (some "80") 9 none 0).1 = some "-2" ∧
      (inet_tryconnect (exWorld (-2, []) exStatus exStatus) 7 (some "nonexistent.invalid")
        (some "80") 9 none 0).2.trace =
        [Call.getaddrinfo (some "nonexistent.invalid") (some "80") none]) ∧
    ((inet_trybind (exWorld (-2, []) exStatus exStatus) 7 "nonexistent.invalid"
        (some "80") none 0).1 = some "-2" ∧
      (inet_trybind (exWorld (-2, []) exStatus exStatus) 7 "nonexistent.invalid"
        (some "80") none 0).2.trace =
        [Call.getaddrinfo (some "nonexistent.invalid") (some "80") none]) :=
  have h := resolution_failure_returns_at_once (exWorld (-2, []) exStatus exStatus) 7
    (some "nonexistent.invalid") "nonexistent.invalid" (some "80") 9 none 0 "-2"
  ⟨⟨(h.1 (by decide)).1, (h.1 (by decide)).2.1⟩, ⟨(h.2 (by decide)).1, (h.2 (by decide)).2.1⟩⟩

/-! ## Shape of the trace of an arbitrary run -/

/-- Whatever the world answers, the connect loop logs a mark-start and a connect for each
candidate of an initial segment of the chain, and nothing else. -/
theorem inet_tryconnect_loop_trace (w : World σ) (ps : p_socket) (tm : p_timeout)
    (cs : List Addrinfo) (err : Option String) (st : St σ) :
    ∃ k, (inet_tryconnect_loop w ps tm cs err st).2.trace =
      st.trace ++ connect_calls ps tm (cs.take k) := by
  induction cs generalizing err st with
  | nil => exact ⟨0, by simp [inet_tryconnect_loop, connect_calls]⟩
  | cons c cs ih =>
    rw [inet_tryconnect_loop]
    simp only [call_socket_connect, call_timeout_markstart]
    split
    · exact ⟨1, by simp [connect_calls]⟩
    · obtain ⟨k, hk⟩ := ih
        (w.socket_strerror
          (w.socket_connect (w.timeout_markstart st.world tm) ps c.ai_addr c.ai_addrlen tm).1)
        ⟨(w.socket_connect (w.timeout_markstart st.world tm) ps c.ai_addr c.ai_addrlen tm).2,
          st.trace ++ [Call.timeout_markstart tm] ++
            [Call.socket_connect ps c.ai_addr c.ai_addrlen tm]⟩
      exact ⟨k + 1, by rw [hk]; simp [connect_calls]⟩

/-- Whatever the world answers, a run of `inet_tryconnect` makes the resolver call, then
mark-start and connect calls on an initial segment of the resolved chain, then the release
of the chain (left out only when resolution failed and left no chain). -/
theorem inet_tryconnect_trace (w : World σ) (ps : p_socket) (address serv : Option String)
    (tm : p_timeout) (hints : Option Addrinfo) (s : σ) :
    ∃ k, (inet_tryconnect w ps address serv tm hints s).2.trace =
      Call.getaddrinfo address serv hints ::
        (connect_calls ps tm ((w.getaddrinfo s address serv hints).2.1.take k) ++
          (if w.socket_gaistrerror (w.getaddrinfo s address serv hints).1 = none ∨
              (w.getaddrinfo s address serv hints).2.1 ≠ [] then
            [Call.freeaddrinfo (w.getaddrinfo s address serv hints).2.1] else [])) := by
  unfold inet_tryconnect
  by_cases hres : w.socket_gaistrerror (w.getaddrinfo s address serv hints).1 = none
  · obtain ⟨k, hk⟩ := inet_tryconnect_loop_trace w ps tm
      (w.getaddrinfo s address serv hints).2.1 none
      ⟨(w.getaddrinfo s address serv hints).2.2, [Call.getaddrinfo address serv hints]⟩
    refine ⟨k, ?_⟩
    simp only [call_getaddrinfo, hres, ne_eq, not_true_eq_false, if_false, call_freeaddrinfo,
      List.nil_append, true_or, if_true]
    rw [hk]
    simp
  · refine ⟨0, ?_⟩
    by_cases hr : (w.getaddrinfo s address serv hints).2.1 = [] <;>
      simp [call_getaddrinfo, call_freeaddrinfo, hres, hr, connect_calls]

/-! ## The timeout marker -/

theorem connect_calls_connect_before (ps : p_socket) (tm : p_timeout) (cs : List Addrinfo)
    (i : Nat) (ps' : p_socket) (a : List Nat) (n : Nat) (tm' : p_timeout)
    (h : (connect_calls ps tm cs)[i]? = some (Call.socket_connect ps' a n tm')) :
    ∃ j, i = j + 1 ∧ (connect_calls ps tm cs)[j]? = some (Call.timeout_markstart tm') := by
  induction cs generalizing i with
  | nil => simp [connect_calls] at h
  | cons c cs ih =>
    match i with
    | 0 => simp [connect_calls] at h
    | 1 =>
      simp [connect_calls] at h
      exact ⟨0, rfl, by simp [connect_calls, h.2.2.2]⟩
    | i + 2 =>
      simp only [connect_calls, List.getElem?_cons_succ] at h
      obtain ⟨j, hj, hm⟩ := ih i h
      exact ⟨j + 2, by omega, by simpa [connect_calls] using hm⟩

theorem connect_calls_markstart_after (ps : p_socket) (tm : p_timeout) (cs : List Addrinfo)
    (j : Nat) (tm' : p_timeout)
    (h : (connect_calls ps tm cs)[j]? = some (Call.timeout_markstart tm')) :
    ∃ ps' a n, (connect_calls ps tm cs)[j + 1]? = some (Call.socket_connect ps' a n tm') := by
  induction cs generalizing j with
  | nil => simp [connect_calls] at h
  | cons c cs ih =>
    match j with
    | 0 =>
      simp [connect_calls] at h
      exact ⟨ps, c.ai_addr, c.ai_addrlen, by simp [connect_calls, h]⟩
    | 1 => simp [connect_calls] at h
    | j + 2 =>
      simp only [connect_calls, List.getElem?_cons_succ] at h
      obtain ⟨ps', a, n, hm⟩ := ih j h
      exact ⟨ps', a, n, by simpa [connect_calls] using hm⟩

theorem connect_calls_count (ps : p_socket) (tm : p_timeout) (cs : List Addrinfo) :
    (connect_calls ps tm cs).countP Call.is_markstart = cs.length ∧
    (connect_calls ps tm cs).countP Call.is_connect = cs.length := by
  induction cs with
  | nil => exact ⟨rfl, rfl⟩
  | cons c cs ih =>
    simp [connect_calls, List.countP_cons, Call.is_markstart, Call.is_connect, ih.1, ih.2]

/-- C4: in the trace of external calls of any run of `inet_tryconnect`, every
`socket_connect` call is directly preceded by a `timeout_markstart` call on the same
timeout budget, every `timeout_markstart` call is directly followed by a `socket_connect`
call on that budget (so exactly one mark-start precedes each connect), and there are as
many mark-start calls as connect calls. -/
theorem inet_tryconnect_markstart_before_each_connect (w : World σ) (ps : p_socket)
    (address serv : Option String) (tm : p_timeout) (hints : Option Addrinfo) (s : σ) :
    (∀ i ps' a n tm',
      (inet_tryconnect w ps address serv tm hints s).2.trace[i]? =
          some (Call.socket_connect ps' a n tm') →
        ∃ j, i = j + 1 ∧
          (inet_tryconnect w ps address serv tm hints s).2.trace[j]? =
            some (Call.timeout_markstart tm')) ∧
    (∀ j tm',
      (inet_tryconnect w ps address serv tm hints s).2.trace[j]? =
          some (Call.timeout_markstart tm') →
        ∃ ps' a n, (inet_tryconnect w ps address serv tm hints s).2.trace[j + 1]? =
          some (Call.socket_connect ps' a n tm')) ∧
    (inet_tryconnect w ps address serv tm hints s).2.trace.countP Call.is_markstart =
      (inet_tryconnect w ps address serv tm hints s).2.trace.countP Call.is_connect := by
  obtain ⟨k, hk⟩ := inet_tryconnect_trace w ps address serv tm hints s
  rw [hk]
  have htail : ∀ c ∈ (if w.socket_gaistrerror (w.getaddrinfo s address serv hints).1 = none ∨
      (w.getaddrinfo s address serv hints).2.1 ≠ [] then
      [Call.freeaddrinfo (w.getaddrinfo s address serv hints).2.1] else []),
      c = Call.freeaddrinfo (w.getaddrinfo s address serv hints).2.1 := by
    intro c hc
    split at hc
    · exact List.mem_singleton.mp hc
    · exact absurd hc (List.not_mem_nil c)
  generalize (if w.socket_gaistrerror (w.getaddrinfo s address serv hints).1 = none ∨
      (w.getaddrinfo s address serv hints).2.1 ≠ [] then
      [Call.freeaddrinfo (w.getaddrinfo s address serv hints).2.1] else []) = tail at htail
  generalize (w.getaddrinfo s address serv hints).2.1.take k = att
  refine ⟨?_, ?_, ?_⟩
  · intro i ps' a n tm' h
    match i with
    | 0 => simp at h
    | i + 1 =>
      rw [List.getElem?_cons_succ, List.getElem?_append] at h
      split at h
      · rename_i hlt
        obtain ⟨j, hj, hm⟩ := connect_calls_connect_before ps tm att i ps' a n tm' h
        refine ⟨j + 1, by omega, ?_⟩
        rw [List.getElem?_cons_succ, List.getElem?_append_left (by omega)]
        exact hm
      · have hfree := htail _ (List.getElem?_mem h)
        simp at hfree
  · intro j tm' h
    match j with
    | 0 => simp at h
    | j + 1 =>
      rw [List.getElem?_cons_succ, List.getElem?_append] at h
      split at h
      · obtain ⟨ps', a, n, hm⟩ := connect_calls_markstart_after ps tm att j tm' h
        refine ⟨ps', a, n, ?_⟩
        have hlt : j + 1 < (connect_calls ps tm att).length :=
          (List.getElem?_eq_some_iff.mp hm).1
        rw [List.getElem?_cons_succ, List.getElem?_append_left hlt]
        exact hm
      · have hfree := htail _ (List.getElem?_mem h)
        simp at hfree
  · have h0m : tail.countP Call.is_markstart = 0 :=
      List.countP_eq_zero.mpr (fun c hc => by rw [htail c hc]; simp [Call.is_markstart])
    have h0c : tail.countP Call.is_connect = 0 :=
      List.countP_eq_zero.mpr (fun c hc => by rw [htail c hc]; simp [Call.is_connect])
    simp [List.countP_cons, Call.is_markstart, Call.is_connect, h0m, h0c,
      (connect_calls_count ps tm att).1, (connect_calls_count ps tm att).2]

/-! ## Release of the candidate chain -/

theorem connect_calls_count_free (ps : p_socket) (tm : p_timeout) (cs : List Addrinfo) :
    (connect_calls ps tm cs).countP Call.is_freeaddrinfo = 0 := by
  induction cs with
  | nil => rfl
  | cons c cs ih => simp [connect_calls, List.countP_cons, Call.is_freeaddrinfo, ih]

/-- Whatever the world answers, the bind loop logs only bind and destroy calls. -/
theorem inet_trybind_loop_trace (w : World σ) (ps : p_socket)
    (cs : List Addrinfo) (err : Option String) (st : St σ) :
    ∃ body, (inet_trybind_loop w ps cs err st).2.trace = st.trace ++ body ∧
      (∀ c ∈ body, c.is_bind = true ∨ c.is_destroy = true) ∧ (cs = [] → body = []) := by
  induction cs generalizing err st with
  | nil => exact ⟨[], by simp [inet_trybind_loop]⟩
  | cons c cs ih =>
    rw [inet_trybind_loop]
    simp only [call_socket_bind, call_socket_destroy]
    split
    · obtain ⟨body, hb, hall, _⟩ := ih
        (w.socket_strerror (w.socket_bind st.world ps c.ai_addr c.ai_addrlen).1)
        ⟨w.socket_destroy (w.socket_bind st.world ps c.ai_addr c.ai_addrlen).2 ps,
          st.trace ++ [Call.socket_bind ps c.ai_addr c.ai_addrlen] ++
            [Call.socket_destroy ps]⟩
      refine ⟨Call.socket_bind ps c.ai_addr c.ai_addrlen :: Call.socket_destroy ps :: body,
        by rw [hb]; simp, ?_, by simp⟩
      intro x hx
      simp only [List.mem_cons] at hx
      rcases hx with hx | hx | hx
      · rw [hx]; exact Or.inl rfl
      · rw [hx]; exact Or.inr rfl
      · exact hall x hx
    · refine ⟨[Call.socket_bind ps c.ai_addr c.ai_addrlen], rfl, ?_, by simp⟩
      intro x hx
      rw [List.mem_singleton.mp hx]
      exact Or.inl rfl

/-- Whatever the world answers, a run of `inet_trybind` makes the resolver call, then bind
and destroy calls only, then the release of the chain (left out only when resolution
failed and left no chain). -/
theorem inet_trybind_trace (w : World σ) (ps : p_socket) (address : String)
    (serv : Option String) (hints : Option Addrinfo) (s : σ) :
    ∃ body, (inet_trybind w ps address serv hints s).2.trace =
      Call.getaddrinfo (if address = "*" then none else some address)
          (if serv = none then some "0" else serv) hints ::
        (body ++
          (if w.socket_gaistrerror (bind_resolution w address serv hints s).1 = none ∨
              (bind_resolution w address serv hints s).2.1 ≠ [] then
            [Call.freeaddrinfo (bind_resolution w address serv hints s).2.1] else [])) ∧
      (∀ c ∈ body, c.is_bind = true ∨ c.is_destroy = true) ∧
      ((bind_resolution w address serv hints s).2.1 = [] → body = []) := by
  unfold inet_trybind bind_resolution
  by_cases hres : w.socket_gaistrerror (w.getaddrinfo s
      (if address = "*" then none else some address)
      (if serv = none then some "0" else serv) hints).1 = none
  · obtain ⟨body, hb, hall, hnil⟩ := inet_trybind_loop_trace w ps
      (w.getaddrinfo s (if address = "*" then none else some address)
        (if serv = none then some "0" else serv) hints).2.1 none
      ⟨(w.getaddrinfo s (if address = "*" then none else some address)
          (if serv = none then some "0" else serv) hints).2.2,
        [Call.getaddrinfo (if address = "*" then none else some address)
          (if serv = none then some "0" else serv) hints]⟩
    refine ⟨body, ?_, hall, hnil⟩
    simp only [call_getaddrinfo, hres, ne_eq, not_true_eq_false, if_false, call_freeaddrinfo,
      List.nil_append, true_or, if_true]
    rw [hb]
    simp
  · refine ⟨[], ?_, by simp, by simp⟩
    by_cases hr : (w.getaddrinfo s (if address = "*" then none else some address)
        (if serv = none then some "0" else serv) hints).2.1 = [] <;>
      simp [call_getaddrinfo, call_freeaddrinfo, hres, hr]

/-- C5 as stated fails: when the resolver fails and leaves no chain, neither function
calls `freeaddrinfo` at all. -/
theorem release_skipped_when_resolver_leaves_nothing :
    (inet_tryconnect (exWorld (-2, []) exStatus exStatus) 7 (some "nonexistent.invalid")
        (some "80") 9 none 0).1 = some "-2" ∧
    (inet_tryconnect (exWorld (-2, []) exStatus exStatus) 7 (some "nonexistent.invalid")
        (some "80") 9 none 0).2.trace.countP Call.is_freeaddrinfo = 0 ∧
    (inet_trybind (exWorld (-2, []) exStatus exStatus) 7 "nonexistent.invalid"
        (some "80") none 0).1 = some "-2" ∧
    (inet_trybind (exWorld (-2, []) exStatus exStatus) 7 "nonexistent.invalid"
        (some "80") none 0).2.trace.countP Call.is_freeaddrinfo = 0 := by
  decide

/-- C5, amended: in any run of `inet_tryconnect` and of `inet_trybind`, `freeaddrinfo` is
called exactly once, on the resolved chain and as the last external call, whenever
resolution succeeded or the resolver left a chain behind; it is not called at all when the
resolver failed and left no chain, the resolver call then being the only and last call. -/
theorem release_once_and_last (w : World σ) (ps : p_socket) (node : Option String)
    (address : String) (serv : Option String) (tm : p_timeout) (hints : Option Addrinfo)
    (s : σ) :
    ((inet_tryconnect w ps node serv tm hints s).2.trace.countP Call.is_freeaddrinfo =
        (if w.socket_gaistrerror (w.getaddrinfo s node serv hints).1 = none ∨
          (w.getaddrinfo s node serv hints).2.1 ≠ [] then 1 else 0) ∧
      (inet_tryconnect w ps node serv tm hints s).2.trace.getLast? =
        some (if w.socket_gaistrerror (w.getaddrinfo s node serv hints).1 = none ∨
            (w.getaddrinfo s node serv hints).2.1 ≠ [] then
          Call.freeaddrinfo (w.getaddrinfo s node serv hints).2.1
          else Call.getaddrinfo node serv hints)) ∧
    ((inet_trybind w ps address serv hints s).2.trace.countP Call.is_freeaddrinfo =
        (if w.socket_gaistrerror (bind_resolution w address serv hints s).1 = none ∨
          (bind_resolution w address serv hints s).2.1 ≠ [] then 1 else 0) ∧
      (inet_trybind w ps address serv hints s).2.trace.getLast? =
        some (if w.socket_gaistrerror (bind_resolution w address serv hints s).1 = none ∨
            (bind_resolution w address serv hints s).2.1 ≠ [] then
          Call.freeaddrinfo (bind_resolution w address serv hints s).2.1
          else Call.getaddrinfo (if address = "*" then none else some address)
            (if serv = none then some "0" else serv) hints)) := by
  constructor
  · obtain ⟨k, hk⟩ := inet_tryconnect_trace w ps node serv tm hints s
    rw [hk]
    by_cases hok : w.socket_gaistrerror (w.getaddrinfo s node serv hints).1 = none ∨
        (w.getaddrinfo s node serv hints).2.1 ≠ []
    · simp only [if_pos hok]
      refine ⟨?_, ?_⟩
      · simp [List.countP_cons, Call.is_freeaddrinfo, connect_calls_count_free]
      · rw [← List.cons_append]
        exact List.getLast?_concat _
    · have hnil : (w.getaddrinfo s node serv hints).2.1 = [] := by
        by_contra hne
        exact hok (Or.inr hne)
      have hres : ¬ w.socket_gaistrerror (w.getaddrinfo s node serv hints).1 = none :=
        fun h => hok (Or.inl h)
      simp [hres, hnil, connect_calls, Call.is_freeaddrinfo, List.countP_cons]
  · obtain ⟨body, hb, hall, hnil⟩ := inet_trybind_trace w ps address serv hints s
    rw [hb]
    have hcount : body.countP Call.is_freeaddrinfo = 0 := by
      refine List.countP_eq_zero.mpr (fun c hc => ?_)
      rcases hall c hc with h | h <;> cases c <;>
        simp [Call.is_bind, Call.is_destroy, Call.is_freeaddrinfo] at h ⊢
    by_cases hok : w.socket_gaistrerror (bind_resolution w address serv hints s).1 = none ∨
        (bind_resolution w address serv hints s).2.1 ≠ []
    · simp only [if_pos hok]
      refine ⟨?_, ?_⟩
      · simp [List.countP_cons, Call.is_freeaddrinfo, hcount]
      · rw [← List.cons_append]
        exact List.getLast?_concat _
    · have hr : (bind_resolution w address serv hints s).2.1 = [] := by
        by_contra hne
        exact hok (Or.inr hne)
      have hbody := hnil hr
      subst hbody
      simp [if_neg hok, Call.is_freeaddrinfo, List.countP_cons]

/-! ## `inet_trybind`: destruction after a failed bind, first success, total failure -/

/-- Whatever the world answers, a bind loop over a non-empty chain starts with a bind on
the first candidate. -/
theorem inet_trybind_loop_head (w : World σ) (ps : p_socket) (c : Addrinfo)
    (rest : List Addrinfo) (err : Option String) (st : St σ) :
    ∃ body, (inet_trybind_loop w ps (c :: rest) err st).2.trace =
      st.trace ++ Call.socket_bind ps c.ai_addr c.ai_addrlen :: body := by
  rw [inet_trybind_loop]
  simp only [call_socket_bind, call_socket_destroy]
  split
  · obtain ⟨body, hb, _, _⟩ := inet_trybind_loop_trace w ps rest
      (w.socket_strerror (w.socket_bind st.world ps c.ai_addr c.ai_addrlen).1)
      ⟨w.socket_destroy (w.socket_bind st.world ps c.ai_addr c.ai_addrlen).2 ps,
        st.trace ++ [Call.socket_bind ps c.ai_addr c.ai_addrlen] ++ [Call.socket_destroy ps]⟩
    exact ⟨Call.socket_destroy ps :: body, by rw [hb]; simp⟩
  · exact ⟨[], rfl⟩

/-- C6: when resolution succeeds with the chain `pre ++ ck :: cnext :: post`, the bind
attempts on the candidates of `pre` fail and the attempt on `ck` that follows them fails
too, then in the trace of `inet_trybind` the bind call on `ck` is directly followed by
exactly one `socket_destroy` call on the socket, itself directly followed by the bind call
on the next candidate `cnext`. -/
theorem inet_trybind_destroys_before_next (w : World σ) (ps : p_socket) (address : String)
    (serv : Option String) (hints : Option Addrinfo) (s : σ)
    (pre post : List Addrinfo) (ck cnext : Addrinfo)
    (hres : w.socket_gaistrerror (bind_resolution w address serv hints s).1 = none)
    (hcs : (bind_resolution w address serv hints s).2.1 = pre ++ ck :: cnext :: post)
    (hfail : ∀ e ∈ bind_errors w ps (bind_resolution w address serv hints s).2.2 pre,
      e ≠ none)
    (hk : (bind_attempt w ps
      (bind_sweep w ps (bind_resolution w address serv hints s).2.2 pre) ck).1 ≠ none) :
    ∃ rest, (inet_trybind w ps address serv hints s).2.trace =
      Call.getaddrinfo (if address = "*" then none else some address)
          (if serv = none then some "0" else serv) hints ::
        bind_failed_calls ps pre ++
        [Call.socket_bind ps ck.ai_addr ck.ai_addrlen, Call.socket_destroy ps,
          Call.socket_bind ps cnext.ai_addr cnext.ai_addrlen] ++ rest := by
  have hall : ∀ e ∈ bind_errors w ps (bind_resolution w address serv hints s).2.2
      (pre ++ [ck]), e ≠ none := by
    intro e he
    rw [bind_errors_append] at he
    rcases List.mem_append.mp he with h | h
    · exact hfail e h
    · simp only [bind_errors, List.mem_singleton] at h
      rw [h]
      exact hk
  unfold bind_resolution at hres hcs hall
  unfold inet_trybind
  simp only [call_getaddrinfo, hres, hcs, ne_eq, not_true_eq_false, if_false]
  have hsplit : pre ++ ck :: cnext :: post = (pre ++ [ck]) ++ cnext :: post := by simp
  rw [hsplit, inet_trybind_loop_failed w ps (pre ++ [ck]) (cnext :: post) none _ hall]
  obtain ⟨body, hb⟩ := inet_trybind_loop_head w ps cnext post
    ((bind_errors w ps (w.getaddrinfo s (if address = "*" then none else some address)
      (if serv = none then some "0" else serv) hints).2.2 (pre ++ [ck])).getLast?.getD none)
    ⟨bind_sweep w ps (w.getaddrinfo s (if address = "*" then none else some address)
        (if serv = none then some "0" else serv) hints).2.2 (pre ++ [ck]),
      ([] ++ [Call.getaddrinfo (if address = "*" then none else some address)
        (if serv = none then some "0" else serv) hints]) ++
        bind_failed_calls ps (pre ++ [ck])⟩
  refine ⟨body ++ [Call.freeaddrinfo ((pre ++ [ck]) ++ cnext :: post)], ?_⟩
  simp only [call_freeaddrinfo]
  rw [hb]
  simp [bind_failed_calls_append, bind_failed_calls]

/-- Witness for C6: the bind on the first candidate fails, the chain has a second one. -/
theorem inet_trybind_destroys_before_next_witness :
    ∃ rest, (inet_trybind (exWorld (0, exCands) exStatus exStatus) 7 "*" none none 0).2.trace =
      Call.getaddrinfo none (some "0") none ::
        bind_failed_calls 7 [] ++
        [Call.socket_bind 7 [10, 0, 0, 1] 4, Call.socket_destroy 7,
          Call.socket_bind 7 [10, 0, 0, 2] 4] ++ rest :=
  inet_trybind_destroys_before_next (exWorld (0, exCands) exStatus exStatus) 7 "*" none none 0
    [] [cand [10, 0, 0, 3], cand [10, 0, 0, 4]] (cand [10, 0, 0, 1]) (cand [10, 0, 0, 2])
    (by decide) (by decide) (by decide) (by decide)

/-- C7 fails on the code: with two candidates and a failing bind on the first, the socket
`7` is passed to `socket_destroy` and the very next call is a `socket_bind` on the same
socket `7`, for the second candidate; no socket is created in between. -/
theorem inet_trybind_binds_destroyed_socket :
    (inet_trybind (exWorld (0, [cand [10, 0, 0, 1], cand [10, 0, 0, 2]]) exStatus exAllFail)
        7 "*" none none 0).2.trace =
      [Call.getaddrinfo none (some "0") none,
       Call.socket_bind 7 [10, 0, 0, 1] 4, Call.socket_destroy 7,
       Call.socket_bind 7 [10, 0, 0, 2] 4, Call.socket_destroy 7,
       Call.freeaddrinfo [cand [10, 0, 0, 1], cand [10, 0, 0, 2]]] := by
  decide

/-- C8: when resolution succeeds with the chain `pre ++ ck :: post`, the bind attempts on
the candidates of `pre` fail and the attempt on `ck` that follows them succeeds, then
`inet_trybind` returns no error and its external calls are exactly: the resolver call, a
bind followed by a destroy for each candidate of `pre` in order, the bind on `ck`, and
the release of the chain.  So binds are made on `pre ++ [ck]` only, `socket_destroy` is
called once per candidate of `pre`, and none follows the successful bind. -/
theorem inet_trybind_first_success (w : World σ) (ps : p_socket) (address : String)
    (serv : Option String) (hints : Option Addrinfo) (s : σ)
    (pre post : List Addrinfo) (ck : Addrinfo)
    (hres : w.socket_gaistrerror (bind_resolution w address serv hints s).1 = none)
    (hcs : (bind_resolution w address serv hints s).2.1 = pre ++ ck :: post)
    (hfail : ∀ e ∈ bind_errors w ps (bind_resolution w address serv hints s).2.2 pre,
      e ≠ none)
    (hok : (bind_attempt w ps
      (bind_sweep w ps (bind_resolution w address serv hints s).2.2 pre) ck).1 = none) :
    (inet_trybind w ps address serv hints s).1 = none ∧
    (inet_trybind w ps address serv hints s).2.trace =
      Call.getaddrinfo (if address = "*" then none else some address)
          (if serv = none then some "0" else serv) hints ::
        bind_failed_calls ps pre ++
        [Call.socket_bind ps ck.ai_addr ck.ai_addrlen,
          Call.freeaddrinfo (pre ++ ck :: post)] ∧
    (inet_trybind w ps address serv hints s).2.trace.filter Call.is_bind =
      (pre ++ [ck]).map (fun c => Call.socket_bind ps c.ai_addr c.ai_addrlen) ∧
    (inet_trybind w ps address serv hints s).2.trace.countP Call.is_destroy = pre.length := by
  unfold bind_resolution at hres hcs hfail hok
  have hrun : inet_trybind w ps address serv hints s =
      (none, call_freeaddrinfo w (pre ++ ck :: post)
        ⟨(bind_attempt w ps
            (bind_sweep w ps (w.getaddrinfo s (if address = "*" then none else some address)
              (if serv = none then some "0" else serv) hints).2.2 pre) ck).2,
          ([] ++ [Call.getaddrinfo (if address = "*" then none else some address)
            (if serv = none then some "0" else serv) hints] ++ bind_failed_calls ps pre) ++
            [Call.socket_bind ps ck.ai_addr ck.ai_addrlen]⟩) := by
    unfold inet_trybind
    simp only [call_getaddrinfo, hres, hcs, ne_eq, not_true_eq_false, if_false]
    rw [inet_trybind_loop_failed w ps pre (ck :: post) none _ hfail,
      inet_trybind_loop_success w ps ck post _ _ hok]
  have htr : (inet_trybind w ps address serv hints s).2.trace =
      Call.getaddrinfo (if address = "*" then none else some address)
          (if serv = none then some "0" else serv) hints ::
        bind_failed_calls ps pre ++
        [Call.socket_bind ps ck.ai_addr ck.ai_addrlen,
          Call.freeaddrinfo (pre ++ ck :: post)] := by
    rw [hrun]
    simp [call_freeaddrinfo]
  refine ⟨by rw [hrun], htr, ?_, ?_⟩
  · rw [htr]
    simp [List.filter_cons, Call.is_bind, bind_failed_calls_filter_bind]
  · rw [htr]
    simp [List.countP_cons, Call.is_destroy, bind_failed_calls_count_destroy]

/-- Witness for C8: four candidates, binds fail on the first two and succeed on the third. -/
theorem inet_trybind_first_success_witness :
    (inet_trybind (exWorld (0, exCands) exStatus exStatus) 7 "*" none none 0).1 = none ∧
    (inet_trybind (exWorld (0, exCands) exStatus exStatus) 7 "*" none none 0).2.trace =
      [Call.getaddrinfo none (some "0") none,
       Call.socket_bind 7 [10, 0, 0, 1] 4, Call.socket_destroy 7,
       Call.socket_bind 7 [10, 0, 0, 2] 4, Call.socket_destroy 7,
       Call.socket_bind 7 [10, 0, 0, 3] 4,
       Call.freeaddrinfo exCands] ∧
    (inet_trybind (exWorld (0, exCands) exStatus exStatus) 7 "*" none none 0).2.trace.countP
      Call.is_destroy = 2 :=
  have h := inet_trybind_first_success (exWorld (0, exCands) exStatus exStatus) 7 "*" none
    none 0 [cand [10, 0, 0, 1], cand [10, 0, 0, 2]] [cand [10, 0, 0, 4]] (cand [10, 0, 0, 3])
    (by decide) (by decide) (by decide) (by decide)
  ⟨h.1, h.2.1, h.2.2.2⟩

/-- C9: when resolution succeeds with a non-empty chain `cs` and the bind attempts on its
candidates (each followed by destruction of the socket) all fail, then the error
`inet_trybind` returns is the error string of the attempt on the last candidate, a bind
followed by a destroy is made for every candidate in order, and `socket_destroy` has been
called once per candidate. -/
theorem inet_trybind_all_fail (w : World σ) (ps : p_socket) (address : String)
    (serv : Option String) (hints : Option Addrinfo) (s : σ) (cs : List Addrinfo)
    (hres : w.socket_gaistrerror (bind_resolution w address serv hints s).1 = none)
    (hcs : (bind_resolution w address serv hints s).2.1 = cs)
    (hne : cs ≠ [])
    (hfail : ∀ e ∈ bind_errors w ps (bind_resolution w address serv hints s).2.2 cs,
      e ≠ none) :
    (bind_errors w ps (bind_resolution w address serv hints s).2.2 cs).getLast? =
      some (inet_trybind w ps address serv hints s).1 ∧
    (inet_trybind w ps address serv hints s).1 ≠ none ∧
    (inet_trybind w ps address serv hints s).2.trace =
      Call.getaddrinfo (if address = "*" then none else some address)
          (if serv = none then some "0" else serv) hints ::
        bind_failed_calls ps cs ++ [Call.freeaddrinfo cs] ∧
    (inet_trybind w ps address serv hints s).2.trace.countP Call.is_destroy = cs.length := by
  unfold bind_resolution at hres hcs hfail ⊢
  have hrun : inet_trybind w ps address serv hints s =
      ((bind_errors w ps (w.getaddrinfo s (if address = "*" then none else some address)
          (if serv = none then some "0" else serv) hints).2.2 cs).getLast?.getD none,
        call_freeaddrinfo w cs
          ⟨bind_sweep w ps (w.getaddrinfo s (if address = "*" then none else some address)
              (if serv = none then some "0" else serv) hints).2.2 cs,
            [] ++ [Call.getaddrinfo (if address = "*" then none else some address)
              (if serv = none then some "0" else serv) hints] ++
              bind_failed_calls ps cs⟩) := by
    unfold inet_trybind
    simp only [call_getaddrinfo, hres, hcs, ne_eq, not_true_eq_false, if_false]
    have h := inet_trybind_loop_failed w ps cs [] none
      ⟨(w.getaddrinfo s (if address = "*" then none else some address)
          (if serv = none then some "0" else serv) hints).2.2,
        [] ++ [Call.getaddrinfo (if address = "*" then none else some address)
          (if serv = none then some "0" else serv) hints]⟩
      hfail
    rw [List.append_nil] at h
    rw [h]
    simp [inet_trybind_loop]
  have hlen : bind_errors w ps (w.getaddrinfo s (if address = "*" then none else some address)
      (if serv = none then some "0" else serv) hints).2.2 cs ≠ [] := by
    cases cs with
    | nil => exact absurd rfl hne
    | cons c cs => simp [bind_errors]
  obtain ⟨e, he⟩ := Option.ne_none_iff_exists'.mp
    (fun h => hlen (List.getLast?_eq_none_iff.mp h))
  have hmem := List.mem_of_getLast?_eq_some he
  have htr : (inet_trybind w ps address serv hints s).2.trace =
      Call.getaddrinfo (if address = "*" then none else some address)
          (if serv = none then some "0" else serv) hints ::
        bind_failed_calls ps cs ++ [Call.freeaddrinfo cs] := by
    rw [hrun]
    simp [call_freeaddrinfo]
  refine ⟨?_, ?_, htr, ?_⟩
  · rw [hrun, he]; rfl
  · rw [hrun, he]; exact hfail e hmem
  · rw [htr]
    simp [List.countP_cons, Call.is_destroy, bind_failed_calls_count_destroy]

/-- Witness for C9: four candidates, every bind fails; the error returned is the one of
the fourth attempt and the socket has been destroyed four times. -/
theorem inet_trybind_all_fail_witness :
    (inet_trybind (exWorld (0, exCands) exStatus exAllFail) 7 "localhost" (some "8080")
        none 0).1 = some "5" ∧
    (inet_trybind (exWorld (0, exCands) exStatus exAllFail) 7 "localhost" (some "8080")
        none 0).2.trace.countP Call.is_destroy = 4 :=
  have h := inet_trybind_all_fail (exWorld (0, exCands) exStatus exAllFail) 7 "localhost"
    (some "8080") none 0 exCands (by decide) (by decide) (by decide) (by decide)
  ⟨(Option.some.inj h.1).symm, h.2.2.2⟩

/-! ## `inet_trybind`: translation of the special input values -/

/-- C10 as stated fails: a supplied service `"0"` reaches the resolver as `"0"` too, so the
resolver is called with service `"0"` although the service argument is not absent. -/
theorem inet_trybind_supplied_service_zero :
    (inet_trybind (exWorld (0, exCands) exStatus exStatus) 7 "localhost" (some "0")
        none 0).2.trace.head? =
      some (Call.getaddrinfo (some "localhost") (some "0") none) ∧
    (some "0" : Option String) ≠ none := by
  decide

/-- C10, amended: in any run of `inet_trybind` the first external call is the resolver
call, it is the only resolver call, and it is made with no address (`NULL`) if the
address argument is exactly `"*"` and with the address unchanged otherwise (so with no
address if and only if the argument is `"*"`), with service `"0"` if the service argument
is absent and with the service unchanged otherwise, and with the hints unchanged. -/
theorem inet_trybind_translates_inputs (w : World σ) (ps : p_socket) (address : String)
    (serv : Option String) (hints : Option Addrinfo) (s : σ) :
    (inet_trybind w ps address serv hints s).2.trace.head? =
      some (Call.getaddrinfo (if address = "*" then none else some address)
        (some (serv.getD "0")) hints) ∧
    (inet_trybind w ps address serv hints s).2.trace.countP Call.is_getaddrinfo = 1 ∧
    ((if address = "*" then none else some address) = none ↔ address = "*") := by
  obtain ⟨body, hb, hall, _⟩ := inet_trybind_trace w ps address serv hints s
  have hserv : (if serv = none then some "0" else serv) = some (serv.getD "0") := by
    cases serv <;> simp
  have hcount : body.countP Call.is_getaddrinfo = 0 := by
    refine List.countP_eq_zero.mpr (fun c hc => ?_)
    rcases hall c hc with h | h <;> cases c <;>
      simp [Call.is_bind, Call.is_destroy, Call.is_getaddrinfo] at h ⊢
  rw [hb, hserv]
  refine ⟨rfl, ?_, ?_⟩
  · by_cases hok : w.socket_gaistrerror (bind_resolution w address serv hints s).1 = none ∨
        (bind_resolution w address serv hints s).2.1 ≠ [] <;>
      simp [hok, List.countP_cons, Call.is_getaddrinfo, hcount]
  · by_cases ha : address = "*" <;> simp [ha]

/-! ## An empty candidate chain -/

/-- C19: if resolution succeeds but leaves an empty candidate chain, `inet_tryconnect`
(first part) and `inet_trybind` (second part) return no error although no connect or
bind attempt is made: their only external calls are the resolver call and the release of
the (empty) chain. -/
theorem empty_chain_returns_success (w : World σ) (ps : p_socket) (node : Option String)
    (address : String) (serv : Option String) (tm : p_timeout) (hints : Option Addrinfo)
    (s : σ) :
    (w.socket_gaistrerror (w.getaddrinfo s node serv hints).1 = none →
      (w.getaddrinfo s node serv hints).2.1 = [] →
      (inet_tryconnect w ps node serv tm hints s).1 = none ∧
      (inet_tryconnect w ps node serv tm hints s).2.trace =
        [Call.getaddrinfo node serv hints, Call.freeaddrinfo []]) ∧
    (w.socket_gaistrerror (bind_resolution w address serv hints s).1 = none →
      (bind_resolution w address serv hints s).2.1 = [] →
      (inet_trybind w ps address serv hints s).1 = none ∧
      (inet_trybind w ps address serv hints s).2.trace =
        [Call.getaddrinfo (if address = "*" then none else some address)
          (if serv = none then some "0" else serv) hints, Call.freeaddrinfo []]) := by
  constructor
  · intro hres hcs
    unfold inet_tryconnect
    simp [call_getaddrinfo, call_freeaddrinfo, hres, hcs, inet_tryconnect_loop]
  · intro hres hcs
    unfold bind_resolution at hres hcs
    unfold inet_trybind
    simp [call_getaddrinfo, call_freeaddrinfo, hres, hcs, inet_trybind_loop]

/-- Witness for C19: the resolver succeeds with an empty chain. -/
theorem empty_chain_returns_success_witness :
    ((inet_tryconnect (exWorld (0, []) exAllFail exAllFail) 7 (some "example.org")
        (some "80") 9 none 0).1 = none ∧
      (inet_tryconnect (exWorld (0, []) exAllFail exAllFail) 7 (some "example.org")
        (some "80") 9 none 0).2.trace =
        [Call.getaddrinfo (some "example.org") (some "80") none, Call.freeaddrinfo []]) ∧
    ((inet_trybind (exWorld (0, []) exAllFail exAllFail) 7 "*" none none 0).1 = none ∧
      (inet_trybind (exWorld (0, []) exAllFail exAllFail) 7 "*" none none 0).2.trace =
        [Call.getaddrinfo none (some "0") none, Call.freeaddrinfo []]) :=
  ⟨(empty_chain_returns_success (exWorld (0, []) exAllFail exAllFail) 7
      (some "example.org") "*" (some "80") 9 none 0).1 (by decide) (by decide),
    (empty_chain_returns_success (exWorld (0, []) exAllFail exAllFail) 7
      (some "example.org") "*" none 9 none 0).2 (by decide) (by decide)⟩

/-! ## The Lua stack model: basic facts -/

theorem stack_pos_neg_three (n : Nat) : stack_pos (n + 1 + 2) (-3) = some 2 := by
  unfold stack_pos
  have h1 : ¬ (0 : Int) < -3 := by omega
  have h2 : (-3 : Int) < 0 ∧ -(-3 : Int) ≤ ((n + 1 + 2 : Nat) : Int) := by
    constructor
    · omega
    · push_cast; omega
  rw [if_neg h1, if_pos h2]
  rfl

theorem stack_pos_abs (n k : Nat) :
    stack_pos (n + 1 + k) ((n + 1 : Nat) : Int) = some k := by
  unfold stack_pos
  have h1 : (0 : Int) < ((n + 1 : Nat) : Int) := by push_cast; omega
  have h2 : ((n + 1 : Nat) : Int) ≤ ((n + 1 + k : Nat) : Int) := by push_cast; omega
  rw [if_pos h1, if_pos h2, Int.toNat_ofNat]
  congr 1
  omega

/-- `lua_settable(L, -3)` with a table just below the key. -/
theorem lua_settable_neg_three (v k : LuaValue) (key : Key) (fields : List (Key × LuaValue))
    (rest : LuaStack) (hk : k.to_key = some key) :
    lua_settable (v :: k :: LuaValue.table fields :: rest) (-3) =
      some (LuaValue.table (table_set fields key v) :: rest) := by
  simp [lua_settable, stack_pos_neg_three, hk]

theorem table_set_fresh (fields : List (Key × LuaValue)) (k : Key) (v : LuaValue)
    (hv : v.is_nil = false) (hk : ∀ e ∈ fields, e.1 ≠ k) :
    table_set fields k v = fields ++ [(k, v)] := by
  induction fields with
  | nil => simp [table_set, hv]
  | cons e t ih =>
    obtain ⟨k', v'⟩ := e
    have hne : k' ≠ k := hk (k', v') (List.mem_cons_self _ _)
    simp only [table_set, if_neg hne, List.cons_append]
    rw [ih (fun e he => hk e (List.mem_cons_of_mem _ he))]

theorem lua_seq_from_keys (i : Int) (vs : List LuaValue) :
    ∀ e ∈ lua_seq_from i vs, ∃ j : Int, e.1 = Key.num j ∧ i ≤ j ∧ j < i + vs.length := by
  induction vs generalizing i with
  | nil => simp [lua_seq_from]
  | cons v vs ih =>
    intro e he
    simp only [lua_seq_from, List.mem_cons] at he
    rcases he with he | he
    · exact ⟨i, by rw [he], le_refl i, by simp only [List.length_cons]; push_cast; omega⟩
    · obtain ⟨j, hj, hle, hlt⟩ := ih (i + 1) e he
      exact ⟨j, hj, by omega, by simp only [List.length_cons]; push_cast; omega⟩

theorem lua_seq_from_append (i : Int) (a b : List LuaValue) :
    lua_seq_from i (a ++ b) = lua_seq_from i a ++ lua_seq_from (i + a.length) b := by
  induction a generalizing i with
  | nil => simp [lua_seq_from]
  | cons v a ih =>
    have hidx : i + 1 + (a.length : Int) = i + ((a.length + 1 : Nat) : Int) := by
      push_cast; omega
    rw [List.cons_append, lua_seq_from, lua_seq_from, ih, List.length_cons, hidx,
      List.cons_append]

theorem lua_seq_from_length (i : Int) (vs : List LuaValue) :
    (lua_seq_from i vs).length = vs.length := by
  induction vs generalizing i with
  | nil => rfl
  | cons v vs ih => simp [lua_seq_from, ih]

theorem table_get_lua_seq_from (i : Int) (vs : List LuaValue) (n : Nat) (h : n < vs.length) :
    table_get (lua_seq_from i vs) (Key.num (i + n)) = vs[n] := by
  induction vs generalizing i n with
  | nil => simp at h
  | cons v vs ih =>
    cases n with
    | zero => simp [lua_seq_from, table_get]
    | succ n =>
      have hne : ¬ (i = i + ((n + 1 : Nat) : Int)) := by push_cast; omega
      have hlt : n < vs.length := by simpa using h
      have hidx : i + ((n + 1 : Nat) : Int) = (i + 1) + (n : Int) := by push_cast; omega
      simp only [lua_seq_from, table_get, Key.num.injEq, if_neg hne, List.getElem_cons_succ]
      rw [hidx]
      exact ih (i + 1) n hlt

/-! ## `inet_pushresolved` builds the Host Record -/

/-- The filling loop over strings, started on a sequence already holding `done` at the
indices 1, 2, ...: it appends the new strings at the following indices. -/
theorem inet_pushresolved_alias_spec (al : List String) (done : List LuaValue)
    (rest : LuaStack) :
    inet_pushresolved_alias al (done.length + 1)
        (LuaValue.table (lua_seq_from 1 done) :: rest) =
      some (LuaValue.table (lua_seq_from 1 (done ++ al.map LuaValue.string)) :: rest) := by
  induction al generalizing done with
  | nil => simp [inet_pushresolved_alias]
  | cons a al ih =>
    have hfresh : ∀ e ∈ lua_seq_from 1 done, e.1 ≠ Key.num ((done.length : Int) + 1) := by
      intro e he heq
      obtain ⟨j, hj, _, hlt⟩ := lua_seq_from_keys 1 done e he
      rw [hj] at heq
      have hjj : j = (done.length : Int) + 1 := Key.num.inj heq
      omega
    have hset := lua_settable_neg_three (LuaValue.string a)
      (LuaValue.number ((done.length : Int) + 1)) (Key.num ((done.length : Int) + 1))
      (lua_seq_from 1 done) rest rfl
    rw [table_set_fresh (lua_seq_from 1 done) (Key.num ((done.length : Int) + 1))
      (LuaValue.string a) rfl hfresh] at hset
    have hnext : lua_seq_from 1 done ++ [(Key.num ((done.length : Int) + 1), LuaValue.string a)] =
        lua_seq_from 1 (done ++ [LuaValue.string a]) := by
      rw [lua_seq_from_append]
      simp [lua_seq_from, add_comm]
    rw [hnext] at hset
    have hih := ih (done ++ [LuaValue.string a])
    simp only [List.length_append, List.length_singleton, Nat.cast_add, Nat.cast_one,
      List.append_assoc, List.singleton_append] at hih
    simp only [inet_pushresolved_alias, lua_pushnumber, lua_pushstring, LuaValue.of_cstring,
      hset, List.map_cons]
    exact hih

/-- The filling loop over addresses, started on a sequence already holding `done`. -/
theorem inet_pushresolved_addr_spec (inet_ntoa : In_addr → String) (addr : List In_addr)
    (done : List LuaValue) (rest : LuaStack) :
    inet_pushresolved_addr inet_ntoa addr (done.length + 1)
        (LuaValue.table (lua_seq_from 1 done) :: rest) =
      some (LuaValue.table
        (lua_seq_from 1 (done ++ addr.map (fun x => LuaValue.string (inet_ntoa x)))) ::
          rest) := by
  induction addr generalizing done with
  | nil => simp [inet_pushresolved_addr]
  | cons a addr ih =>
    have hfresh : ∀ e ∈ lua_seq_from 1 done, e.1 ≠ Key.num ((done.length : Int) + 1) := by
      intro e he heq
      obtain ⟨j, hj, _, hlt⟩ := lua_seq_from_keys 1 done e he
      rw [hj] at heq
      have hjj : j = (done.length : Int) + 1 := Key.num.inj heq
      omega
    have hset := lua_settable_neg_three (LuaValue.string (inet_ntoa a))
      (LuaValue.number ((done.length : Int) + 1)) (Key.num ((done.length : Int) + 1))
      (lua_seq_from 1 done) rest rfl
    rw [table_set_fresh (lua_seq_from 1 done) (Key.num ((done.length : Int) + 1))
      (LuaValue.string (inet_ntoa a)) rfl hfresh] at hset
    have hnext : lua_seq_from 1 done ++
        [(Key.num ((done.length : Int) + 1), LuaValue.string (inet_ntoa a))] =
        lua_seq_from 1 (done ++ [LuaValue.string (inet_ntoa a)]) := by
      rw [lua_seq_from_append]
      simp [lua_seq_from, add_comm]
    rw [hnext] at hset
    have hih := ih (done ++ [LuaValue.string (inet_ntoa a)])
    simp only [List.length_append, List.length_singleton, Nat.cast_add, Nat.cast_one,
      List.append_assoc, List.singleton_append] at hih
    simp only [inet_pushresolved_addr, lua_pushnumber, lua_pushstring, LuaValue.of_cstring,
      hset, List.map_cons]
    exact hih

/-- `lua_settable(L, idx)` with `idx` the absolute index of a table that has the slots
`mid` between it and the key. -/
theorem lua_settable_abs (v k : LuaValue) (key : Key) (mid : List LuaValue)
    (fields : List (Key × LuaValue)) (L : LuaStack) (hk : k.to_key = some key) :
    lua_settable (v :: k :: (mid ++ LuaValue.table fields :: L)) ((L.length + 1 : Nat) : Int) =
      some (mid ++ LuaValue.table (table_set fields key v) :: L) := by
  have hpos : stack_pos ((mid ++ LuaValue.table fields :: L).length + 2)
      ((L.length + 1 : Nat) : Int) = some (mid.length + 2) := by
    have h := stack_pos_abs L.length (mid.length + 2)
    have hlen : (mid ++ LuaValue.table fields :: L).length + 2 =
        L.length + 1 + (mid.length + 2) := by
      simp only [List.length_append, List.length_cons]
      omega
    rw [hlen]
    exact h
  have hget : (mid ++ LuaValue.table fields :: L)[mid.length + 2 - 2]? =
      some (LuaValue.table fields) := by
    rw [Nat.add_sub_cancel, List.getElem?_append_right (le_refl _)]
    simp
  simp only [lua_settable, hpos, hk, hget]
  simp

/-- On any stack, `inet_pushresolved` pushes the Host Record of the host entry. -/
theorem inet_pushresolved_eq (inet_ntoa : In_addr → String) (L : LuaStack) (hp : Hostent) :
    inet_pushresolved inet_ntoa L hp = some (host_record inet_ntoa hp :: L) := by
  have h1 := lua_settable_abs (LuaValue.string hp.h_name) (LuaValue.string "name")
    (Key.str "name") [] [] L rfl
  have halias : (match hp.h_aliases with
      | some al => inet_pushresolved_alias al 1
          (LuaValue.table [] :: LuaValue.string "alias" :: LuaValue.string "ip" ::
            LuaValue.table [(Key.str "name", LuaValue.string hp.h_name)] :: L)
      | none => some (LuaValue.table [] :: LuaValue.string "alias" :: LuaValue.string "ip" ::
            LuaValue.table [(Key.str "name", LuaValue.string hp.h_name)] :: L)) =
      some (lua_seq ((hp.h_aliases.getD []).map LuaValue.string) ::
        LuaValue.string "alias" :: LuaValue.string "ip" ::
          LuaValue.table [(Key.str "name", LuaValue.string hp.h_name)] :: L) := by
    cases hal : hp.h_aliases with
    | none => rfl
    | some al =>
      have h := inet_pushresolved_alias_spec al [] (LuaValue.string "alias" ::
        LuaValue.string "ip" ::
          LuaValue.table [(Key.str "name", LuaValue.string hp.h_name)] :: L)
      simpa [lua_seq, lua_seq_from] using h
  have h2 := lua_settable_abs (lua_seq ((hp.h_aliases.getD []).map LuaValue.string))
    (LuaValue.string "alias") (Key.str "alias") [LuaValue.string "ip"]
    [(Key.str "name", LuaValue.string hp.h_name)] L rfl
  have haddr : ∀ rest : LuaStack, (match hp.h_addr_list with
      | some addr => inet_pushresolved_addr inet_ntoa addr 1 (LuaValue.table [] :: rest)
      | none => some (LuaValue.table [] :: rest)) =
      some (lua_seq ((hp.h_addr_list.getD []).map (fun x => LuaValue.string (inet_ntoa x))) ::
        rest) := by
    intro rest
    cases had : hp.h_addr_list with
    | none => rfl
    | some addr =>
      have h := inet_pushresolved_addr_spec inet_ntoa addr [] rest
      simpa [lua_seq, lua_seq_from] using h
  have h3 := lua_settable_abs
    (lua_seq ((hp.h_addr_list.getD []).map (fun x => LuaValue.string (inet_ntoa x))))
    (LuaValue.string "ip") (Key.str "ip") []
    [(Key.str "name", LuaValue.string hp.h_name),
      (Key.str "alias", lua_seq ((hp.h_aliases.getD []).map LuaValue.string))] L rfl
  have hk1 : ¬ (Key.str "name" = Key.str "alias") := by decide
  have hk2 : ¬ (Key.str "name" = Key.str "ip") := by decide
  have hk3 : ¬ (Key.str "alias" = Key.str "ip") := by decide
  simp only [List.nil_append, List.singleton_append, List.cons_append] at h1 h2 h3
  simp only [table_set, LuaValue.is_nil, lua_seq, if_neg hk1, if_neg hk2, if_neg hk3,
    Bool.false_eq_true, if_false] at h1 h2 h3
  simp only [lua_seq] at halias haddr
  simp only [inet_pushresolved, lua_newtable, lua_gettop, lua_pushstring,
    LuaValue.of_cstring, List.length_cons, h1, Option.some_bind, halias, h2, haddr, h3]
  rfl

/-- C11: on any stack and for any host entry with canonical name `N`, alias list
`[a1..am]` and address list `[x1..xk]` (each list possibly absent or empty),
`inet_pushresolved` pushes one value, a table with exactly the three fields `name`,
`alias` and `ip`, where `name` is `N`, `alias` has exactly `m` fields with
`alias[i] = ai` for `i = 1..m`, and `ip` has exactly `k` fields with `ip[i]` the dotted
text (`inet_ntoa`) of `xi` for `i = 1..k`; an absent list counts as empty. -/
theorem inet_pushresolved_builds_host_record (inet_ntoa : In_addr → String) (L : LuaStack)
    (hp : Hostent) :
    ∃ record, inet_pushresolved inet_ntoa L hp = some (record :: L) ∧
      record.size = 3 ∧
      record.get (Key.str "name") = LuaValue.string hp.h_name ∧
      (record.get (Key.str "alias")).size = (hp.h_aliases.getD []).length ∧
      (∀ (i : Nat) (h : i < (hp.h_aliases.getD []).length),
        (record.get (Key.str "alias")).get (Key.num (i + 1)) =
          LuaValue.string ((hp.h_aliases.getD [])[i])) ∧
      (record.get (Key.str "ip")).size = (hp.h_addr_list.getD []).length ∧
      (∀ (i : Nat) (h : i < (hp.h_addr_list.getD []).length),
        (record.get (Key.str "ip")).get (Key.num (i + 1)) =
          LuaValue.string (inet_ntoa ((hp.h_addr_list.getD [])[i]))) := by
  refine ⟨host_record inet_ntoa hp, inet_pushresolved_eq inet_ntoa L hp, rfl, rfl, ?_, ?_, ?_, ?_⟩
  · have hget : (host_record inet_ntoa hp).get (Key.str "alias") =
        lua_seq ((hp.h_aliases.getD []).map LuaValue.string) := by
      simp [host_record, LuaValue.get, table_get]
    rw [hget]
    simp [lua_seq, LuaValue.size, lua_seq_from_length]
  · intro i h
    have hget : (host_record inet_ntoa hp).get (Key.str "alias") =
        lua_seq ((hp.h_aliases.getD []).map LuaValue.string) := by
      simp [host_record, LuaValue.get, table_get]
    rw [hget]
    have hlt : i < ((hp.h_aliases.getD []).map LuaValue.string).length := by simpa using h
    have hg := table_get_lua_seq_from 1 ((hp.h_aliases.getD []).map LuaValue.string) i hlt
    simp only [lua_seq, LuaValue.get]
    rw [add_comm] at hg
    rw [hg]
    simp
  · have hget : (host_record inet_ntoa hp).get (Key.str "ip") =
        lua_seq ((hp.h_addr_list.getD []).map (fun x => LuaValue.string (inet_ntoa x))) := by
      simp [host_record, LuaValue.get, table_get]
    rw [hget]
    simp [lua_seq, LuaValue.size, lua_seq_from_length]
  · intro i h
    have hget : (host_record inet_ntoa hp).get (Key.str "ip") =
        lua_seq ((hp.h_addr_list.getD []).map (fun x => LuaValue.string (inet_ntoa x))) := by
      simp [host_record, LuaValue.get, table_get]
    rw [hget]
    have hlt : i < ((hp.h_addr_list.getD []).map
        (fun x => LuaValue.string (inet_ntoa x))).length := by simpa using h
    have hg := table_get_lua_seq_from 1
      ((hp.h_addr_list.getD []).map (fun x => LuaValue.string (inet_ntoa x))) i hlt
    simp only [lua_seq, LuaValue.get]
    rw [add_comm] at hg
    rw [hg]
    simp

/-! ## The bundled `inet_aton`: which strings are accepted -/

theorem isdigit_not_isspace (c : Char) (h : isdigit c = true) : isspace c = false := by
  cases hs : isspace c with
  | false => rfl
  | true =>
    simp only [isspace, Bool.or_eq_true, decide_eq_true_eq] at hs
    rcases hs with ((((hs | hs) | hs) | hs) | hs) | hs <;> subst hs <;> revert h <;> decide

theorem isdigit_not_sign (c : Char) (h : isdigit c = true) : c ≠ '-' ∧ c ≠ '+' := by
  constructor <;> intro hc <;> subst hc <;> revert h <;> decide

theorem dropWhile_isspace_append (ws t : List Char) (hws : ∀ c ∈ ws, isspace c = true)
    (ht : ∀ c, t.head? = some c → isspace c = false) :
    (ws ++ t).dropWhile isspace = t := by
  induction ws with
  | nil =>
    cases t with
    | nil => rfl
    | cons c t => simp [List.dropWhile, ht c rfl]
  | cons w ws ih =>
    simp only [List.cons_append, List.dropWhile, hws w (List.mem_cons_self _ _)]
    exact ih (fun c hc => hws c (List.mem_cons_of_mem _ hc))

theorem takeWhile_isdigit_append (ds t : List Char) (hds : ∀ c ∈ ds, isdigit c = true)
    (ht : ∀ c, t.head? = some c → isdigit c = false) :
    (ds ++ t).takeWhile isdigit = ds ∧ (ds ++ t).dropWhile isdigit = t := by
  induction ds with
  | nil =>
    cases t with
    | nil => exact ⟨rfl, rfl⟩
    | cons c t => simp [List.takeWhile, List.dropWhile, ht c rfl]
  | cons w ds ih =>
    have h := ih (fun c hc => hds c (List.mem_cons_of_mem _ hc))
    simp [List.takeWhile_cons, List.dropWhile_cons, hds w (List.mem_cons_self _ _), h.1, h.2]

theorem skip_sign_digit (c : Char) (r : List Char) (h : isdigit c = true) :
    skip_sign (c :: r) = c :: r := by
  have hs := isdigit_not_sign c h
  unfold skip_sign
  split
  · rename_i heq
    exact absurd (List.cons.inj heq).1 hs.1
  · rename_i heq
    exact absurd (List.cons.inj heq).1 hs.2
  · rfl

/-- Read on the text of a well-formed field followed by input that does not start with a
digit, `%u` converts the field and leaves that input. -/
theorem scan_u_field (f : Field) (rest : List Char) (hf : f.wf)
    (hrest : ∀ c, rest.head? = some c → isdigit c = false) :
    scan_u (f.text ++ rest) = some (f.value, rest) := by
  obtain ⟨ws, sign, digits⟩ := f
  obtain ⟨hws, hsign, hne, hds⟩ := hf
  simp only at hws hsign hne hds
  obtain ⟨d, ds, hdd⟩ := List.exists_cons_of_ne_nil hne
  have hd : isdigit d = true := hds d (by rw [hdd]; exact List.mem_cons_self _ _)
  have htw := takeWhile_isdigit_append digits rest hds hrest
  have hdrop : (ws ++ (sign ++ (digits ++ rest))).dropWhile isspace =
      sign ++ (digits ++ rest) := by
    apply dropWhile_isspace_append ws _ hws
    intro c hc
    rcases hsign with h | h | h <;> subst h
    · rw [hdd] at hc
      simp only [List.nil_append, List.cons_append, List.head?_cons, Option.some.injEq] at hc
      rw [← hc]
      exact isdigit_not_isspace d hd
    · simp only [List.cons_append, List.head?_cons, Option.some.injEq] at hc
      rw [← hc]; decide
    · simp only [List.cons_append, List.head?_cons, Option.some.injEq] at hc
      rw [← hc]; decide
  have hskip : skip_sign (sign ++ (digits ++ rest)) = digits ++ rest := by
    rcases hsign with h | h | h <;> subst h
    · rw [hdd]
      exact skip_sign_digit d _ hd
    · rfl
    · rfl
  have hneg : decide ((sign ++ (digits ++ rest)).head? = some '-') = decide (sign = ['-']) := by
    rcases hsign with h | h | h <;> subst h
    · rw [hdd]
      have := (isdigit_not_sign d hd).1
      simp [this]
    · simp
    · simp
  simp only [scan_u, Field.text, Field.value, List.append_assoc, hdrop, hskip, htw.1, htw.2,
    if_neg hne, hneg]

/-- A successful `%u` conversion has read a well-formed field. -/
theorem scan_u_some (s rest : List Char) (v : Nat) (h : scan_u s = some (v, rest)) :
    ∃ f : Field, f.wf ∧ s = f.text ++ rest ∧ v = f.value := by
  have hsplit : s.takeWhile isspace ++ s.dropWhile isspace = s :=
    List.takeWhile_append_dropWhile isspace s
  have hws : ∀ c ∈ s.takeWhile isspace, isspace c = true :=
    fun c hc => List.mem_takeWhile_imp hc
  simp only [scan_u] at h
  generalize s.dropWhile isspace = s1 at h hsplit
  split at h
  · exact absurd h (by simp)
  · rename_i hne
    have hv := (Prod.mk.inj (Option.some.inj h)).1
    have hr := (Prod.mk.inj (Option.some.inj h)).2
    have hds : ∀ c ∈ (skip_sign s1).takeWhile isdigit, isdigit c = true :=
      fun c hc => List.mem_takeWhile_imp hc
    have hsplit2 : (skip_sign s1).takeWhile isdigit ++ rest = skip_sign s1 := by
      rw [← hr]
      exact List.takeWhile_append_dropWhile isdigit (skip_sign s1)
    have hsign : ∃ sign : List Char, (sign = [] ∨ sign = ['+'] ∨ sign = ['-']) ∧
        s1 = sign ++ skip_sign s1 ∧
        decide (s1.head? = some '-') = decide (sign = ['-']) := by
      unfold skip_sign
      split
      · exact ⟨['-'], Or.inr (Or.inr rfl), rfl, by simp⟩
      · exact ⟨['+'], Or.inr (Or.inl rfl), rfl, by simp⟩
      · rename_i hnm _
        refine ⟨[], Or.inl rfl, rfl, ?_⟩
        have hhead : ¬ (s1.head? = some '-') := by
          intro hh
          cases s1 with
          | nil => simp at hh
          | cons c r =>
            simp only [List.head?_cons, Option.some.injEq] at hh
            exact hnm r (by rw [hh])
        simp [hhead]
    obtain ⟨sign, hsg, hs1, hneg⟩ := hsign
    refine ⟨⟨s.takeWhile isspace, sign, (skip_sign s1).takeWhile isdigit⟩,
      ⟨hws, hsg, hne, hds⟩, ?_, ?_⟩
    · simp only [Field.text, List.append_assoc, hsplit2]
      rw [← hs1, hsplit]
    · simp only [Field.value]
      rw [← hneg, hv]

theorem scan_dot_some (s r : List Char) (h : scan_dot s = some r) : s = '.' :: r := by
  unfold scan_dot at h
  split at h
  · rw [Option.some.inj h]
  · exact absurd h (by simp)

/-- When `%n` has been reached (`n` is not 0), the input starts with four well-formed
fields separated by single dots, all four conversions were made, and `n` is the length of
what was read. -/
theorem sscanf_quad_complete (cp : List Char) (h : (sscanf_quad cp).n ≠ 0) :
    ∃ (f1 f2 f3 f4 : Field) (s7 : List Char), f1.wf ∧ f2.wf ∧ f3.wf ∧ f4.wf ∧
      cp = f1.text ++ '.' :: (f2.text ++ '.' :: (f3.text ++ '.' :: (f4.text ++ s7))) ∧
      sscanf_quad cp =
        ⟨4, f1.value, f2.value, f3.value, f4.value, cp.length - s7.length⟩ := by
  rcases h1 : scan_u cp with _ | ⟨a, s1⟩
  · simp only [sscanf_quad, h1] at h
    split at h <;> simp at h
  rcases h2 : scan_dot s1 with _ | s2
  · simp [sscanf_quad, h1, h2] at h
  rcases h3 : scan_u s2 with _ | ⟨b, s3⟩
  · simp [sscanf_quad, h1, h2, h3] at h
  rcases h4 : scan_dot s3 with _ | s4
  · simp [sscanf_quad, h1, h2, h3, h4] at h
  rcases h5 : scan_u s4 with _ | ⟨c, s5⟩
  · simp [sscanf_quad, h1, h2, h3, h4, h5] at h
  rcases h6 : scan_dot s5 with _ | s6
  · simp [sscanf_quad, h1, h2, h3, h4, h5, h6] at h
  rcases h7 : scan_u s6 with _ | ⟨d, s7⟩
  · simp [sscanf_quad, h1, h2, h3, h4, h5, h6, h7] at h
  obtain ⟨f1, hf1, e1, v1⟩ := scan_u_some cp s1 a h1
  obtain ⟨f2, hf2, e2, v2⟩ := scan_u_some s2 s3 b h3
  obtain ⟨f3, hf3, e3, v3⟩ := scan_u_some s4 s5 c h5
  obtain ⟨f4, hf4, e4, v4⟩ := scan_u_some s6 s7 d h7
  refine ⟨f1, f2, f3, f4, s7, hf1, hf2, hf3, hf4, ?_, ?_⟩
  · rw [e1, scan_dot_some s1 s2 h2, e2, scan_dot_some s3 s4 h4, e3, scan_dot_some s5 s6 h6,
      e4]
  · simp only [sscanf_quad, h1, h2, h3, h4, h5, h6, h7, v1, v2, v3, v4]

/-- Four well-formed fields separated by single dots, with nothing after them, are read
completely. -/
theorem sscanf_quad_fields (f1 f2 f3 f4 : Field) (hf1 : f1.wf) (hf2 : f2.wf) (hf3 : f3.wf)
    (hf4 : f4.wf) :
    sscanf_quad (f1.text ++ '.' :: (f2.text ++ '.' :: (f3.text ++ '.' :: f4.text))) =
      ⟨4, f1.value, f2.value, f3.value, f4.value,
        (f1.text ++ '.' :: (f2.text ++ '.' :: (f3.text ++ '.' :: f4.text))).length⟩ := by
  have hdot : ∀ r : List Char, ∀ c, ('.' :: r).head? = some c → isdigit c = false := by
    intro r c hc
    simp only [List.head?_cons, Option.some.injEq] at hc
    rw [← hc]; decide
  have h1 := scan_u_field f1 ('.' :: (f2.text ++ '.' :: (f3.text ++ '.' :: f4.text))) hf1
    (hdot _)
  have h3 := scan_u_field f2 ('.' :: (f3.text ++ '.' :: f4.text)) hf2 (hdot _)
  have h5 := scan_u_field f3 ('.' :: f4.text) hf3 (hdot _)
  have h7 := scan_u_field f4 [] hf4 (by simp)
  rw [List.append_nil] at h7
  simp only [sscanf_quad, h1, scan_dot, h3, h5, h7, List.length_nil, Nat.sub_zero]

theorem Field.text_ne_nil (f : Field) (hf : f.wf) : f.text ≠ [] := by
  intro h
  simp only [Field.text, List.append_eq_nil] at h
  exact hf.2.2.1 h.2

/-- The run of `inet_aton` on four well-formed fields of value at most 255. -/
theorem inet_aton_fields (htonl : Nat → Nat) (cp : String) (inp : Option In_addr)
    (f1 f2 f3 f4 : Field) (hf1 : f1.wf) (hf2 : f2.wf) (hf3 : f3.wf) (hf4 : f4.wf)
    (hcp : cp.toList = f1.text ++ '.' :: (f2.text ++ '.' :: (f3.text ++ '.' :: f4.text)))
    (h1 : f1.value ≤ 255) (h2 : f2.value ≤ 255) (h3 : f3.value ≤ 255) (h4 : f4.value ≤ 255) :
    inet_aton htonl cp inp =
      (1, inp.map (fun _ =>
        ⟨htonl (f1.value * 2 ^ 24 + f2.value * 2 ^ 16 + f3.value * 2 ^ 8 + f4.value)⟩)) := by
  have hsc := sscanf_quad_fields f1 f2 f3 f4 hf1 hf2 hf3 hf4
  rw [← hcp] at hsc
  have hlen : cp.toList.length ≠ 0 := by
    rw [hcp]
    have := Field.text_ne_nil f1 hf1
    simp [this]
  have hshift : (((0 + f1.value) <<< 8 + f2.value) <<< 8 + f3.value) <<< 8 + f4.value =
      f1.value * 2 ^ 24 + f2.value * 2 ^ 16 + f3.value * 2 ^ 8 + f4.value := by
    simp only [Nat.shiftLeft_eq]
    ring
  have hb : ¬ (f1.value > 255 ∨ f2.value > 255 ∨ f3.value > 255 ∨ f4.value > 255) := by
    omega
  have hrn : ¬ ((4 : Int) = 0 ∨ cp.toList.length = 0) := by
    intro h
    rcases h with h | h
    · exact absurd h (by decide)
    · exact hlen h
  unfold inet_aton
  simp only [hsc, if_neg hrn, List.drop_length, ne_eq, not_true_eq_false, if_false, if_neg hb,
    hshift]
  cases inp <;> rfl

/-- Either `inet_aton` rejects, or the string is four well-formed fields of value at most
255 separated by single dots. -/
theorem inet_aton_cases (htonl : Nat → Nat) (cp : String) (inp : Option In_addr) :
    inet_aton htonl cp inp = (0, inp) ∨
      ∃ f1 f2 f3 f4 : Field, f1.wf ∧ f2.wf ∧ f3.wf ∧ f4.wf ∧
        cp.toList = f1.text ++ '.' :: (f2.text ++ '.' :: (f3.text ++ '.' :: f4.text)) ∧
        f1.value ≤ 255 ∧ f2.value ≤ 255 ∧ f3.value ≤ 255 ∧ f4.value ≤ 255 := by
  by_cases hrn : (sscanf_quad cp.toList).r = 0 ∨ (sscanf_quad cp.toList).n = 0
  · left
    unfold inet_aton
    simp only [if_pos hrn]
  · have hn : (sscanf_quad cp.toList).n ≠ 0 := fun h => hrn (Or.inr h)
    obtain ⟨f1, f2, f3, f4, s7, hf1, hf2, hf3, hf4, hcp, hsc⟩ :=
      sscanf_quad_complete cp.toList hn
    have hdrop : cp.toList.drop (cp.toList.length - s7.length) = s7 := by
      have hlen : cp.toList.length - s7.length =
          (f1.text ++ '.' :: (f2.text ++ '.' :: (f3.text ++ '.' :: f4.text))).length := by
        rw [hcp]
        simp only [List.length_append, List.length_cons]
        omega
      have hre : cp.toList =
          (f1.text ++ '.' :: (f2.text ++ '.' :: (f3.text ++ '.' :: f4.text))) ++ s7 := by
        rw [hcp]
        simp
      rw [hlen]
      conv_lhs => rw [hre]
      exact List.drop_left _ _
    by_cases hs7 : s7 = []
    · by_cases hb : f1.value > 255 ∨ f2.value > 255 ∨ f3.value > 255 ∨ f4.value > 255
      · left
        have hrn2 : ¬ ((4 : Int) = 0 ∨ cp.toList.length - s7.length = 0) := by
          rw [hsc] at hrn
          exact hrn
        unfold inet_aton
        simp only [hsc, if_neg hrn2, hdrop, ne_eq, if_pos hb]
        split <;> rfl
      · right
        subst hs7
        rw [List.append_nil] at hcp
        exact ⟨f1, f2, f3, f4, hf1, hf2, hf3, hf4, hcp, by omega, by omega, by omega, by omega⟩
    · left
      have hrn2 : ¬ ((4 : Int) = 0 ∨ cp.toList.length - s7.length = 0) := by
        rw [hsc] at hrn
        exact hrn
      unfold inet_aton
      simp only [hsc, if_neg hrn2, hdrop, ne_eq, hs7, not_false_eq_true, if_true]

/-- C20, amended: the bundled `inet_aton` returns 1 or 0; it returns 1 (accepts) if and
only if the string is four fields separated by single dots with nothing after the fourth,
where a field is what `%u` reads (optional white space, an optional sign, at least one
decimal digit) and each field's `unsigned int` value is at most 255; that value is what
`sscanf` stores: the number read as `strtoul` reads it into a 64-bit `unsigned long`
(`ULONG_MAX` for a number beyond it, negated modulo `2 ^ 64` after a minus sign), cut to
its low 32 bits.  On acceptance with a non-NULL output it stores
`htonl (a * 2^24 + b * 2^16 + c * 2^8 + d)`, the four field values in network byte order;
on rejection it leaves the output address unchanged. -/
theorem inet_aton_accepts_iff (htonl : Nat → Nat) (cp : String) (inp : Option In_addr) :
    ((inet_aton htonl cp inp).1 = 1 ↔
      ∃ f1 f2 f3 f4 : Field, f1.wf ∧ f2.wf ∧ f3.wf ∧ f4.wf ∧
        cp.toList = f1.text ++ '.' :: (f2.text ++ '.' :: (f3.text ++ '.' :: f4.text)) ∧
        f1.value ≤ 255 ∧ f2.value ≤ 255 ∧ f3.value ≤ 255 ∧ f4.value ≤ 255) ∧
    ((inet_aton htonl cp inp).1 = 1 ∨ (inet_aton htonl cp inp).1 = 0) ∧
    ((inet_aton htonl cp inp).1 = 0 → (inet_aton htonl cp inp).2 = inp) ∧
    (∀ (f1 f2 f3 f4 : Field) (x : In_addr), f1.wf → f2.wf → f3.wf → f4.wf →
      cp.toList = f1.text ++ '.' :: (f2.text ++ '.' :: (f3.text ++ '.' :: f4.text)) →
      f1.value ≤ 255 → f2.value ≤ 255 → f3.value ≤ 255 → f4.value ≤ 255 → inp = some x →
      (inet_aton htonl cp inp).2 =
        some ⟨htonl (f1.value * 2 ^ 24 + f2.value * 2 ^ 16 + f3.value * 2 ^ 8 + f4.value)⟩) := by
  refine ⟨⟨?_, ?_⟩, ?_, ?_, ?_⟩
  · intro h
    rcases inet_aton_cases htonl cp inp with h0 | hex
    · rw [h0] at h
      exact absurd h (by simp)
    · exact hex
  · rintro ⟨f1, f2, f3, f4, hf1, hf2, hf3, hf4, hcp, h1, h2, h3, h4⟩
    rw [inet_aton_fields htonl cp inp f1 f2 f3 f4 hf1 hf2 hf3 hf4 hcp h1 h2 h3 h4]
  · rcases inet_aton_cases htonl cp inp with h0 | ⟨f1, f2, f3, f4, hf1, hf2, hf3, hf4, hcp,
      h1, h2, h3, h4⟩
    · exact Or.inr (by rw [h0])
    · exact Or.inl
        (by rw [inet_aton_fields htonl cp inp f1 f2 f3 f4 hf1 hf2 hf3 hf4 hcp h1 h2 h3 h4])
  · intro h
    rcases inet_aton_cases htonl cp inp with h0 | ⟨f1, f2, f3, f4, hf1, hf2, hf3, hf4, hcp,
      h1, h2, h3, h4⟩
    · rw [h0]
    · rw [inet_aton_fields htonl cp inp f1 f2 f3 f4 hf1 hf2 hf3 hf4 hcp h1 h2 h3 h4] at h
      exact absurd h (by simp)
  · intro f1 f2 f3 f4 x hf1 hf2 hf3 hf4 hcp h1 h2 h3 h4 hx
    rw [inet_aton_fields htonl cp inp f1 f2 f3 f4 hf1 hf2 hf3 hf4 hcp h1 h2 h3 h4, hx]
    rfl

/-- C20 as stated fails: the strings `" 1.2.3.4"` and `"+1.2.3.4"` are accepted, with the
address 1.2.3.4 stored, although neither starts with a decimal digit: `%u` skips white
space and takes a sign. -/
theorem inet_aton_accepts_space_and_sign :
    inet_aton id " 1.2.3.4" (some ⟨0⟩) = (1, some ⟨16909060⟩) ∧
    inet_aton id "+1.2.3.4" (some ⟨0⟩) = (1, some ⟨16909060⟩) ∧
    (¬ ∃ c rest, " 1.2.3.4".toList = c :: rest ∧ isdigit c = true) ∧
    (¬ ∃ c rest, "+1.2.3.4".toList = c :: rest ∧ isdigit c = true) := by
  refine ⟨by decide, by decide, ?_, ?_⟩
  · rintro ⟨c, rest, h, hd⟩
    have hc : c = ' ' := (List.cons.inj h).1.symm
    subst hc
    exact absurd hd (by decide)
  · rintro ⟨c, rest, h, hd⟩
    have hc : c = '+' := (List.cons.inj h).1.symm
    subst hc
    exact absurd hd (by decide)

/-- Witness for the amended C20: `"93.184.216.34"` is four plain fields. -/
theorem inet_aton_accepts_iff_witness :
    (inet_aton id "93.184.216.34" (some ⟨0⟩)).2 =
      some ⟨93 * 2 ^ 24 + 184 * 2 ^ 16 + 216 * 2 ^ 8 + 34⟩ :=
  (inet_aton_accepts_iff id "93.184.216.34" (some ⟨0⟩)).2.2.2
    (Field.plain ['9', '3']) (Field.plain ['1', '8', '4']) (Field.plain ['2', '1', '6'])
    (Field.plain ['3', '4']) ⟨0⟩ (by decide) (by decide) (by decide) (by decide) (by decide)
    (by decide) (by decide) (by decide) (by decide) rfl

/-- Fields too large for an `unsigned int`: a field beyond `ULONG_MAX` is stored as
4294967295 and the string is rejected, a field between `2 ^ 32` and `ULONG_MAX` is cut to
its low 32 bits, so that `4294967297.2.3.4` is accepted as 1.2.3.4. -/
theorem inet_aton_wide_fields :
    inet_aton id "18446744073709551617.2.3.4" (some ⟨0⟩) = (0, some ⟨0⟩) ∧
    inet_aton id "4294967297.2.3.4" (some ⟨0⟩) = (1, some ⟨16909060⟩) := by
  refine ⟨by decide, by decide⟩

/-! ## `inet_gethost`: literal addresses first -/

/-- C12: `inet_gethost` makes exactly one lookup.  For a string `inet_aton` accepts with
parsed address `addr`, it is `socket_gethostbyaddr` on `addr` with length 4, and the
name-based resolver is not invoked; for a string `inet_aton` rejects, it is
`socket_gethostbyname` on the unchanged string, and the address-based lookup is not
invoked.  The status and host entry returned are those of that lookup. -/
theorem inet_gethost_numeric_first (d : Dns σ) (address : String) (st : DnsSt σ) :
    (∀ addr, d.inet_aton address = some addr →
      inet_gethost d address st =
        ((d.socket_gethostbyaddr st.world addr 4).1,
          (d.socket_gethostbyaddr st.world addr 4).2.1,
          ⟨(d.socket_gethostbyaddr st.world addr 4).2.2,
            st.trace ++ [DnsCall.socket_gethostbyaddr addr 4]⟩)) ∧
    (d.inet_aton address = none →
      inet_gethost d address st =
        ((d.socket_gethostbyname st.world address).1,
          (d.socket_gethostbyname st.world address).2.1,
          ⟨(d.socket_gethostbyname st.world address).2.2,
            st.trace ++ [DnsCall.socket_gethostbyname address]⟩)) := by
  constructor
  · intro addr h
    simp only [inet_gethost, h, dns_gethostbyaddr]
  · intro h
    simp only [inet_gethost, h, dns_gethostbyname]

/-- Witness for C12: a literal address goes to the address-based lookup, a name to the
name-based one. -/
theorem inet_gethost_numeric_first_witness :
    (inet_gethost (exDns (0, some exHost) (1, none) (0, [])) "93.184.216.34" ⟨0, []⟩).2.2.trace
        = [DnsCall.socket_gethostbyaddr ⟨1572395042⟩ 4] ∧
    (inet_gethost (exDns (0, some exHost) (1, none) (0, [])) "example.org" ⟨0, []⟩).2.2.trace
        = [DnsCall.socket_gethostbyname "example.org"] :=
  ⟨congrArg (fun r => r.2.2.trace)
      ((inet_gethost_numeric_first (exDns (0, some exHost) (1, none) (0, []))
        "93.184.216.34" ⟨0, []⟩).1 ⟨1572395042⟩ (by decide)),
    congrArg (fun r => r.2.2.trace)
      ((inet_gethost_numeric_first (exDns (0, some exHost) (1, none) (0, []))
        "example.org" ⟨0, []⟩).2 (by decide))⟩

/-! ## `inet_global_toip` and `inet_global_tohostname` -/

theorem lua_results_two (a b : LuaValue) (L : LuaStack) :
    lua_results (a :: b :: L) 2 = [b, a] := by
  simp [lua_results]

theorem lua_results_one (a : LuaValue) (L : LuaStack) : lua_results (a :: L) 1 = [a] := by
  simp [lua_results]

/-- The run of `inet_global_toip` once its argument has been checked. -/
theorem inet_global_toip_run (d : Dns σ) (L L' : LuaStack) (address : String) (st : DnsSt σ)
    (harg : luaL_checkstring d.lua_number2str L 1 = Except.ok (address, L')) :
    inet_global_toip d L st =
      (if (inet_gethost d address st).1 ≠ d.IO_DONE then
          Result.returned [LuaValue.nil,
            LuaValue.of_cstring (d.socket_hoststrerror (inet_gethost d address st).1)]
        else
          match (inet_gethost d address st).2.1 with
          | none => Result.undefined
          | some hp =>
            match hp.h_addr with
            | none => Result.undefined
            | some x =>
              Result.returned [LuaValue.string (d.inet_ntoa x), host_record d.inet_ntoa hp],
        (inet_gethost d address st).2.2) := by
  unfold inet_global_toip
  simp only [harg]
  by_cases herr : (inet_gethost d address st).1 ≠ d.IO_DONE
  · simp only [if_pos herr, lua_pushnil, lua_pushstring, lua_results_two]
  · simp only [if_neg herr]
    cases hhp : (inet_gethost d address st).2.1 with
    | none => rfl
    | some hp =>
      cases hx : hp.h_addr with
      | none => simp only [hx]
      | some x =>
        simp only [hx, lua_pushstring, inet_pushresolved_eq, lua_results_two,
          LuaValue.of_cstring]

/-- The run of `inet_global_tohostname` once its argument has been checked. -/
theorem inet_global_tohostname_run (d : Dns σ) (L L' : LuaStack) (address : String)
    (st : DnsSt σ)
    (harg : luaL_checkstring d.lua_number2str L 1 = Except.ok (address, L')) :
    inet_global_tohostname d L st =
      (if (inet_gethost d address st).1 ≠ d.IO_DONE then
          Result.returned [LuaValue.nil,
            LuaValue.of_cstring (d.socket_hoststrerror (inet_gethost d address st).1)]
        else
          match (inet_gethost d address st).2.1 with
          | none => Result.undefined
          | some hp => Result.returned [LuaValue.string hp.h_name, host_record d.inet_ntoa hp],
        (inet_gethost d address st).2.2) := by
  unfold inet_global_tohostname
  simp only [harg]
  by_cases herr : (inet_gethost d address st).1 ≠ d.IO_DONE
  · simp only [if_pos herr, lua_pushnil, lua_pushstring, lua_results_two]
  · simp only [if_neg herr]
    cases hhp : (inet_gethost d address st).2.1 with
    | none => rfl
    | some hp =>
      simp only [lua_pushstring, inet_pushresolved_eq, lua_results_two, LuaValue.of_cstring]

/-- C13 as stated fails: for the literal address `"93.184.216.34"` the code does make a
resolver call, the reverse lookup of the parsed address, and when that lookup fails the
resolution of the literal address fails with it. -/
theorem inet_global_toip_literal_depends_on_resolver :
    inet_global_toip (exDns (1, none) (0, some exHost) (0, []))
        [LuaValue.string "93.184.216.34"] ⟨0, []⟩ =
      (Result.returned [LuaValue.nil, LuaValue.string "host not found"],
        ⟨1, [DnsCall.socket_gethostbyaddr ⟨1572395042⟩ 4]⟩) := by
  rfl

/-- C13, amended: for every string `inet_aton` accepts, with parsed address `addr`,
`inet_global_toip` makes exactly one resolver call, the reverse lookup
`socket_gethostbyaddr` on `addr` (the name-based resolver is not invoked).  If that lookup
fails, the result is `nil` plus the translated error; if it succeeds with a host entry
that has a first address, the result is the dotted text of that first address plus the
Host Record of the entry. -/
theorem inet_global_toip_numeric (d : Dns σ) (L L' : LuaStack) (address : String)
    (addr : In_addr) (st : DnsSt σ)
    (harg : luaL_checkstring d.lua_number2str L 1 = Except.ok (address, L'))
    (haton : d.inet_aton address = some addr) :
    (inet_global_toip d L st).2 =
      ⟨(d.socket_gethostbyaddr st.world addr 4).2.2,
        st.trace ++ [DnsCall.socket_gethostbyaddr addr 4]⟩ ∧
    ((d.socket_gethostbyaddr st.world addr 4).1 ≠ d.IO_DONE →
      (inet_global_toip d L st).1 =
        Result.returned [LuaValue.nil,
          LuaValue.of_cstring
            (d.socket_hoststrerror (d.socket_gethostbyaddr st.world addr 4).1)]) ∧
    (∀ hp x, (d.socket_gethostbyaddr st.world addr 4).1 = d.IO_DONE →
      (d.socket_gethostbyaddr st.world addr 4).2.1 = some hp → hp.h_addr = some x →
      (inet_global_toip d L st).1 =
        Result.returned [LuaValue.string (d.inet_ntoa x), host_record d.inet_ntoa hp]) := by
  have hg : inet_gethost d address st =
      ((d.socket_gethostbyaddr st.world addr 4).1,
        (d.socket_gethostbyaddr st.world addr 4).2.1,
        ⟨(d.socket_gethostbyaddr st.world addr 4).2.2,
          st.trace ++ [DnsCall.socket_gethostbyaddr addr 4]⟩) := by
    simp only [inet_gethost, haton, dns_gethostbyaddr]
  rw [inet_global_toip_run d L L' address st harg, hg]
  refine ⟨rfl, ?_, ?_⟩
  · intro herr
    simp only [if_pos herr]
  · intro hp x herr hhp hx
    simp only [herr, ne_eq, not_true_eq_false, if_false, hhp, hx]

/-- Witness for the amended C13: the reverse lookup of 93.184.216.34 succeeds. -/
theorem inet_global_toip_numeric_witness :
    (inet_global_toip (exDns (0, some exHost) (1, none) (0, []))
        [LuaValue.string "93.184.216.34"] ⟨0, []⟩).1 =
      Result.returned [LuaValue.string "93.184.216.34", host_record exNtoa exHost] :=
  (inet_global_toip_numeric (exDns (0, some exHost) (1, none) (0, []))
    [LuaValue.string "93.184.216.34"] [LuaValue.string "93.184.216.34"] "93.184.216.34"
    ⟨1572395042⟩ ⟨0, []⟩ rfl (by decide)).2.2 exHost ⟨1572395042⟩ (by decide)
    (by decide) (by decide)

/-- A successful lookup whose host entry has no first address leaves the result of
`inet_global_toip` undefined: the code reads `*hp->h_addr` through a null pointer. -/
theorem inet_global_toip_no_address (d : Dns σ) (L L' : LuaStack) (address : String)
    (st : DnsSt σ) (hp : Hostent)
    (harg : luaL_checkstring d.lua_number2str L 1 = Except.ok (address, L'))
    (herr : (inet_gethost d address st).1 = d.IO_DONE)
    (hhp : (inet_gethost d address st).2.1 = some hp)
    (hx : hp.h_addr = none) :
    (inet_global_toip d L st).1 = Result.undefined := by
  rw [inet_global_toip_run d L L' address st harg]
  simp only [herr, ne_eq, not_true_eq_false, if_false, hhp, hx]

/-- A successful lookup whose host entry has a first address: `inet_global_toip` returns
the text of that address and the Host Record, and the text is element 1 of the record's
`ip` sequence. -/
theorem inet_global_toip_primary (d : Dns σ) (L L' : LuaStack) (address : String)
    (st : DnsSt σ) (hp : Hostent) (x : In_addr)
    (harg : luaL_checkstring d.lua_number2str L 1 = Except.ok (address, L'))
    (herr : (inet_gethost d address st).1 = d.IO_DONE)
    (hhp : (inet_gethost d address st).2.1 = some hp)
    (hx : hp.h_addr = some x) :
    (inet_global_toip d L st).1 =
      Result.returned [LuaValue.string (d.inet_ntoa x), host_record d.inet_ntoa hp] ∧
    ((host_record d.inet_ntoa hp).get (Key.str "ip")).get (Key.num 1) =
      LuaValue.string (d.inet_ntoa x) := by
  rw [inet_global_toip_run d L L' address st harg]
  refine ⟨by simp only [herr, ne_eq, not_true_eq_false, if_false, hhp, hx], ?_⟩
  unfold Hostent.h_addr at hx
  split at hx
  · rename_i y ys hlist
    have hy : y = x := Option.some.inj hx
    subst hy
    simp [host_record, LuaValue.get, table_get, hlist, lua_seq, lua_seq_from]
  · exact absurd hx (by simp)

/-- C17 fails on the code: the name lookup succeeds with a host entry whose address list
is empty, and the result of `inet_global_toip` is undefined (the first address is read
through a null pointer), where `inet_pushresolved` on the same entry is well defined. -/
theorem inet_global_toip_empty_address_list :
    (inet_global_toip (exDns (1, none) (0, some ⟨"example.org", some [], some []⟩) (0, []))
        [LuaValue.string "example.org"] ⟨0, []⟩).1 = Result.undefined ∧
    inet_pushresolved exNtoa [] ⟨"example.org", some [], some []⟩ =
      some [host_record exNtoa ⟨"example.org", some [], some []⟩] := by
  constructor <;> rfl

/-! ## Sequences -/

theorem lua_seq_size (vs : List LuaValue) : (lua_seq vs).size = vs.length := by
  simp [lua_seq, LuaValue.size, lua_seq_from_length]

theorem lua_seq_get (vs : List LuaValue) (i : Nat) (h : i < vs.length) :
    (lua_seq vs).get (Key.num (i + 1)) = vs[i] := by
  have hg := table_get_lua_seq_from 1 vs i h
  rw [add_comm] at hg
  simpa [lua_seq, LuaValue.get] using hg

/-- Appending a value to a sequence through `lua_settable(L, -3)`. -/
theorem lua_settable_seq_push (done : List LuaValue) (v : LuaValue) (rest : LuaStack)
    (hv : v.is_nil = false) :
    lua_settable (v :: LuaValue.number ((done.length : Int) + 1) ::
        LuaValue.table (lua_seq_from 1 done) :: rest) (-3) =
      some (LuaValue.table (lua_seq_from 1 (done ++ [v])) :: rest) := by
  have hfresh : ∀ e ∈ lua_seq_from 1 done, e.1 ≠ Key.num ((done.length : Int) + 1) := by
    intro e he heq
    obtain ⟨j, hj, _, hlt⟩ := lua_seq_from_keys 1 done e he
    rw [hj] at heq
    have hjj : j = (done.length : Int) + 1 := Key.num.inj heq
    omega
  rw [lua_settable_neg_three v (LuaValue.number ((done.length : Int) + 1))
      (Key.num ((done.length : Int) + 1)) (lua_seq_from 1 done) rest rfl,
    table_set_fresh (lua_seq_from 1 done) (Key.num ((done.length : Int) + 1)) v hv hfresh,
    lua_seq_from_append]
  simp [lua_seq_from, add_comm]

/-! ## `inet_global_getaddrinfo` -/

theorem push_family_eq (d : Dns σ) (ai_family : Int) (rest : LuaStack) :
    push_family d ai_family (LuaValue.table [] :: rest) =
      some (LuaValue.table (family_fields d ai_family) :: rest) := by
  unfold push_family family_fields
  by_cases h4 : ai_family = d.AF_INET
  · simp only [if_pos h4, lua_pushstring, LuaValue.of_cstring]
    rw [lua_settable_neg_three (LuaValue.string "inet") (LuaValue.string "family")
      (Key.str "family") [] rest rfl]
    rfl
  · by_cases h6 : ai_family = d.AF_INET6
    · simp only [if_neg h4, if_pos h6, lua_pushstring, LuaValue.of_cstring]
      rw [lua_settable_neg_three (LuaValue.string "inet6") (LuaValue.string "family")
        (Key.str "family") [] rest rfl]
      rfl
    · simp only [if_neg h4, if_neg h6]

theorem family_fields_keys (d : Dns σ) (ai_family : Int) :
    ∀ e ∈ family_fields d ai_family, e.1 ≠ Key.str "addr" := by
  intro e he
  unfold family_fields at he
  split at he
  · rw [List.mem_singleton.mp he]; decide
  · split at he
    · rw [List.mem_singleton.mp he]; decide
    · exact absurd he (List.not_mem_nil e)

/-- The loop of `inet_global_getaddrinfo`, started on a sequence already holding `done`,
appends the record of every candidate, in order, when every `getnameinfo` call succeeds. -/
theorem inet_global_getaddrinfo_loop_spec (d : Dns σ) (cs : List Addrinfo)
    (done : List LuaValue) (rest : LuaStack) (st : DnsSt σ)
    (hok : ∀ a ∈ nameinfo_answers d d.NI_MAXHOST 0 d.NI_NUMERICHOST st.world cs, a.ret = 0) :
    (inet_global_getaddrinfo_loop d cs (done.length + 1)
        (LuaValue.table (lua_seq_from 1 done) :: rest) st).1 =
      some (LuaValue.table (lua_seq_from 1 (done ++
        List.zipWith (fun c a => addrinfo_record d c a.host) cs
          (nameinfo_answers d d.NI_MAXHOST 0 d.NI_NUMERICHOST st.world cs))) :: rest) := by
  induction cs generalizing done st with
  | nil => simp [inet_global_getaddrinfo_loop, nameinfo_answers]
  | cons c cs ih =>
    have h0 : (d.getnameinfo st.world c.ai_addr c.ai_addrlen d.NI_MAXHOST 0
        d.NI_NUMERICHOST).1.ret = 0 :=
      hok _ (by simp [nameinfo_answers])
    have hok2 : ∀ a ∈ nameinfo_answers d d.NI_MAXHOST 0 d.NI_NUMERICHOST
        (d.getnameinfo st.world c.ai_addr c.ai_addrlen d.NI_MAXHOST 0 d.NI_NUMERICHOST).2 cs,
        a.ret = 0 :=
      fun a ha => hok a (by simp [nameinfo_answers, ha])
    have hrec := lua_settable_neg_three
      (LuaValue.string (d.getnameinfo st.world c.ai_addr c.ai_addrlen d.NI_MAXHOST 0
        d.NI_NUMERICHOST).1.host)
      (LuaValue.string "addr") (Key.str "addr") (family_fields d c.ai_family)
      (LuaValue.number ((done.length : Int) + 1) :: LuaValue.table (lua_seq_from 1 done) :: rest)
      rfl
    rw [table_set_fresh (family_fields d c.ai_family) (Key.str "addr")
      (LuaValue.string (d.getnameinfo st.world c.ai_addr c.ai_addrlen d.NI_MAXHOST 0
        d.NI_NUMERICHOST).1.host) rfl (family_fields_keys d c.ai_family)] at hrec
    have hpush := lua_settable_seq_push done
      (addrinfo_record d c (d.getnameinfo st.world c.ai_addr c.ai_addrlen d.NI_MAXHOST 0
        d.NI_NUMERICHOST).1.host) rest rfl
    have hih := ih
      (done ++ [addrinfo_record d c (d.getnameinfo st.world c.ai_addr c.ai_addrlen
        d.NI_MAXHOST 0 d.NI_NUMERICHOST).1.host])
      ⟨(d.getnameinfo st.world c.ai_addr c.ai_addrlen d.NI_MAXHOST 0 d.NI_NUMERICHOST).2,
        st.trace ++ [DnsCall.getnameinfo c.ai_addr c.ai_addrlen d.NI_MAXHOST 0
          d.NI_NUMERICHOST]⟩ hok2
    simp only [List.length_append, List.length_singleton, Nat.cast_add, Nat.cast_one,
      List.append_assoc, List.singleton_append] at hih
    simp only [inet_global_getaddrinfo_loop, dns_getnameinfo, lua_pushnumber, lua_newtable,
      push_family_eq, lua_pushstring, LuaValue.of_cstring, if_pos h0, hrec]
    unfold addrinfo_record at hpush
    simp only [hpush, nameinfo_answers, List.zipWith_cons_cons]
    exact hih

/-- The loop of `inet_global_getaddrinfo` has no defined outcome as soon as one
`getnameinfo` call fails: the record of that candidate is built from a buffer nothing
was written to. -/
theorem inet_global_getaddrinfo_loop_undefined (d : Dns σ) (cs : List Addrinfo)
    (done : List LuaValue) (rest : LuaStack) (st : DnsSt σ)
    (hbad : ∃ a ∈ nameinfo_answers d d.NI_MAXHOST 0 d.NI_NUMERICHOST st.world cs, a.ret ≠ 0) :
    (inet_global_getaddrinfo_loop d cs (done.length + 1)
        (LuaValue.table (lua_seq_from 1 done) :: rest) st).1 = none := by
  induction cs generalizing done st with
  | nil =>
    obtain ⟨a, ha, _⟩ := hbad
    simp [nameinfo_answers] at ha
  | cons c cs ih =>
    by_cases h0 : (d.getnameinfo st.world c.ai_addr c.ai_addrlen d.NI_MAXHOST 0
        d.NI_NUMERICHOST).1.ret = 0
    · have hbad2 : ∃ a ∈ nameinfo_answers d d.NI_MAXHOST 0 d.NI_NUMERICHOST
          (d.getnameinfo st.world c.ai_addr c.ai_addrlen d.NI_MAXHOST 0 d.NI_NUMERICHOST).2 cs,
          a.ret ≠ 0 := by
        obtain ⟨a, ha, hne⟩ := hbad
        simp only [nameinfo_answers, List.mem_cons] at ha
        rcases ha with ha | ha
        · rw [ha] at hne
          exact absurd h0 hne
        · exact ⟨a, ha, hne⟩
      have hrec := lua_settable_neg_three
        (LuaValue.string (d.getnameinfo st.world c.ai_addr c.ai_addrlen d.NI_MAXHOST 0
          d.NI_NUMERICHOST).1.host)
        (LuaValue.string "addr") (Key.str "addr") (family_fields d c.ai_family)
        (LuaValue.number ((done.length : Int) + 1) :: LuaValue.table (lua_seq_from 1 done) ::
          rest) rfl
      rw [table_set_fresh (family_fields d c.ai_family) (Key.str "addr")
        (LuaValue.string (d.getnameinfo st.world c.ai_addr c.ai_addrlen d.NI_MAXHOST 0
          d.NI_NUMERICHOST).1.host) rfl (family_fields_keys d c.ai_family)] at hrec
      have hpush := lua_settable_seq_push done
        (addrinfo_record d c (d.getnameinfo st.world c.ai_addr c.ai_addrlen d.NI_MAXHOST 0
          d.NI_NUMERICHOST).1.host) rest rfl
      have hih := ih
        (done ++ [addrinfo_record d c (d.getnameinfo st.world c.ai_addr c.ai_addrlen
          d.NI_MAXHOST 0 d.NI_NUMERICHOST).1.host])
        ⟨(d.getnameinfo st.world c.ai_addr c.ai_addrlen d.NI_MAXHOST 0 d.NI_NUMERICHOST).2,
          st.trace ++ [DnsCall.getnameinfo c.ai_addr c.ai_addrlen d.NI_MAXHOST 0
            d.NI_NUMERICHOST]⟩ hbad2
      simp only [List.length_append, List.length_singleton, Nat.cast_add, Nat.cast_one]
        at hih
      simp only [inet_global_getaddrinfo_loop, dns_getnameinfo, lua_pushnumber, lua_newtable,
        push_family_eq, lua_pushstring, LuaValue.of_cstring, if_pos h0, hrec]
      unfold addrinfo_record at hpush
      simp only [hpush]
      exact hih
    · simp only [inet_global_getaddrinfo_loop, dns_getnameinfo, lua_pushnumber, lua_newtable,
        push_family_eq, lua_pushstring, LuaValue.of_cstring, if_neg h0]

theorem nameinfo_answers_length (d : Dns σ) (hostlen servlen : Nat) (flags : Int) (s : σ)
    (cs : List Addrinfo) : (nameinfo_answers d hostlen servlen flags s cs).length = cs.length := by
  induction cs generalizing s with
  | nil => rfl
  | cons c cs ih => simp [nameinfo_answers, ih]

theorem addrinfo_record_fields (d : Dns σ) (c : Addrinfo) (host : String) :
    (addrinfo_record d c host).get (Key.str "addr") = LuaValue.string host ∧
    (c.ai_family = d.AF_INET →
      (addrinfo_record d c host).get (Key.str "family") = LuaValue.string "inet" ∧
      (addrinfo_record d c host).size = 2) ∧
    (c.ai_family = d.AF_INET6 → d.AF_INET ≠ d.AF_INET6 →
      (addrinfo_record d c host).get (Key.str "family") = LuaValue.string "inet6" ∧
      (addrinfo_record d c host).size = 2) ∧
    (c.ai_family ≠ d.AF_INET → c.ai_family ≠ d.AF_INET6 →
      (addrinfo_record d c host).get (Key.str "family") = LuaValue.nil ∧
      (addrinfo_record d c host).size = 1) := by
  have hk : ¬ (Key.str "family" = Key.str "addr") := by decide
  have hk2 : ¬ (Key.str "addr" = Key.str "family") := by decide
  refine ⟨?_, ?_, ?_, ?_⟩
  · unfold addrinfo_record family_fields
    split
    · simp [LuaValue.get, table_get, hk]
    · split <;> simp [LuaValue.get, table_get, hk]
  · intro h4
    simp [addrinfo_record, family_fields, h4, LuaValue.get, table_get, LuaValue.size]
  · intro h6 hne
    have h4 : ¬ (c.ai_family = d.AF_INET) := fun h => hne (h.symm.trans h6)
    unfold addrinfo_record family_fields
    rw [if_neg h4, if_pos h6]
    simp [LuaValue.get, table_get, LuaValue.size]
  · intro h4 h6
    simp [addrinfo_record, family_fields, h4, h6, LuaValue.get, table_get, LuaValue.size, hk2]

/-- The result of `inet_global_getaddrinfo` once its argument is checked.  If the
resolver fails it returns `nil` plus the translated error.  If it succeeds with candidates
`[c1..cn]` and every `getnameinfo` call succeeds, it returns one table, the sequence
numbered 1..n whose entry `i` is the record of `ci`, in resolver order: the record has
`addr` = the host text `getnameinfo` gives for `ci`, and `family` = `"inet"` for an IPv4
candidate, `"inet6"` for an IPv6 candidate, and no `family` field otherwise.  If it
succeeds and a `getnameinfo` call fails, the result is not defined. -/
theorem inet_global_getaddrinfo_result (d : Dns σ) (L L' : LuaStack) (hostname : String)
    (st : DnsSt σ)
    (harg : luaL_checkstring d.lua_number2str L 1 = Except.ok (hostname, L')) :
    ((d.getaddrinfo st.world (some hostname) none (some (dns_hints d))).1 ≠ 0 →
      (inet_global_getaddrinfo d L st).1 =
        Result.returned [LuaValue.nil, LuaValue.of_cstring (d.socket_gaistrerror
          (d.getaddrinfo st.world (some hostname) none (some (dns_hints d))).1)]) ∧
    ((d.getaddrinfo st.world (some hostname) none (some (dns_hints d))).1 = 0 →
      (∀ a ∈ nameinfo_answers d d.NI_MAXHOST 0 d.NI_NUMERICHOST
          (d.getaddrinfo st.world (some hostname) none (some (dns_hints d))).2.2
          (d.getaddrinfo st.world (some hostname) none (some (dns_hints d))).2.1, a.ret = 0) →
      (inet_global_getaddrinfo d L st).1 =
        Result.returned [lua_seq
          (List.zipWith (fun c a => addrinfo_record d c a.host)
            (d.getaddrinfo st.world (some hostname) none (some (dns_hints d))).2.1
            (nameinfo_answers d d.NI_MAXHOST 0 d.NI_NUMERICHOST
              (d.getaddrinfo st.world (some hostname) none (some (dns_hints d))).2.2
              (d.getaddrinfo st.world (some hostname) none (some (dns_hints d))).2.1))]) ∧
    ((d.getaddrinfo st.world (some hostname) none (some (dns_hints d))).1 = 0 →
      (∃ a ∈ nameinfo_answers d d.NI_MAXHOST 0 d.NI_NUMERICHOST
          (d.getaddrinfo st.world (some hostname) none (some (dns_hints d))).2.2
          (d.getaddrinfo st.world (some hostname) none (some (dns_hints d))).2.1, a.ret ≠ 0) →
      (inet_global_getaddrinfo d L st).1 = Result.undefined) ∧
    (∀ (s : σ) (cs : List Addrinfo),
      (lua_seq (List.zipWith (fun c a => addrinfo_record d c a.host) cs
        (nameinfo_answers d d.NI_MAXHOST 0 d.NI_NUMERICHOST s cs))).size = cs.length ∧
      ∀ (i : Nat) (h : i < cs.length),
        ∃ a, (nameinfo_answers d d.NI_MAXHOST 0 d.NI_NUMERICHOST s cs)[i]? = some a ∧
          (lua_seq (List.zipWith (fun c a => addrinfo_record d c a.host) cs
            (nameinfo_answers d d.NI_MAXHOST 0 d.NI_NUMERICHOST s cs))).get (Key.num (i + 1)) =
            addrinfo_record d cs[i] a.host) ∧
    (∀ (c : Addrinfo) (host : String),
      (addrinfo_record d c host).get (Key.str "addr") = LuaValue.string host ∧
      (c.ai_family = d.AF_INET →
        (addrinfo_record d c host).get (Key.str "family") = LuaValue.string "inet" ∧
        (addrinfo_record d c host).size = 2) ∧
      (c.ai_family = d.AF_INET6 → d.AF_INET ≠ d.AF_INET6 →
        (addrinfo_record d c host).get (Key.str "family") = LuaValue.string "inet6" ∧
        (addrinfo_record d c host).size = 2) ∧
      (c.ai_family ≠ d.AF_INET → c.ai_family ≠ d.AF_INET6 →
        (addrinfo_record d c host).get (Key.str "family") = LuaValue.nil ∧
        (addrinfo_record d c host).size = 1)) := by
  refine ⟨?_, ?_, ?_, ?_, addrinfo_record_fields d⟩
  · intro hret
    unfold inet_global_getaddrinfo
    simp only [harg, dns_getaddrinfo, if_pos hret, lua_pushnil, lua_pushstring, lua_results_two]
  · intro hret hok
    have hloop := inet_global_getaddrinfo_loop_spec d
      (d.getaddrinfo st.world (some hostname) none (some (dns_hints d))).2.1 [] L'
      ⟨(d.getaddrinfo st.world (some hostname) none (some (dns_hints d))).2.2,
        st.trace ++ [DnsCall.getaddrinfo (some hostname) none (some (dns_hints d))]⟩ hok
    simp only [List.length_nil, Nat.cast_zero, zero_add, List.nil_append, lua_seq_from] at hloop
    unfold inet_global_getaddrinfo
    simp only [harg, dns_getaddrinfo, hret, ne_eq, not_true_eq_false, if_false, lua_newtable,
      hloop, lua_results_one, lua_seq]
  · intro hret hbad
    have hloop := inet_global_getaddrinfo_loop_undefined d
      (d.getaddrinfo st.world (some hostname) none (some (dns_hints d))).2.1 [] L'
      ⟨(d.getaddrinfo st.world (some hostname) none (some (dns_hints d))).2.2,
        st.trace ++ [DnsCall.getaddrinfo (some hostname) none (some (dns_hints d))]⟩ hbad
    simp only [List.length_nil, Nat.cast_zero, zero_add, lua_seq_from] at hloop
    unfold inet_global_getaddrinfo
    simp only [harg, dns_getaddrinfo, hret, ne_eq, not_true_eq_false, if_false, lua_newtable,
      hloop]
  · intro s cs
    have hlen : (List.zipWith (fun c a => addrinfo_record d c a.host) cs
        (nameinfo_answers d d.NI_MAXHOST 0 d.NI_NUMERICHOST s cs)).length = cs.length := by
      simp [nameinfo_answers_length]
    refine ⟨by rw [lua_seq_size, hlen], ?_⟩
    intro i h
    have hi : i < (nameinfo_answers d d.NI_MAXHOST 0 d.NI_NUMERICHOST s cs).length := by
      rw [nameinfo_answers_length]; exact h
    refine ⟨(nameinfo_answers d d.NI_MAXHOST 0 d.NI_NUMERICHOST s cs)[i],
      List.getElem?_eq_getElem hi, ?_⟩
    rw [lua_seq_get _ i (by rw [hlen]; exact h), List.getElem_zipWith]

/-- The result of `inet_global_getaddrinfo` at work: an IPv4 candidate, an IPv6 candidate
and one of another family, with a `getnameinfo` that succeeds on all three; and a
resolution that fails. -/
theorem inet_global_getaddrinfo_result_witness :
    (inet_global_getaddrinfo (exDns (1, none) (1, none)
        (0, [⟨0, 2, 1, 6, 4, [1, 2, 3, 4]⟩, ⟨0, 10, 1, 6, 2, [0, 1]⟩, ⟨0, 3, 1, 6, 2, [0, 2]⟩]))
        [LuaValue.string "example.org"] ⟨0, []⟩).1 =
      Result.returned [lua_seq
        [LuaValue.table [(Key.str "family", LuaValue.string "inet"),
            (Key.str "addr", LuaValue.string "1.2.3.4")],
          LuaValue.table [(Key.str "family", LuaValue.string "inet6"),
            (Key.str "addr", LuaValue.string "0.1")],
          LuaValue.table [(Key.str "addr", LuaValue.string "0.2")]]] ∧
    (inet_global_getaddrinfo (exDns (1, none) (1, none) (-2, []))
        [LuaValue.string "nonexistent.invalid"] ⟨0, []⟩).1 =
      Result.returned [LuaValue.nil, LuaValue.string "-2"] :=
  ⟨(inet_global_getaddrinfo_result (exDns (1, none) (1, none)
      (0, [⟨0, 2, 1, 6, 4, [1, 2, 3, 4]⟩, ⟨0, 10, 1, 6, 2, [0, 1]⟩, ⟨0, 3, 1, 6, 2, [0, 2]⟩]))
      [LuaValue.string "example.org"] [LuaValue.string "example.org"] "example.org" ⟨0, []⟩
      rfl).2.1 (by decide) (by decide),
    (inet_global_getaddrinfo_result (exDns (1, none) (1, none) (-2, []))
      [LuaValue.string "nonexistent.invalid"] [LuaValue.string "nonexistent.invalid"]
      "nonexistent.invalid" ⟨0, []⟩ rfl).1 (by decide)⟩

/-- C16 at the input `dns.getaddrinfo("example.org")` where the resolver succeeds with
one candidate, of a family other than IPv4 and IPv6, on which `getnameinfo` fails with
`EAI_FAMILY` (-6) and writes nothing: the claim promises one record with an `addr` field
and no `family` field, but the code does not look at the status of `getnameinfo` and
builds `addr` from `hbuf`, a buffer nothing was written to, so that the result is not
defined. -/
theorem inet_global_getaddrinfo_reads_unwritten_buffer :
    (inet_global_getaddrinfo (exDnsNoName (-6) (0, [⟨0, 3, 1, 6, 2, [0, 2]⟩]))
        [LuaValue.string "example.org"] ⟨0, []⟩).1 = Result.undefined
      ∧ (inet_global_getaddrinfo (exDnsNoName (-6) (0, [⟨0, 3, 1, 6, 2, [0, 2]⟩]))
        [LuaValue.string "example.org"] ⟨0, []⟩).2.trace =
          [DnsCall.getaddrinfo (some "example.org") none
              (some (dns_hints (exDnsNoName (-6) (0, [⟨0, 3, 1, 6, 2, [0, 2]⟩])))),
            DnsCall.getnameinfo [0, 2] 2 1025 0 1,
            DnsCall.freeaddrinfo [⟨0, 3, 1, 6, 2, [0, 2]⟩]] :=
  ⟨rfl, by decide⟩

/-! ## `inet_global_getnameinfo` -/

theorem serv_after_cons (service : Option String) (a : NameInfo) (answers : List NameInfo)
    (serv0 : Option String) :
    serv_after service answers (if service.isSome then some a.serv else serv0) =
      serv_after service (a :: answers) serv0 := by
  unfold serv_after
  by_cases hs : service.isSome
  · simp only [hs, if_true, List.getLast?_cons]
    cases answers.getLast? <;> rfl
  · simp only [hs, Bool.false_eq_true, if_false]

/-- The loop of `inet_global_getnameinfo` when a host was supplied and every
`getnameinfo` call succeeds: started on a sequence already holding `done`, it appends the
host string of every candidate, in order. -/
theorem inet_global_getnameinfo_loop_host (d : Dns σ) (nd : String) (service : Option String)
    (cs : List Addrinfo) (done : List LuaValue) (host0 serv0 : Option String)
    (rest : LuaStack) (st : DnsSt σ)
    (hok : ∀ a ∈ nameinfo_answers d 1024 (if service.isSome then 32 else 0) 0 st.world cs,
      a.ret = 0) :
    (inet_global_getnameinfo_loop d (some nd) service cs (done.length + 1) host0 serv0
        (LuaValue.table (lua_seq_from 1 done) :: rest) st).1 =
      some (LuaValue.table (lua_seq_from 1 (done ++
          (nameinfo_answers d 1024 (if service.isSome then 32 else 0) 0 st.world cs).map
            (fun a => LuaValue.string a.host))) :: rest,
        serv_after service
          (nameinfo_answers d 1024 (if service.isSome then 32 else 0) 0 st.world cs) serv0) := by
  induction cs generalizing done host0 serv0 st with
  | nil => simp [inet_global_getnameinfo_loop, nameinfo_answers, serv_after]
  | cons c cs ih =>
    have h0 : (d.getnameinfo st.world c.ai_addr c.ai_addrlen 1024
        (if service.isSome then 32 else 0) 0).1.ret = 0 :=
      hok _ (by simp [nameinfo_answers])
    have hok2 : ∀ a ∈ nameinfo_answers d 1024 (if service.isSome then 32 else 0) 0
        (d.getnameinfo st.world c.ai_addr c.ai_addrlen 1024
          (if service.isSome then 32 else 0) 0).2 cs, a.ret = 0 :=
      fun a ha => hok a (by simp [nameinfo_answers, ha])
    have hpush := lua_settable_seq_push done
      (LuaValue.string (d.getnameinfo st.world c.ai_addr c.ai_addrlen 1024
        (if service.isSome then 32 else 0) 0).1.host) rest rfl
    have hih := ih
      (done ++ [LuaValue.string (d.getnameinfo st.world c.ai_addr c.ai_addrlen 1024
        (if service.isSome then 32 else 0) 0).1.host])
      (some (d.getnameinfo st.world c.ai_addr c.ai_addrlen 1024
        (if service.isSome then 32 else 0) 0).1.host)
      (if service.isSome then some (d.getnameinfo st.world c.ai_addr c.ai_addrlen 1024
        (if service.isSome then 32 else 0) 0).1.serv else serv0)
      ⟨(d.getnameinfo st.world c.ai_addr c.ai_addrlen 1024
          (if service.isSome then 32 else 0) 0).2,
        st.trace ++ [DnsCall.getnameinfo c.ai_addr c.ai_addrlen 1024
          (if service.isSome then 32 else 0) 0]⟩ hok2
    simp only [List.length_append, List.length_singleton, Nat.cast_add, Nat.cast_one,
      List.append_assoc, List.singleton_append, serv_after_cons] at hih
    simp only [inet_global_getnameinfo_loop, dns_getnameinfo, Option.isSome_some, if_true,
      h0, true_and, and_true, lua_pushnumber, lua_pushstring, LuaValue.of_cstring, hpush,
      nameinfo_answers, List.map_cons]
    exact hih

/-- The loop of `inet_global_getnameinfo` when no host was supplied and every
`getnameinfo` call succeeds: the table is left as it is. -/
theorem inet_global_getnameinfo_loop_nohost (d : Dns σ) (service : Option String)
    (cs : List Addrinfo) (i : Int) (host0 serv0 : Option String) (L : LuaStack)
    (st : DnsSt σ)
    (hok : ∀ a ∈ nameinfo_answers d 0 (if service.isSome then 32 else 0) 0 st.world cs,
      a.ret = 0) :
    (inet_global_getnameinfo_loop d none service cs i host0 serv0 L st).1 =
      some (L, serv_after service
        (nameinfo_answers d 0 (if service.isSome then 32 else 0) 0 st.world cs) serv0) := by
  induction cs generalizing i host0 serv0 st with
  | nil => simp [inet_global_getnameinfo_loop, nameinfo_answers, serv_after]
  | cons c cs ih =>
    have h0 : (d.getnameinfo st.world c.ai_addr c.ai_addrlen 0
        (if service.isSome then 32 else 0) 0).1.ret = 0 :=
      hok _ (by simp [nameinfo_answers])
    have hok2 : ∀ a ∈ nameinfo_answers d 0 (if service.isSome then 32 else 0) 0
        (d.getnameinfo st.world c.ai_addr c.ai_addrlen 0
          (if service.isSome then 32 else 0) 0).2 cs, a.ret = 0 :=
      fun a ha => hok a (by simp [nameinfo_answers, ha])
    have hih := ih (i + 1) host0
      (if service.isSome then some (d.getnameinfo st.world c.ai_addr c.ai_addrlen 0
        (if service.isSome then 32 else 0) 0).1.serv else serv0)
      ⟨(d.getnameinfo st.world c.ai_addr c.ai_addrlen 0
          (if service.isSome then 32 else 0) 0).2,
        st.trace ++ [DnsCall.getnameinfo c.ai_addr c.ai_addrlen 0
          (if service.isSome then 32 else 0) 0]⟩ hok2
    simp only [serv_after_cons] at hih
    simp only [inet_global_getnameinfo_loop, dns_getnameinfo, Option.isSome_none,
      Bool.false_eq_true, if_false, and_false, h0, true_and, nameinfo_answers]
    exact hih

/-- The loop of `inet_global_getnameinfo` only adds calls to the trace. -/
theorem inet_global_getnameinfo_loop_trace (d : Dns σ) (node service : Option String)
    (cs : List Addrinfo) (i : Int) (host0 serv0 : Option String) (L : LuaStack)
    (st : DnsSt σ) :
    ∃ more, (inet_global_getnameinfo_loop d node service cs i host0 serv0 L st).2.trace =
      st.trace ++ more := by
  induction cs generalizing i host0 serv0 L st with
  | nil => exact ⟨[], by simp [inet_global_getnameinfo_loop]⟩
  | cons c cs ih =>
    cases node with
    | none =>
      simp only [inet_global_getnameinfo_loop, dns_getnameinfo, Option.isSome_none,
        Bool.false_eq_true, if_false, and_false]
      obtain ⟨more, hm⟩ := ih (i + 1) host0
        (if (d.getnameinfo st.world c.ai_addr c.ai_addrlen 0
            (if service.isSome then 32 else 0) 0).1.ret = 0 ∧ service.isSome = true
          then some (d.getnameinfo st.world c.ai_addr c.ai_addrlen 0
            (if service.isSome then 32 else 0) 0).1.serv else serv0) L
        ⟨(d.getnameinfo st.world c.ai_addr c.ai_addrlen 0
          (if service.isSome then 32 else 0) 0).2,
          st.trace ++ [DnsCall.getnameinfo c.ai_addr c.ai_addrlen 0
            (if service.isSome then 32 else 0) 0]⟩
      exact ⟨DnsCall.getnameinfo c.ai_addr c.ai_addrlen 0
        (if service.isSome then 32 else 0) 0 :: more, by rw [hm]; simp⟩
    | some nd =>
      simp only [inet_global_getnameinfo_loop, dns_getnameinfo, Option.isSome_some, if_true,
        and_true]
      split
      · exact ⟨[_], rfl⟩
      · rename_i h _
        split
        · exact ⟨[_], rfl⟩
        · rename_i L2 _
          obtain ⟨more, hm⟩ := ih (i + 1) (some h)
            (if (d.getnameinfo st.world c.ai_addr c.ai_addrlen 1024
                (if service.isSome then 32 else 0) 0).1.ret = 0 ∧ service.isSome = true
              then some (d.getnameinfo st.world c.ai_addr c.ai_addrlen 1024
                (if service.isSome then 32 else 0) 0).1.serv else serv0) L2
            ⟨(d.getnameinfo st.world c.ai_addr c.ai_addrlen 1024
              (if service.isSome then 32 else 0) 0).2,
              st.trace ++ [DnsCall.getnameinfo c.ai_addr c.ai_addrlen 1024
                (if service.isSome then 32 else 0) 0]⟩
          exact ⟨DnsCall.getnameinfo c.ai_addr c.ai_addrlen 1024
            (if service.isSome then 32 else 0) 0 :: more, by rw [hm]; simp⟩

theorem serv_after_some (service : Option String) (answers : List NameInfo)
    (serv0 : Option String) (hs : service.isSome = true) (hne : answers ≠ []) :
    ∃ a, answers.getLast? = some a ∧ serv_after service answers serv0 = some a.serv := by
  refine ⟨answers.getLast hne, List.getLast?_eq_getLast answers hne, ?_⟩
  simp only [serv_after, hs, if_true, List.getLast?_eq_getLast answers hne]

/-- The state in which `inet_global_getnameinfo` ends when resolution succeeds: the chain
is released after the loop. -/
theorem inet_global_getnameinfo_state (d : Dns σ) (L L1 L2 : LuaStack)
    (node service : Option String) (st : DnsSt σ)
    (h1 : luaL_optstring d.lua_number2str L 1 = Except.ok (node, L1))
    (h2 : luaL_optstring d.lua_number2str L1 2 = Except.ok (service, L2))
    (hsome : node.isSome ∨ service.isSome)
    (hret : (d.getaddrinfo st.world (some (node.getD "127.0.0.1"))
      (some (service.getD "7")) (some (dns_hints d))).1 = 0) :
    (inet_global_getnameinfo d L st).2 =
      dns_freeaddrinfo d
        (d.getaddrinfo st.world (some (node.getD "127.0.0.1"))
          (some (service.getD "7")) (some (dns_hints d))).2.1
        (inet_global_getnameinfo_loop d node service
          (d.getaddrinfo st.world (some (node.getD "127.0.0.1"))
            (some (service.getD "7")) (some (dns_hints d))).2.1 1 none none
          (LuaValue.table [] :: L2)
          ⟨(d.getaddrinfo st.world (some (node.getD "127.0.0.1"))
              (some (service.getD "7")) (some (dns_hints d))).2.2,
            st.trace ++ [DnsCall.getaddrinfo (some (node.getD "127.0.0.1"))
              (some (service.getD "7")) (some (dns_hints d))]⟩).2 := by
  have hs : ¬ ¬ (node.isSome = true ∨ service.isSome = true) := fun h => h hsome
  unfold inet_global_getnameinfo
  simp only [h1, h2, if_neg hs, dns_getaddrinfo, hret, ne_eq, not_true_eq_false, if_false,
    lua_newtable]
  split
  · rfl
  · split
    · split <;> rfl
    · rfl

/-- The result of `inet_global_getnameinfo` once its arguments are checked and at least
one of host and service is supplied: it first calls the resolver, an omitted host being
resolved as `"127.0.0.1"` and an omitted service as `"7"`.  When that call succeeds with
candidates `[c1..cn]` (not empty if a service was supplied) and every `getnameinfo` call
succeeds, the first value returned is a table, the sequence numbered 1..n of the host
strings `getnameinfo` gives for `c1..cn` in resolver order if a host was supplied and the
empty table otherwise; a second value is returned if and only if a service was supplied,
and it is the service string of the last `getnameinfo` call. -/
theorem inet_global_getnameinfo_result (d : Dns σ) (L L1 L2 : LuaStack)
    (node service : Option String) (st : DnsSt σ)
    (h1 : luaL_optstring d.lua_number2str L 1 = Except.ok (node, L1))
    (h2 : luaL_optstring d.lua_number2str L1 2 = Except.ok (service, L2))
    (hsome : node.isSome ∨ service.isSome)
    (hret : (d.getaddrinfo st.world (some (node.getD "127.0.0.1"))
      (some (service.getD "7")) (some (dns_hints d))).1 = 0)
    (hne : (d.getaddrinfo st.world (some (node.getD "127.0.0.1"))
      (some (service.getD "7")) (some (dns_hints d))).2.1 ≠ [] ∨ service = none)
    (hok : ∀ a ∈ nameinfo_answers d (if node.isSome then 1024 else 0)
        (if service.isSome then 32 else 0) 0
        (d.getaddrinfo st.world (some (node.getD "127.0.0.1"))
          (some (service.getD "7")) (some (dns_hints d))).2.2
        (d.getaddrinfo st.world (some (node.getD "127.0.0.1"))
          (some (service.getD "7")) (some (dns_hints d))).2.1, a.ret = 0) :
    (∃ more, (inet_global_getnameinfo d L st).2.trace =
      st.trace ++ DnsCall.getaddrinfo (some (node.getD "127.0.0.1"))
        (some (service.getD "7")) (some (dns_hints d)) :: more) ∧
    (inet_global_getnameinfo d L st).1 =
      Result.returned
        (lua_seq (if node.isSome then
            (nameinfo_answers d (if node.isSome then 1024 else 0)
              (if service.isSome then 32 else 0) 0
              (d.getaddrinfo st.world (some (node.getD "127.0.0.1"))
                (some (service.getD "7")) (some (dns_hints d))).2.2
              (d.getaddrinfo st.world (some (node.getD "127.0.0.1"))
                (some (service.getD "7")) (some (dns_hints d))).2.1).map
              (fun a => LuaValue.string a.host)
          else []) ::
          (if service.isSome then
            [LuaValue.of_cstring ((nameinfo_answers d (if node.isSome then 1024 else 0)
              (if service.isSome then 32 else 0) 0
              (d.getaddrinfo st.world (some (node.getD "127.0.0.1"))
                (some (service.getD "7")) (some (dns_hints d))).2.2
              (d.getaddrinfo st.world (some (node.getD "127.0.0.1"))
                (some (service.getD "7")) (some (dns_hints d))).2.1).getLast?.map
              (fun a => a.serv))]
          else [])) ∧
    (∀ (hostlen servlen : Nat) (s : σ) (cs : List Addrinfo),
      (lua_seq ((nameinfo_answers d hostlen servlen 0 s cs).map
        (fun a => LuaValue.string a.host))).size = cs.length ∧
      ∀ (i : Nat), i < cs.length →
        ∃ a, (nameinfo_answers d hostlen servlen 0 s cs)[i]? = some a ∧
          (lua_seq ((nameinfo_answers d hostlen servlen 0 s cs).map
            (fun a => LuaValue.string a.host))).get (Key.num (i + 1)) =
            LuaValue.string a.host) ∧
    (service.isSome →
      ∃ a, (nameinfo_answers d (if node.isSome then 1024 else 0)
          (if service.isSome then 32 else 0) 0
          (d.getaddrinfo st.world (some (node.getD "127.0.0.1"))
            (some (service.getD "7")) (some (dns_hints d))).2.2
          (d.getaddrinfo st.world (some (node.getD "127.0.0.1"))
            (some (service.getD "7")) (some (dns_hints d))).2.1).getLast? = some a) := by
  have hstate := inet_global_getnameinfo_state d L L1 L2 node service st h1 h2 hsome hret
  have hs : ¬ ¬ (node.isSome = true ∨ service.isSome = true) := fun h => h hsome
  have hanswers : ∀ hostlen servlen, service.isSome = true →
      nameinfo_answers d hostlen servlen 0
        (d.getaddrinfo st.world (some (node.getD "127.0.0.1"))
          (some (service.getD "7")) (some (dns_hints d))).2.2
        (d.getaddrinfo st.world (some (node.getD "127.0.0.1"))
          (some (service.getD "7")) (some (dns_hints d))).2.1 ≠ [] := by
    intro hostlen servlen hsv hnil
    have hlen := nameinfo_answers_length d hostlen servlen 0
      (d.getaddrinfo st.world (some (node.getD "127.0.0.1"))
        (some (service.getD "7")) (some (dns_hints d))).2.2
      (d.getaddrinfo st.world (some (node.getD "127.0.0.1"))
        (some (service.getD "7")) (some (dns_hints d))).2.1
    rw [hnil] at hlen
    rcases hne with h | h
    · exact h (List.length_eq_zero.mp hlen.symm)
    · rw [h] at hsv
      exact absurd hsv (by simp)
  refine ⟨?_, ?_, ?_, ?_⟩
  · obtain ⟨more, hm⟩ := inet_global_getnameinfo_loop_trace d node service
      (d.getaddrinfo st.world (some (node.getD "127.0.0.1"))
        (some (service.getD "7")) (some (dns_hints d))).2.1 1 none none
      (LuaValue.table [] :: L2)
      ⟨(d.getaddrinfo st.world (some (node.getD "127.0.0.1"))
          (some (service.getD "7")) (some (dns_hints d))).2.2,
        st.trace ++ [DnsCall.getaddrinfo (some (node.getD "127.0.0.1"))
          (some (service.getD "7")) (some (dns_hints d))]⟩
    refine ⟨more ++ [DnsCall.freeaddrinfo (d.getaddrinfo st.world
      (some (node.getD "127.0.0.1")) (some (service.getD "7")) (some (dns_hints d))).2.1], ?_⟩
    rw [hstate]
    simp [dns_freeaddrinfo, hm]
  · unfold inet_global_getnameinfo
    simp only [h1, h2, if_neg hs, dns_getaddrinfo, hret, ne_eq, not_true_eq_false, if_false,
      lua_newtable]
    cases node with
    | some nd =>
      simp only [Option.isSome_some, if_true] at hok
      have hloop := inet_global_getnameinfo_loop_host d nd service
        (d.getaddrinfo st.world (some ((some nd).getD "127.0.0.1"))
          (some (service.getD "7")) (some (dns_hints d))).2.1 [] none none L2
        ⟨(d.getaddrinfo st.world (some ((some nd).getD "127.0.0.1"))
            (some (service.getD "7")) (some (dns_hints d))).2.2,
          st.trace ++ [DnsCall.getaddrinfo (some ((some nd).getD "127.0.0.1"))
            (some (service.getD "7")) (some (dns_hints d))]⟩ hok
      simp only [List.length_nil, Nat.cast_zero, zero_add, List.nil_append, lua_seq_from]
        at hloop
      simp only [hloop, Option.isSome_some, if_true]
      cases service with
      | none =>
        simp only [Option.isSome_none, Bool.false_eq_true, if_false, lua_results_one, lua_seq]
      | some sv =>
        obtain ⟨a, ha, hsa⟩ := serv_after_some (some sv) _ none rfl
          (hanswers 1024 32 rfl)
        simp only [hsa, ha, Option.isSome_some, if_true, lua_pushstring, lua_results_two,
          lua_seq, Option.map_some', LuaValue.of_cstring]
    | none =>
      cases service with
      | none => simp at hsome
      | some sv =>
        simp only [Option.isSome_none, Bool.false_eq_true, if_false] at hok
        have hloop := inet_global_getnameinfo_loop_nohost d (some sv)
          (d.getaddrinfo st.world (some ((none : Option String).getD "127.0.0.1"))
            (some ((some sv).getD "7")) (some (dns_hints d))).2.1 1 none none
          (LuaValue.table [] :: L2)
          ⟨(d.getaddrinfo st.world (some ((none : Option String).getD "127.0.0.1"))
              (some ((some sv).getD "7")) (some (dns_hints d))).2.2,
            st.trace ++ [DnsCall.getaddrinfo (some ((none : Option String).getD "127.0.0.1"))
              (some ((some sv).getD "7")) (some (dns_hints d))]⟩ hok
        obtain ⟨a, ha, hsa⟩ := serv_after_some (some sv) _ none rfl
          (hanswers 0 32 rfl)
        simp only [hloop, hsa, ha, Option.isSome_some, Option.isSome_none, if_true,
          Bool.false_eq_true, if_false, lua_pushstring, lua_results_two, lua_seq,
          Option.map_some', LuaValue.of_cstring, lua_seq_from]
  · intro hostlen servlen s cs
    have hlen : ((nameinfo_answers d hostlen servlen 0 s cs).map
        (fun a => LuaValue.string a.host)).length = cs.length := by
      simp [nameinfo_answers_length]
    refine ⟨by rw [lua_seq_size, hlen], ?_⟩
    intro i h
    have hi : i < (nameinfo_answers d hostlen servlen 0 s cs).length := by
      rw [nameinfo_answers_length]; exact h
    refine ⟨(nameinfo_answers d hostlen servlen 0 s cs)[i], List.getElem?_eq_getElem hi, ?_⟩
    rw [lua_seq_get _ i (by rw [hlen]; exact h), List.getElem_map]
  · intro hsv
    exact ⟨_, List.getLast?_eq_getLast _ (hanswers _ _ hsv)⟩

/-- The result of `inet_global_getnameinfo` at work: a host and a service are supplied,
the resolver gives two candidates and `getnameinfo` succeeds on both. -/
theorem inet_global_getnameinfo_result_witness :
    (inet_global_getnameinfo (exDns (1, none) (1, none)
        (0, [⟨0, 2, 1, 6, 4, [1, 2, 3, 4]⟩, ⟨0, 10, 1, 6, 2, [0, 1]⟩]))
        [LuaValue.string "7", LuaValue.string "example.org"] ⟨0, []⟩).1 =
      Result.returned [lua_seq [LuaValue.string "1.2.3.4", LuaValue.string "0.1"],
        LuaValue.string "echo"] :=
  (inet_global_getnameinfo_result (exDns (1, none) (1, none)
      (0, [⟨0, 2, 1, 6, 4, [1, 2, 3, 4]⟩, ⟨0, 10, 1, 6, 2, [0, 1]⟩]))
    [LuaValue.string "7", LuaValue.string "example.org"]
    [LuaValue.string "7", LuaValue.string "example.org"]
    [LuaValue.string "7", LuaValue.string "example.org"]
    (some "example.org") (some "7") ⟨0, []⟩ rfl rfl (Or.inl rfl) (by decide)
    (Or.inl (by decide)) (by decide)).2.1

/-- C18 at the input `dns.getnameinfo("example.org")` where the resolver succeeds with
one candidate on which `getnameinfo` fails with `EAI_AGAIN` (-3) and writes nothing: the
claim promises a list whose entry 1 is the host string of the candidate, but the code
does not look at the status of `getnameinfo` and pushes `host`, a buffer nothing was
written to, so that the result is not defined.  The same holds of the service string when
a service is supplied, also when the resolver succeeds with no candidate at all: `serv`
is pushed although no call ever wrote to it. -/
theorem inet_global_getnameinfo_reads_unwritten_buffer :
    (inet_global_getnameinfo (exDnsNoName (-3) (0, [⟨0, 2, 1, 6, 4, [1, 2, 3, 4]⟩]))
        [LuaValue.string "example.org"] ⟨0, []⟩).1 = Result.undefined
      ∧ (inet_global_getnameinfo (exDnsNoName (-3) (0, [⟨0, 2, 1, 6, 4, [1, 2, 3, 4]⟩]))
        [LuaValue.string "example.org"] ⟨0, []⟩).2.trace =
          [DnsCall.getaddrinfo (some "example.org") (some "7")
              (some (dns_hints (exDnsNoName (-3) (0, [⟨0, 2, 1, 6, 4, [1, 2, 3, 4]⟩])))),
            DnsCall.getnameinfo [1, 2, 3, 4] 4 1024 0 0,
            DnsCall.freeaddrinfo [⟨0, 2, 1, 6, 4, [1, 2, 3, 4]⟩]]
      ∧ (inet_global_getnameinfo (exDnsNoName (-3) (0, [⟨0, 2, 1, 6, 4, [1, 2, 3, 4]⟩]))
        [LuaValue.string "7", LuaValue.nil] ⟨0, []⟩).1 = Result.undefined
      ∧ (inet_global_getnameinfo (exDns (1, none) (1, none) (0, []))
        [LuaValue.string "7", LuaValue.nil] ⟨0, []⟩).1 = Result.undefined :=
  ⟨rfl, by decide, rfl, rfl⟩

/-- C14: with both arguments checked, `inet_global_getnameinfo` called with neither a host
nor a service raises the error "You have to specify a hostname, a service, or both" and
leaves the world and the trace untouched (no resolver call is made); called with at least
one of them it raises no error. -/
theorem inet_global_getnameinfo_requires_argument (d : Dns σ) (L L1 L2 : LuaStack)
    (node service : Option String) (st : DnsSt σ)
    (h1 : luaL_optstring d.lua_number2str L 1 = Except.ok (node, L1))
    (h2 : luaL_optstring d.lua_number2str L1 2 = Except.ok (service, L2)) :
    (node = none ∧ service = none →
      inet_global_getnameinfo d L st =
        (Result.raised
          (LuaError.message "You have to specify a hostname, a service, or both"), st)) ∧
    (node.isSome ∨ service.isSome →
      ∀ e, (inet_global_getnameinfo d L st).1 ≠ Result.raised e) := by
  constructor
  · rintro ⟨hn, hs⟩
    subst hn hs
    unfold inet_global_getnameinfo
    simp [h1, h2]
  · intro hsome e
    have hs : ¬ ¬ (node.isSome = true ∨ service.isSome = true) := fun h => h hsome
    unfold inet_global_getnameinfo
    simp only [h1, h2, if_neg hs]
    split
    · simp
    · split
      · simp
      · split
        · split <;> simp
        · simp

/-- Witness for C14: no argument at all, and a host alone. -/
theorem inet_global_getnameinfo_requires_argument_witness :
    inet_global_getnameinfo (exDns (1, none) (1, none) (0, [])) [] ⟨0, []⟩ =
      (Result.raised
        (LuaError.message "You have to specify a hostname, a service, or both"), ⟨0, []⟩) ∧
    (inet_global_getnameinfo (exDns (1, none) (1, none) (0, []))
      [LuaValue.string "example.org"] ⟨0, []⟩).1 ≠
      Result.raised
        (LuaError.message "You have to specify a hostname, a service, or both") :=
  ⟨(inet_global_getnameinfo_requires_argument (exDns (1, none) (1, none) (0, [])) [] [] []
      none none ⟨0, []⟩ rfl rfl).1 ⟨rfl, rfl⟩,
    (inet_global_getnameinfo_requires_argument (exDns (1, none) (1, none) (0, []))
      [LuaValue.string "example.org"] [LuaValue.string "example.org"]
      [LuaValue.string "example.org"] (some "example.org") none ⟨0, []⟩ rfl rfl).2
      (Or.inl rfl) _⟩

/-! ## How failures are reported -/

/-- C15 as stated fails: called with neither host nor service, `getnameinfo` does not
return the pair (`nil`, error string) but raises a Lua error. -/
theorem inet_global_getnameinfo_raises :
    inet_global_getnameinfo (exDns (1, none) (1, none) (0, [])) [] ⟨0, []⟩ =
      (Result.raised
        (LuaError.message "You have to specify a hostname, a service, or both"), ⟨0, []⟩) := by
  rfl

/-- C15, amended: every exposed dns operation reports a failure of its host lookup
(`toip` and `tohostname`), of the `getaddrinfo` call (`getaddrinfo` and `getnameinfo`)
and of the `gethostname` call by returning exactly two values, `nil` and the error
string; an argument that fails its check is reported by raising a Lua error before any
external call, and so is `getnameinfo` called with neither host nor service.  Nothing is
said of a failure of the `getnameinfo` call made on a candidate. -/
theorem dns_failure_reporting (d : Dns σ) (L : LuaStack) (st : DnsSt σ) :
    (∀ e, luaL_checkstring d.lua_number2str L 1 = Except.error e →
      inet_global_toip d L st = (Result.raised e, st) ∧
      inet_global_tohostname d L st = (Result.raised e, st) ∧
      inet_global_getaddrinfo d L st = (Result.raised e, st)) ∧
    (∀ address L', luaL_checkstring d.lua_number2str L 1 = Except.ok (address, L') →
      (inet_gethost d address st).1 ≠ d.IO_DONE →
      (inet_global_toip d L st).1 =
        Result.returned [LuaValue.nil,
          LuaValue.of_cstring (d.socket_hoststrerror (inet_gethost d address st).1)] ∧
      (inet_global_tohostname d L st).1 =
        Result.returned [LuaValue.nil,
          LuaValue.of_cstring (d.socket_hoststrerror (inet_gethost d address st).1)]) ∧
    (∀ hostname L', luaL_checkstring d.lua_number2str L 1 = Except.ok (hostname, L') →
      (d.getaddrinfo st.world (some hostname) none (some (dns_hints d))).1 ≠ 0 →
      (inet_global_getaddrinfo d L st).1 =
        Result.returned [LuaValue.nil, LuaValue.of_cstring (d.socket_gaistrerror
          (d.getaddrinfo st.world (some hostname) none (some (dns_hints d))).1)]) ∧
    (∀ e, luaL_optstring d.lua_number2str L 1 = Except.error e →
      inet_global_getnameinfo d L st = (Result.raised e, st)) ∧
    (∀ node L1 e, luaL_optstring d.lua_number2str L 1 = Except.ok (node, L1) →
      luaL_optstring d.lua_number2str L1 2 = Except.error e →
      inet_global_getnameinfo d L st = (Result.raised e, st)) ∧
    (∀ L1 L2, luaL_optstring d.lua_number2str L 1 = Except.ok (none, L1) →
      luaL_optstring d.lua_number2str L1 2 = Except.ok (none, L2) →
      inet_global_getnameinfo d L st =
        (Result.raised
          (LuaError.message "You have to specify a hostname, a service, or both"), st)) ∧
    (∀ node service L1 L2, luaL_optstring d.lua_number2str L 1 = Except.ok (node, L1) →
      luaL_optstring d.lua_number2str L1 2 = Except.ok (service, L2) →
      node.isSome ∨ service.isSome →
      (d.getaddrinfo st.world (some (node.getD "127.0.0.1")) (some (service.getD "7"))
        (some (dns_hints d))).1 ≠ 0 →
      (inet_global_getnameinfo d L st).1 =
        Result.returned [LuaValue.nil, LuaValue.of_cstring (d.socket_gaistrerror
          (d.getaddrinfo st.world (some (node.getD "127.0.0.1")) (some (service.getD "7"))
            (some (dns_hints d))).1)]) ∧
    ((d.gethostname st.world 256).1 < 0 →
      (inet_global_gethostname d L st).1 =
        Result.returned [LuaValue.nil, LuaValue.string "gethostname failed"]) := by
  refine ⟨?_, ?_, ?_, ?_, ?_, ?_, ?_, ?_⟩
  · intro e he
    refine ⟨?_, ?_, ?_⟩
    · unfold inet_global_toip; simp only [he]
    · unfold inet_global_tohostname; simp only [he]
    · unfold inet_global_getaddrinfo; simp only [he]
  · intro address L' harg herr
    rw [inet_global_toip_run d L L' address st harg,
      inet_global_tohostname_run d L L' address st harg]
    simp only [if_pos herr, and_self]
  · intro hostname L' harg hret
    unfold inet_global_getaddrinfo
    simp only [harg, dns_getaddrinfo, if_pos hret, lua_pushnil, lua_pushstring,
      lua_results_two]
  · intro e he
    unfold inet_global_getnameinfo; simp only [he]
  · intro node L1 e h1 he
    unfold inet_global_getnameinfo; simp only [h1, he]
  · intro L1 L2 h1 h2
    unfold inet_global_getnameinfo
    simp [h1, h2]
  · intro node service L1 L2 h1 h2 hsome hret
    have hs : ¬ ¬ (node.isSome = true ∨ service.isSome = true) := fun h => h hsome
    unfold inet_global_getnameinfo
    simp only [h1, h2, if_neg hs, dns_getaddrinfo, if_pos hret, lua_pushnil, lua_pushstring,
      lua_results_two]
  · intro hret
    unfold inet_global_gethostname
    simp only [dns_gethostname, if_pos hret, lua_pushnil, lua_pushstring, lua_results_two,
      LuaValue.of_cstring]

/-- Witness for the amended C15: a failed host lookup, a failed `getaddrinfo`, and an
argument of the wrong type. -/
theorem dns_failure_reporting_witness :
    (inet_global_toip (exDns (1, none) (1, none) (-2, []))
        [LuaValue.string "nonexistent.invalid"] ⟨0, []⟩).1 =
      Result.returned [LuaValue.nil, LuaValue.string "host not found"] ∧
    (inet_global_getaddrinfo (exDns (1, none) (1, none) (-2, []))
        [LuaValue.string "nonexistent.invalid"] ⟨0, []⟩).1 =
      Result.returned [LuaValue.nil, LuaValue.string "-2"] ∧
    inet_global_toip (exDns (1, none) (1, none) (-2, [])) [LuaValue.boolean true] ⟨0, []⟩ =
      (Result.raised (LuaError.bad_argument 1 "string"), ⟨0, []⟩) :=
  ⟨((dns_failure_reporting (exDns (1, none) (1, none) (-2, []))
      [LuaValue.string "nonexistent.invalid"] ⟨0, []⟩).2.1 "nonexistent.invalid"
      [LuaValue.string "nonexistent.invalid"] rfl (by decide)).1,
    (dns_failure_reporting (exDns (1, none) (1, none) (-2, []))
      [LuaValue.string "nonexistent.invalid"] ⟨0, []⟩).2.2.1 "nonexistent.invalid"
      [LuaValue.string "nonexistent.invalid"] rfl (by decide),
    ((dns_failure_reporting (exDns (1, none) (1, none) (-2, []))
      [LuaValue.boolean true] ⟨0, []⟩).1 (LuaError.bad_argument 1 "string") rfl).1⟩

/-! ## Lemmas on `set_termios` -/

/-- Reading a field of an options table that is second on a stack of two. -/
theorem lua_getfield_two (fields : List (Key × LuaValue)) (ud : LuaValue) (k : String) :
    lua_getfield [LuaValue.table fields, ud] 2 k
      = Except.ok [table_get fields (Key.str k), LuaValue.table fields, ud] := by
  simp [lua_getfield, lua_index, stack_pos]

/-- Indexing, with a string key on top, an options table that is second from the bottom. -/
theorem lua_gettable_two (fields : List (Key × LuaValue)) (ud : LuaValue) (k : String) :
    lua_gettable [LuaValue.string k, LuaValue.table fields, ud] 2
      = Except.ok [table_get fields (Key.str k), LuaValue.table fields, ud] := by
  simp [lua_gettable, lua_index, stack_pos, LuaValue.to_key]

/-- The value on top of the stack, by index `-1`. -/
theorem lua_index_top (v : LuaValue) (rest : LuaStack) :
    lua_index (v :: rest) (-1) = some v := by
  simp [lua_index, stack_pos]

/-- An absent field leaves the flag alone. -/
theorem SET_FLAG_absent (fields : List (Key × LuaValue)) (ud : LuaValue) (t : Termios)
    (w : FlagWord) (k : String) (c : Nat) (hk : table_get fields (Key.str k) = LuaValue.nil) :
    SET_FLAG_IN_TERMIOS_STRUCT [LuaValue.table fields, ud] t 2 w k c
      = Except.ok (t, [LuaValue.table fields, ud]) := by
  simp [SET_FLAG_IN_TERMIOS_STRUCT, lua_pushstring, LuaValue.of_cstring, lua_gettable_two, hk,
    lua_isnoneornil, lua_index_top, lua_pop]

/-- A boolean field sets or clears the constant in its flag word. -/
theorem SET_FLAG_boolean (fields : List (Key × LuaValue)) (ud : LuaValue) (t : Termios)
    (w : FlagWord) (k : String) (c : Nat) (v : Bool)
    (hk : table_get fields (Key.str k) = LuaValue.boolean v) :
    SET_FLAG_IN_TERMIOS_STRUCT [LuaValue.table fields, ud] t 2 w k c
      = Except.ok (t.with_flag w
          (if v then tcflag_or (t.flag w) c else tcflag_andnot (t.flag w) c),
          [LuaValue.table fields, ud]) := by
  cases v <;>
  simp [SET_FLAG_IN_TERMIOS_STRUCT, lua_pushstring, LuaValue.of_cstring, lua_gettable_two, hk,
    lua_isnoneornil, lua_isboolean, lua_toboolean, lua_index_top, lua_pop]

/-- Flags absent from the options table are all left alone. -/
theorem set_termios_flags_absent (fields : List (Key × LuaValue)) (ud : LuaValue)
    (fl : List (FlagWord × String × Nat)) (t : Termios)
    (hk : ∀ e ∈ fl, table_get fields (Key.str e.2.1) = LuaValue.nil) :
    set_termios_flags fl [LuaValue.table fields, ud] t 2
      = Except.ok (t, [LuaValue.table fields, ud]) := by
  induction fl with
  | nil => rfl
  | cons e rest ih =>
    obtain ⟨w, k, c⟩ := e
    have h1 := hk (w, k, c) (List.mem_cons_self _ _)
    simp only [set_termios_flags, SET_FLAG_absent fields ud t w k c h1]
    exact ih (fun e he => hk e (List.mem_cons_of_mem _ he))

/-- The field of an options table with a single field. -/
theorem table_get_single (k k2 : String) (v : LuaValue) :
    table_get [(Key.str k, v)] (Key.str k2) = if k = k2 then v else LuaValue.nil := by
  simp [table_get]

/-- With a single boolean field `k = v` in the options table, the run through a list of
flags with distinct keys changes the flag of `k` alone. -/
theorem set_termios_flags_single (ud : LuaValue) (fl : List (FlagWord × String × Nat))
    (t : Termios) (w : FlagWord) (k : String) (c : Nat) (v : Bool)
    (hnd : (fl.map fun e => e.2.1).Nodup) (hmem : (w, k, c) ∈ fl) :
    set_termios_flags fl [options_table k (LuaValue.boolean v), ud] t 2
      = Except.ok (t.with_flag w
          (if v then tcflag_or (t.flag w) c else tcflag_andnot (t.flag w) c),
          [options_table k (LuaValue.boolean v), ud]) := by
  induction fl with
  | nil => cases hmem
  | cons e rest ih =>
    obtain ⟨w2, k2, c2⟩ := e
    simp only [List.map_cons, List.nodup_cons] at hnd
    by_cases hk : k2 = k
    · subst hk
      have hrest : (w, k2, c) ∉ rest := fun h =>
        hnd.1 (List.mem_map_of_mem (fun e => e.2.1) h)
      have hhead : (w, k2, c) = (w2, k2, c2) := by
        rcases List.mem_cons.1 hmem with h | h
        · exact h
        · exact absurd h hrest
      injection hhead with hw hkc
      injection hkc with _ hc
      subst hw
      subst hc
      simp only [set_termios_flags, options_table]
      rw [SET_FLAG_boolean [(Key.str k2, LuaValue.boolean v)] ud t w k2 c v
        (by simp [table_get])]
      exact set_termios_flags_absent _ ud rest _ (fun e he => by
        have hne : k2 ≠ e.2.1 := fun h =>
          hnd.1 (h ▸ List.mem_map_of_mem (fun e => e.2.1) he)
        simp [table_get, hne])
    · have hmem2 : (w, k, c) ∈ rest := by
        rcases List.mem_cons.1 hmem with h | h
        · injection h with _ h2
          injection h2 with h3 _
          exact absurd h3.symm hk
        · exact h
      simp only [set_termios_flags, options_table]
      rw [SET_FLAG_absent [(Key.str k, LuaValue.boolean v)] ud t w2 k2 c2
        (by simp [table_get, Ne.symm hk])]
      exact ih hnd.2 hmem2

/-- The keys of the 32 flags. -/
theorem termios_flags_keys (h : Termios_h) :
    ((termios_flags h).map fun e => e.2.1)
      = ["clocal", "cread", "parenb", "cstopb", "parodd", "hupcl",
         "icanon", "echo", "echoe", "echok", "echonl", "isig", "tostop", "iexten",
         "ignbrk", "brkint", "ignpar", "parmrk", "inpck", "istrip", "inlcr", "igncr",
         "icrnl", "ixon", "ixany", "ixoff",
         "opost", "onlcr", "ocrnl", "onocr", "onlret", "ofill"] := rfl

/-- The keys of the 32 flags are distinct. -/
theorem termios_flags_nodup (h : Termios_h) : ((termios_flags h).map fun e => e.2.1).Nodup := by
  rw [termios_flags_keys]
  decide

/-- None of the 32 flag keys is one of the four other option keys. -/
theorem termios_flags_other (h : Termios_h) (e : FlagWord × String × Nat)
    (he : e ∈ termios_flags h) :
    e.2.1 ≠ "reset_flags_first" ∧ e.2.1 ≠ "ispeed" ∧ e.2.1 ≠ "ospeed" ∧ e.2.1 ≠ "csize" := by
  have hmem : e.2.1 ∈ (termios_flags h).map fun e => e.2.1 :=
    List.mem_map_of_mem (fun e => e.2.1) he
  rw [termios_flags_keys] at hmem
  generalize e.2.1 = k at hmem ⊢
  refine ⟨?_, ?_, ?_, ?_⟩ <;> intro hk <;> subst hk <;> revert hmem <;> decide

/-- An absent `reset_flags_first` changes nothing. -/
theorem set_termios_reset_absent (fields : List (Key × LuaValue)) (ud : LuaValue) (t : Termios)
    (hk : table_get fields (Key.str "reset_flags_first") = LuaValue.nil) :
    set_termios_reset [LuaValue.table fields, ud] t 2
      = Except.ok (t, [LuaValue.table fields, ud]) := by
  simp [set_termios_reset, lua_getfield_two, hk, lua_isnoneornil, lua_index_top, lua_pop]

/-- An absent `ispeed` changes nothing. -/
theorem set_termios_ispeed_absent (h : Termios_h) (s2n : String → Option Int)
    (fields : List (Key × LuaValue)) (ud : LuaValue) (t : Termios)
    (hk : table_get fields (Key.str "ispeed") = LuaValue.nil) :
    set_termios_ispeed h s2n [LuaValue.table fields, ud] t 2
      = Except.ok (t, [LuaValue.table fields, ud]) := by
  simp [set_termios_ispeed, lua_getfield_two, hk, lua_isnoneornil, lua_index_top, lua_pop]

/-- An absent `ospeed` changes nothing. -/
theorem set_termios_ospeed_absent (h : Termios_h) (s2n : String → Option Int)
    (fields : List (Key × LuaValue)) (ud : LuaValue) (t : Termios)
    (hk : table_get fields (Key.str "ospeed") = LuaValue.nil) :
    set_termios_ospeed h s2n [LuaValue.table fields, ud] t 2
      = Except.ok (t, [LuaValue.table fields, ud]) := by
  simp [set_termios_ospeed, lua_getfield_two, hk, lua_isnoneornil, lua_index_top, lua_pop]

/-- An absent `csize` changes nothing. -/
theorem set_termios_csize_absent (h : Termios_h) (s2n : String → Option Int)
    (fields : List (Key × LuaValue)) (ud : LuaValue) (t : Termios)
    (hk : table_get fields (Key.str "csize") = LuaValue.nil) :
    set_termios_csize h s2n [LuaValue.table fields, ud] t 2
      = Except.ok (t, [LuaValue.table fields, ud]) := by
  simp [set_termios_csize, lua_getfield_two, hk, lua_isnoneornil, lua_index_top, lua_pop]

/-- The setting half of the flag round trip: for each of the 32 flags, an options table
with the single field `k = v` makes `set_termios` set (`v` true) or clear (`v` false) the
constant of `k` in its flag word and change nothing else. -/
theorem set_termios_single_flag (h : Termios_h) (s2n : String → Option Int) (ud : LuaValue)
    (t : Termios) (w : FlagWord) (k : String) (c : Nat) (v : Bool)
    (hmem : (w, k, c) ∈ termios_flags h) :
    set_termios h s2n [options_table k (LuaValue.boolean v), ud] t 2
      = Except.ok (t.with_flag w
          (if v then tcflag_or (t.flag w) c else tcflag_andnot (t.flag w) c),
          [options_table k (LuaValue.boolean v), ud]) := by
  obtain ⟨h1, h2, h3, h4⟩ := termios_flags_other h (w, k, c) hmem
  simp only at h1 h2 h3 h4
  unfold set_termios
  simp only [options_table]
  rw [set_termios_reset_absent _ ud t (by simp [table_get, h1])]
  simp only [Except.bind]
  rw [set_termios_ispeed_absent h s2n _ ud t (by simp [table_get, h2])]
  simp only [Except.bind]
  rw [set_termios_ospeed_absent h s2n _ ud t (by simp [table_get, h3])]
  simp only [Except.bind]
  rw [set_termios_csize_absent h s2n _ ud t (by simp [table_get, h4])]
  simp only [Except.bind]
  exact set_termios_flags_single ud (termios_flags h) t w k c v (termios_flags_nodup h) hmem

/-! ## Lemmas on the table `meth_options` builds -/

/-- A field just assigned a value other than `nil` holds it. -/
theorem table_get_set_same (F : List (Key × LuaValue)) (k : Key) (v : LuaValue)
    (hv : v.is_nil = false) : table_get (table_set F k v) k = v := by
  induction F with
  | nil => simp [table_set, table_get, hv]
  | cons e rest ih =>
    obtain ⟨k2, v2⟩ := e
    by_cases hk : k2 = k
    · simp [table_set, table_get, hk, hv]
    · simp [table_set, table_get, hk, ih]

/-- Assigning a field leaves the other fields alone. -/
theorem table_get_set_other (F : List (Key × LuaValue)) (k k2 : Key) (v : LuaValue)
    (hk : k ≠ k2) : table_get (table_set F k v) k2 = table_get F k2 := by
  induction F with
  | nil =>
    cases hv : v.is_nil <;> simp [table_set, table_get, hv, hk]
  | cons e rest ih =>
    obtain ⟨k3, v3⟩ := e
    by_cases h3 : k3 = k
    · subst h3
      cases hv : v.is_nil <;> simp [table_set, table_get, hv, hk]
    · by_cases h4 : k3 = k2
      · subst h4
        simp [table_set, table_get, h3]
      · simp [table_set, table_get, h3, h4, ih]

/-- Storing a field, through index 1, in a table that is alone below the value. -/
theorem lua_setfield_one (F : List (Key × LuaValue)) (v : LuaValue) (k : String) :
    lua_setfield [v, LuaValue.table F] 1 k
      = Except.ok [LuaValue.table (table_set F (Key.str k) v)] := by
  simp [lua_setfield, stack_pos]

/-- The 32 reads of `meth_options` on a table alone on the stack: every flag key holds the
boolean `word != 0 && constant != 0`, and the other fields are as they were. -/
theorem get_termios_flags_fields (fl : List (FlagWord × String × Nat)) (t : Termios)
    (F : List (Key × LuaValue)) (hnd : (fl.map fun e => e.2.1).Nodup) :
    ∃ F2, get_termios_flags fl [LuaValue.table F] t 1 = Except.ok [LuaValue.table F2]
      ∧ (∀ k, k ∉ (fl.map fun e => e.2.1) →
          table_get F2 (Key.str k) = table_get F (Key.str k))
      ∧ (∀ e ∈ fl, table_get F2 (Key.str e.2.1)
          = LuaValue.boolean (t.flag e.1 != 0 && e.2.2 != 0)) := by
  induction fl generalizing F with
  | nil => exact ⟨F, rfl, fun _ _ => rfl, fun e he => by cases he⟩
  | cons e rest ih =>
    obtain ⟨w, k, c⟩ := e
    simp only [List.map_cons, List.nodup_cons] at hnd
    obtain ⟨F2, hrun, hother, hflags⟩ :=
      ih (table_set F (Key.str k) (LuaValue.boolean (t.flag w != 0 && c != 0))) hnd.2
    refine ⟨F2, ?_, ?_, ?_⟩
    · simp only [get_termios_flags, GET_FLAG_FROM_TERMIOS_STRUCT, lua_pushboolean,
        lua_setfield_one]
      exact hrun
    · intro k2 hk2
      simp only [List.map_cons, List.mem_cons, not_or] at hk2
      rw [hother k2 hk2.2]
      exact table_get_set_other F (Key.str k) (Key.str k2) _
        (fun h => hk2.1 (by injection h with h; exact h.symm))
    · intro e he
      rcases List.mem_cons.1 he with h | h
      · subst h
        rw [hother k hnd.1]
        exact table_get_set_same F (Key.str k) _ rfl
      · exact hflags e h

/-- The value a speed `switch` of `meth_options` pushes. -/
theorem push_speed_eq (h : Termios_h) (L : LuaStack) (speed : Nat) :
    push_speed h L speed
      = (match baud_rate h speed with
          | some r => LuaValue.number r
          | none => LuaValue.string "unknown") :: L := by
  unfold push_speed
  cases baud_rate h speed <;> rfl

/-- The `csize` chain of `meth_options` on a table alone on the stack: the field `csize`
is chosen by the logical tests `c_cflag && CSn`, and the other fields are as they were. -/
theorem meth_options_csize_fields (h : Termios_h) (t : Termios) (F : List (Key × LuaValue)) :
    ∃ F1, meth_options_csize h [LuaValue.table F] t = Except.ok [LuaValue.table F1]
      ∧ (∀ k, Key.str "csize" ≠ k → table_get F1 k = table_get F k)
      ∧ table_get F1 (Key.str "csize")
          = (if t.c_cflag != 0 && h.CS5 != 0 then LuaValue.number 5
              else if t.c_cflag != 0 && h.CS6 != 0 then LuaValue.number 6
              else if t.c_cflag != 0 && h.CS7 != 0 then LuaValue.number 7
              else if t.c_cflag != 0 && h.CS8 != 0 then LuaValue.number 8
              else table_get F (Key.str "csize")) := by
  unfold meth_options_csize
  by_cases c5 : (t.c_cflag != 0 && h.CS5 != 0) = true
  · refine ⟨table_set F (Key.str "csize") (LuaValue.number 5), ?_, ?_, ?_⟩
    · rw [if_pos c5]
      exact lua_setfield_one F _ _
    · exact fun k hk => table_get_set_other F _ k _ hk
    · rw [if_pos c5]
      exact table_get_set_same F _ _ rfl
  · by_cases c6 : (t.c_cflag != 0 && h.CS6 != 0) = true
    · refine ⟨table_set F (Key.str "csize") (LuaValue.number 6), ?_, ?_, ?_⟩
      · rw [if_neg c5, if_pos c6]
        exact lua_setfield_one F _ _
      · exact fun k hk => table_get_set_other F _ k _ hk
      · rw [if_neg c5, if_pos c6]
        exact table_get_set_same F _ _ rfl
    · by_cases c7 : (t.c_cflag != 0 && h.CS7 != 0) = true
      · refine ⟨table_set F (Key.str "csize") (LuaValue.number 7), ?_, ?_, ?_⟩
        · rw [if_neg c5, if_neg c6, if_pos c7]
          exact lua_setfield_one F _ _
        · exact fun k hk => table_get_set_other F _ k _ hk
        · rw [if_neg c5, if_neg c6, if_pos c7]
          exact table_get_set_same F _ _ rfl
      · by_cases c8 : (t.c_cflag != 0 && h.CS8 != 0) = true
        · refine ⟨table_set F (Key.str "csize") (LuaValue.number 8), ?_, ?_, ?_⟩
          · rw [if_neg c5, if_neg c6, if_neg c7, if_pos c8]
            exact lua_setfield_one F _ _
          · exact fun k hk => table_get_set_other F _ k _ hk
          · rw [if_neg c5, if_neg c6, if_neg c7, if_pos c8]
            exact table_get_set_same F _ _ rfl
        · refine ⟨F, ?_, ?_, ?_⟩
          · rw [if_neg c5, if_neg c6, if_neg c7, if_neg c8]
          · exact fun k _ => rfl
          · rw [if_neg c5, if_neg c6, if_neg c7, if_neg c8]

/-- What `meth_options` reports of a `struct termios`: the table it fills, starting from
an empty table alone on the stack, holds the rates of the two speeds, a `csize` chosen by
the logical tests `c_cflag && CSn`, and for every flag the boolean
`word != 0 && constant != 0`. -/
theorem meth_options_fill_fields (h : Termios_h) (t : Termios) :
    ∃ F, meth_options_fill h [LuaValue.table []] t = Except.ok [LuaValue.table F]
      ∧ table_get F (Key.str "ospeed")
          = (match baud_rate h (h.cfgetospeed t) with
              | some r => LuaValue.number r
              | none => LuaValue.string "unknown")
      ∧ table_get F (Key.str "ispeed")
          = (match baud_rate h (h.cfgetispeed t) with
              | some r => LuaValue.number r
              | none => LuaValue.string "unknown")
      ∧ table_get F (Key.str "csize")
          = (if t.c_cflag != 0 && h.CS5 != 0 then LuaValue.number 5
              else if t.c_cflag != 0 && h.CS6 != 0 then LuaValue.number 6
              else if t.c_cflag != 0 && h.CS7 != 0 then LuaValue.number 7
              else if t.c_cflag != 0 && h.CS8 != 0 then LuaValue.number 8
              else LuaValue.nil)
      ∧ (∀ e ∈ termios_flags h, table_get F (Key.str e.2.1)
          = LuaValue.boolean (t.flag e.1 != 0 && e.2.2 != 0)) := by
  have hvo : ∀ s, (match baud_rate h s with
      | some r => LuaValue.number r
      | none => LuaValue.string "unknown").is_nil = false := by
    intro s
    cases baud_rate h s <;> rfl
  have hkeys : "ospeed" ∉ ((termios_flags h).map fun e => e.2.1)
      ∧ "ispeed" ∉ ((termios_flags h).map fun e => e.2.1)
      ∧ "csize" ∉ ((termios_flags h).map fun e => e.2.1) := by
    rw [termios_flags_keys]
    decide
  have hio : Key.str "ispeed" ≠ Key.str "ospeed" := by decide
  have hco : Key.str "csize" ≠ Key.str "ospeed" := by decide
  have hci : Key.str "csize" ≠ Key.str "ispeed" := by decide
  obtain ⟨F1, hrun1, hother1, hc⟩ := meth_options_csize_fields h t
    (table_set (table_set [] (Key.str "ospeed")
      (match baud_rate h (h.cfgetospeed t) with
        | some r => LuaValue.number r
        | none => LuaValue.string "unknown")) (Key.str "ispeed")
      (match baud_rate h (h.cfgetispeed t) with
        | some r => LuaValue.number r
        | none => LuaValue.string "unknown"))
  obtain ⟨F2, hrun2, hother, hflags⟩ :=
    get_termios_flags_fields (termios_flags h) t F1 (termios_flags_nodup h)
  refine ⟨F2, ?_, ?_, ?_, ?_, hflags⟩
  · unfold meth_options_fill
    simp only [push_speed_eq, lua_setfield_one, Except.bind, hrun1]
    exact hrun2
  · rw [hother _ hkeys.1, hother1 _ hco, table_get_set_other _ _ _ _ hio]
    exact table_get_set_same _ _ _ (hvo _)
  · rw [hother _ hkeys.2.1, hother1 _ hci]
    exact table_get_set_same _ _ _ (hvo _)
  · rw [hother _ hkeys.2.2, hc, table_get_set_other _ _ _ _ (Ne.symm hci),
      table_get_set_other _ _ _ _ (Ne.symm hco)]
    rfl

/-! ## The flag words as bits -/

/-- Bits of `w |= c`. -/
theorem tcflag_or_testBit (w c i : Nat) (hi : i < 32) :
    (tcflag_or w c).testBit i = (w.testBit i || c.testBit i) := by
  unfold tcflag_or
  rw [Nat.testBit_mod_two_pow]
  simp [hi]

/-- Bits of `w &= ~c`. -/
theorem tcflag_andnot_testBit (w c i : Nat) (hi : i < 32) :
    (tcflag_andnot w c).testBit i = (w.testBit i && !c.testBit i) := by
  unfold tcflag_andnot
  have hlt : c % 2 ^ 32 < 2 ^ 32 := Nat.mod_lt _ (by norm_num)
  have hsub : 2 ^ 32 - 1 - c % 2 ^ 32 = 2 ^ 32 - (c % 2 ^ 32 + 1) := by omega
  rw [hsub, Nat.testBit_mod_two_pow, Nat.testBit_and, Nat.testBit_two_pow_sub_succ hlt,
    Nat.testBit_mod_two_pow]
  simp [hi]

/-- Reading back the flag word just assigned. -/
theorem Termios.flag_with_flag (t : Termios) (w : FlagWord) (v : Nat) :
    (t.with_flag w v).flag w = v := by
  cases w <;> rfl

/-- Assigning a flag word leaves the other flag words alone. -/
theorem Termios.flag_with_flag_other (t : Termios) (w w2 : FlagWord) (v : Nat) (hw : w2 ≠ w) :
    (t.with_flag w v).flag w2 = t.flag w2 := by
  cases w <;> cases w2 <;> first | rfl | exact absurd rfl hw

/-- The setting half of the flag round trip, bit by bit: with the single field `k = v` in
the options table, `set_termios` returns a `struct termios` in which every bit of the
constant of `k` equals `v` in its flag word, every other bit of that word and the three
other flag words are unchanged. -/
theorem set_termios_flag_bits (h : Termios_h) (s2n : String → Option Int) (ud : LuaValue)
    (t : Termios) (w : FlagWord) (k : String) (c : Nat) (v : Bool)
    (hmem : (w, k, c) ∈ termios_flags h) :
    ∃ t2, set_termios h s2n [options_table k (LuaValue.boolean v), ud] t 2
        = Except.ok (t2, [options_table k (LuaValue.boolean v), ud])
      ∧ (∀ i, i < 32 → (t2.flag w).testBit i = if c.testBit i then v else (t.flag w).testBit i)
      ∧ (∀ w2, w2 ≠ w → t2.flag w2 = t.flag w2) := by
  refine ⟨_, set_termios_single_flag h s2n ud t w k c v hmem, ?_, ?_⟩
  · intro i hi
    rw [Termios.flag_with_flag]
    cases v <;> cases hc : c.testBit i <;>
      simp [tcflag_or_testBit, tcflag_andnot_testBit, hi, hc]
  · intro w2 hw2
    exact Termios.flag_with_flag_other t w w2 _ hw2

/-! ## Lemmas on `meth_options` -/

/-- A run of `meth_options` on a serial object and an options table that `set_termios`
accepts: the new settings are written with `TCSANOW` and reported from the
`struct termios` that `set_termios` left. -/
theorem meth_options_run (h : Termios_h) (y : Tty σ) (fields : List (Key × LuaValue))
    (ud : LuaValue) (s : σ) (sock : Int) (t2 : Termios)
    (hud : y.auxiliar_checkgroup [LuaValue.table fields, ud] 1 = some sock)
    (hset : set_termios h y.lua_str2number [LuaValue.table fields, ud] (y.tcgetattr s sock) 2
      = Except.ok (t2, [LuaValue.table fields, ud])) :
    ∃ F, meth_options h y [LuaValue.table fields, ud] s
        = (Result.returned [LuaValue.table F], y.tcsetattr s sock h.TCSANOW t2)
      ∧ meth_options_fill h [LuaValue.table []] t2 = Except.ok [LuaValue.table F] := by
  obtain ⟨F, hfill, _⟩ := meth_options_fill_fields h t2
  refine ⟨F, ?_, hfill⟩
  have h2 : lua_isnoneornil [LuaValue.table fields, ud] 2 = false := by
    simp [lua_isnoneornil, lua_index, stack_pos]
  have h2t : lua_istable [LuaValue.table fields, ud] 2 = true := by
    simp [lua_istable, lua_index, stack_pos]
  have h3 : lua_isnoneornil [LuaValue.table fields, ud] 3 = true := by
    simp [lua_isnoneornil, lua_index, stack_pos]
  simp [meth_options, hud, meth_options_apply, meth_options_when, h2, h2t, h3, hset, lua_pop,
    lua_createtable, hfill, lua_results]

/-- A run of `meth_options` on an options table that `set_termios` refuses raises the
error of `set_termios` and writes nothing. -/
theorem meth_options_raises (h : Termios_h) (y : Tty σ) (fields : List (Key × LuaValue))
    (ud : LuaValue) (s : σ) (sock : Int) (e : LuaError)
    (hud : y.auxiliar_checkgroup [LuaValue.table fields, ud] 1 = some sock)
    (hset : set_termios h y.lua_str2number [LuaValue.table fields, ud] (y.tcgetattr s sock) 2
      = Except.error e) :
    meth_options h y [LuaValue.table fields, ud] s = (Result.raised e, s) := by
  have h2 : lua_isnoneornil [LuaValue.table fields, ud] 2 = false := by
    simp [lua_isnoneornil, lua_index, stack_pos]
  have h2t : lua_istable [LuaValue.table fields, ud] 2 = true := by
    simp [lua_istable, lua_index, stack_pos]
  have h3 : lua_isnoneornil [LuaValue.table fields, ud] 3 = true := by
    simp [lua_isnoneornil, lua_index, stack_pos]
  simp [meth_options, hud, meth_options_apply, meth_options_when, h2, h2t, h3, hset]

/-- What `meth_options` reports of a flag it has just set or cleared: with the single
field `k = v` in the options table, the table returned holds under `k` the boolean
`word != 0 && constant != 0` of the new flag word, whatever `v` is. -/
theorem meth_options_flag_report (h : Termios_h) (y : Tty σ) (ud : LuaValue) (s : σ)
    (sock : Int) (w : FlagWord) (k : String) (c : Nat) (v : Bool)
    (hmem : (w, k, c) ∈ termios_flags h)
    (hud : y.auxiliar_checkgroup [options_table k (LuaValue.boolean v), ud] 1 = some sock) :
    (meth_options h y [options_table k (LuaValue.boolean v), ud] s).1.field k
      = LuaValue.boolean
          ((if v then tcflag_or ((y.tcgetattr s sock).flag w) c
              else tcflag_andnot ((y.tcgetattr s sock).flag w) c) != 0 && c != 0) := by
  have hset := set_termios_single_flag h y.lua_str2number ud (y.tcgetattr s sock) w k c v hmem
  obtain ⟨F, hrun, hfill⟩ := meth_options_run h y [(Key.str k, LuaValue.boolean v)] ud s sock _
    hud hset
  obtain ⟨F2, hfill2, _, _, _, hflags⟩ := meth_options_fill_fields h
    ((y.tcgetattr s sock).with_flag w
      (if v then tcflag_or ((y.tcgetattr s sock).flag w) c
        else tcflag_andnot ((y.tcgetattr s sock).flag w) c))
  have hF : F2 = F := by
    rw [hfill] at hfill2
    injection hfill2 with hfill2
    injection hfill2 with hfill2 _
    injection hfill2 with hfill2
    exact hfill2.symm
  subst hF
  have hk := hflags (w, k, c) hmem
  simp only [Termios.flag_with_flag] at hk
  have hrun2 : meth_options h y [options_table k (LuaValue.boolean v), ud] s
      = (Result.returned [LuaValue.table F2], y.tcsetattr s sock h.TCSANOW
          ((y.tcgetattr s sock).with_flag w
            (if v then tcflag_or ((y.tcgetattr s sock).flag w) c
              else tcflag_andnot ((y.tcgetattr s sock).flag w) c))) := hrun
  rw [hrun2]
  exact hk

/-! ## Character size -/

/-- The `csize` switch takes exactly 5, 6, 7 and 8. -/
theorem csize_constant_eq_none_iff (h : Termios_h) (n : Int) :
    csize_constant h n = none ↔ n ∉ [5, 6, 7, 8] := by
  unfold csize_constant
  by_cases h5 : n = 5
  · simp [h5]
  · by_cases h6 : n = 6
    · simp [h6]
    · by_cases h7 : n = 7
      · simp [h7]
      · by_cases h8 : n = 8
        · simp [h8]
        · simp [h5, h6, h7, h8]

/-- With the single field `csize = n` in the options table, `set_termios` replaces the
`CSIZE` field of `c_cflag` by the constant of `n` when `n` is 5, 6, 7 or 8 and raises an
error for any other number. -/
theorem set_termios_csize_number (h : Termios_h) (s2n : String → Option Int) (ud : LuaValue)
    (t : Termios) (n : Int) :
    set_termios h s2n [options_table "csize" (LuaValue.number n), ud] t 2
      = (match csize_constant h n with
          | some cs =>
            Except.ok ({ t with c_cflag := tcflag_or (tcflag_andnot t.c_cflag h.CSIZE) cs },
              [options_table "csize" (LuaValue.number n), ud])
          | none => Except.error (LuaError.message
              "The character size mask (csize) must be one of 5, 6, 7 or 8")) := by
  unfold set_termios
  simp only [options_table]
  rw [set_termios_reset_absent _ ud t (by simp [table_get])]
  simp only [Except.bind]
  rw [set_termios_ispeed_absent h s2n _ ud t (by simp [table_get])]
  simp only [Except.bind]
  rw [set_termios_ospeed_absent h s2n _ ud t (by simp [table_get])]
  simp only [Except.bind]
  have hcs : set_termios_csize h s2n [LuaValue.table [(Key.str "csize", LuaValue.number n)], ud]
      t 2
      = (match csize_constant h n with
          | some cs =>
            Except.ok ({ t with c_cflag := tcflag_or (tcflag_andnot t.c_cflag h.CSIZE) cs },
              [LuaValue.table [(Key.str "csize", LuaValue.number n)], ud])
          | none => Except.error (LuaError.message
              "The character size mask (csize) must be one of 5, 6, 7 or 8")) := by
    have hv : table_get [(Key.str "csize", LuaValue.number n)] (Key.str "csize")
        = LuaValue.number n := by simp [table_get]
    simp only [set_termios_csize, lua_getfield_two, hv, lua_isnoneornil, lua_isnumber,
      lua_tointeger, lua_index_top, lua_pop]
    cases csize_constant h n <;> simp
  rw [hcs]
  cases csize_constant h n with
  | none => rfl
  | some cs =>
    simp only [Except.bind]
    exact set_termios_flags_absent _ ud (termios_flags h) _ (fun e he => by
      have hne := (termios_flags_other h e he).2.2.2
      simp [table_get, Ne.symm hne])

/-- Bits of a flag word whose `CSIZE` field has been replaced by a value inside the mask. -/
theorem csize_testBit (w mask cs i : Nat) (hi : i < 32)
    (hcs : ∀ j, cs.testBit j = true → mask.testBit j = true) :
    (tcflag_or (tcflag_andnot w mask) cs).testBit i
      = if mask.testBit i then cs.testBit i else w.testBit i := by
  rw [tcflag_or_testBit _ _ _ hi, tcflag_andnot_testBit _ _ _ hi]
  cases hm : mask.testBit i
  · cases hc : cs.testBit i
    · simp
    · rw [hcs i hc] at hm
      cases hm
  · simp

/-! ## Baud rates -/

/-- The labels of the baud-rate switches are the 19 listed rates. -/
theorem baud_cases_rates (h : Termios_h) : (baud_cases h).map Prod.fst = baud_rates := rfl

/-- The constants of the baud-rate switches. -/
theorem baud_cases_constants (h : Termios_h) :
    (baud_cases h).map Prod.snd = speed_constants h := rfl

/-- The baud-rate switch takes exactly the 19 listed rates. -/
theorem baud_constant_isSome_iff (h : Termios_h) (n : Int) :
    (baud_constant h n).isSome ↔ n ∈ baud_rates := by
  rw [← baud_cases_rates h]
  unfold baud_constant
  generalize baud_cases h = l
  induction l with
  | nil => simp
  | cons p rest ih =>
    by_cases hp : p.1 = n
    · simp [List.find?_cons, hp]
    · have hp2 : ¬ n = p.1 := fun h => hp h.symm
      simp [List.find?_cons, hp, hp2]

/-- The listed rates are `int` values. -/
theorem to_int_baud_rate (r : Int) (hr : r ∈ baud_rates) : to_int r = r := by
  have hall : ∀ x ∈ baud_rates, 0 ≤ x ∧ x ≤ 230400 := by decide
  obtain ⟨h0, h1⟩ := hall r hr
  unfold to_int
  omega

/-- With the single field `ispeed = n` in the options table, `set_termios` converts `n`
to `int`, calls `cfsetispeed` once with the constant of a listed rate and nothing else,
and raises an error when the `int` is not a listed rate. -/
theorem set_termios_ispeed_number (h : Termios_h) (s2n : String → Option Int) (ud : LuaValue)
    (t : Termios) (n : Int) :
    set_termios h s2n [options_table "ispeed" (LuaValue.number n), ud] t 2
      = (match baud_constant h (to_int n) with
          | some b =>
            Except.ok (h.cfsetispeed t b, [options_table "ispeed" (LuaValue.number n), ud])
          | none => Except.error (LuaError.message
              ("Baud rate (for ispeed) must be one of " ++ baud_list))) := by
  unfold set_termios
  simp only [options_table]
  rw [set_termios_reset_absent _ ud t (by simp [table_get])]
  simp only [Except.bind]
  have hsp : set_termios_ispeed h s2n
      [LuaValue.table [(Key.str "ispeed", LuaValue.number n)], ud] t 2
      = (match baud_constant h (to_int n) with
          | some b =>
            Except.ok (h.cfsetispeed t b,
              [LuaValue.table [(Key.str "ispeed", LuaValue.number n)], ud])
          | none => Except.error (LuaError.message
              ("Baud rate (for ispeed) must be one of " ++ baud_list))) := by
    have hv : table_get [(Key.str "ispeed", LuaValue.number n)] (Key.str "ispeed")
        = LuaValue.number n := by simp [table_get]
    simp only [set_termios_ispeed, lua_getfield_two, hv, lua_isnoneornil, lua_isnumber,
      lua_tointeger, lua_index_top, lua_pop]
    cases baud_constant h (to_int n) <;> simp
  rw [hsp]
  cases baud_constant h (to_int n) with
  | none => rfl
  | some b =>
    simp only [Except.bind]
    rw [set_termios_ospeed_absent h s2n _ ud _ (by simp [table_get])]
    simp only [Except.bind]
    rw [set_termios_csize_absent h s2n _ ud _ (by simp [table_get])]
    simp only [Except.bind]
    exact set_termios_flags_absent _ ud (termios_flags h) _ (fun e he => by
      have hne := (termios_flags_other h e he).2.1
      simp [table_get, Ne.symm hne])

/-- With the single field `ospeed = n` in the options table, `set_termios` converts `n`
to `int`, calls `cfsetospeed` once with the constant of a listed rate and nothing else,
and raises an error when the `int` is not a listed rate. -/
theorem set_termios_ospeed_number (h : Termios_h) (s2n : String → Option Int) (ud : LuaValue)
    (t : Termios) (n : Int) :
    set_termios h s2n [options_table "ospeed" (LuaValue.number n), ud] t 2
      = (match baud_constant h (to_int n) with
          | some b =>
            Except.ok (h.cfsetospeed t b, [options_table "ospeed" (LuaValue.number n), ud])
          | none => Except.error (LuaError.message
              ("Baud rate (for ospeed) must be one of " ++ baud_list))) := by
  unfold set_termios
  simp only [options_table]
  rw [set_termios_reset_absent _ ud t (by simp [table_get])]
  simp only [Except.bind]
  rw [set_termios_ispeed_absent h s2n _ ud t (by simp [table_get])]
  simp only [Except.bind]
  have hsp : set_termios_ospeed h s2n
      [LuaValue.table [(Key.str "ospeed", LuaValue.number n)], ud] t 2
      = (match baud_constant h (to_int n) with
          | some b =>
            Except.ok (h.cfsetospeed t b,
              [LuaValue.table [(Key.str "ospeed", LuaValue.number n)], ud])
          | none => Except.error (LuaError.message
              ("Baud rate (for ospeed) must be one of " ++ baud_list))) := by
    have hv : table_get [(Key.str "ospeed", LuaValue.number n)] (Key.str "ospeed")
        = LuaValue.number n := by simp [table_get]
    simp only [set_termios_ospeed, lua_getfield_two, hv, lua_isnoneornil, lua_isnumber,
      lua_tointeger, lua_index_top, lua_pop]
    cases baud_constant h (to_int n) <;> simp
  rw [hsp]
  cases baud_constant h (to_int n) with
  | none => rfl
  | some b =>
    simp only [Except.bind]
    rw [set_termios_csize_absent h s2n _ ud _ (by simp [table_get])]
    simp only [Except.bind]
    exact set_termios_flags_absent _ ud (termios_flags h) _ (fun e he => by
      have hne := (termios_flags_other h e he).2.2.1
      simp [table_get, Ne.symm hne])

/-- In a list of cases with distinct constants, the case found by its label is the case
found by its constant. -/
theorem find_case_inverse (l : List (Int × Nat)) (hnd : (l.map Prod.snd).Nodup) (r : Int)
    (b : Nat) (hb : ((l.find? fun p => p.1 = r).map Prod.snd) = some b) :
    ((l.find? fun p => p.2 = b).map Prod.fst) = some r := by
  induction l with
  | nil => simp at hb
  | cons p rest ih =>
    simp only [List.map_cons, List.nodup_cons] at hnd
    by_cases hp : p.1 = r
    · have hpb : p.2 = b := by simpa [List.find?_cons, hp] using hb
      simp [List.find?_cons, hp, hpb]
    · have hrest : ((rest.find? fun p => p.1 = r).map Prod.snd) = some b := by
        simpa [List.find?_cons, hp] using hb
      have hmem : b ∈ rest.map Prod.snd := by
        cases hf : rest.find? (fun p => p.1 = r) with
        | none => simp [hf] at hrest
        | some q =>
          simp only [hf, Option.map_some', Option.some.injEq] at hrest
          exact hrest ▸ List.mem_map_of_mem Prod.snd (List.mem_of_find?_eq_some hf)
      have hne : ¬ p.2 = b := fun h => hnd.1 (h ▸ hmem)
      simpa [List.find?_cons, hne] using ih hnd.2 hrest

/-- The two speed switches are inverse to each other on the listed rates, the speed
constants being distinct (as the `case` labels of a `switch` must be). -/
theorem baud_rate_constant (h : Termios_h) (hB : (speed_constants h).Nodup) (r : Int) (b : Nat)
    (hb : baud_constant h r = some b) : baud_rate h b = some r :=
  find_case_inverse (baud_cases h) (by rw [baud_cases_constants]; exact hB) r b hb

/-- The setting half of the character size round trip: with the single field `csize = n`
in the options table and `n` one of 5, 6, 7, 8, `set_termios` returns a `struct termios`
whose `c_cflag` holds the constant of `n` in the bits of `CSIZE` (the constant lying
inside the mask) and its former bits elsewhere, the rest being unchanged; for any other
number `n` it raises an error. -/
theorem set_termios_csize_bits (h : Termios_h) (s2n : String → Option Int) (ud : LuaValue)
    (t : Termios) (n : Int) :
    (∀ cs, csize_constant h n = some cs →
      (∀ j, cs.testBit j = true → h.CSIZE.testBit j = true) →
      ∃ t2, set_termios h s2n [options_table "csize" (LuaValue.number n), ud] t 2
          = Except.ok (t2, [options_table "csize" (LuaValue.number n), ud])
        ∧ (∀ i, i < 32 → t2.c_cflag.testBit i
            = if h.CSIZE.testBit i then cs.testBit i else t.c_cflag.testBit i)
        ∧ t2.c_iflag = t.c_iflag ∧ t2.c_oflag = t.c_oflag ∧ t2.c_lflag = t.c_lflag)
      ∧ (n ∉ [5, 6, 7, 8] →
          set_termios h s2n [options_table "csize" (LuaValue.number n), ud] t 2
            = Except.error (LuaError.message
                "The character size mask (csize) must be one of 5, 6, 7 or 8")) := by
  constructor
  · intro cs hcs hin
    refine ⟨{ t with c_cflag := tcflag_or (tcflag_andnot t.c_cflag h.CSIZE) cs },
      by rw [set_termios_csize_number, hcs], ?_, rfl, rfl, rfl⟩
    intro i hi
    exact csize_testBit t.c_cflag h.CSIZE cs i hi hin
  · intro hn
    rw [set_termios_csize_number, (csize_constant_eq_none_iff h n).2 hn]

/-- What `meth_options` reports after a character size it has just set: nothing of the
`CSIZE` field, but the first `n` whose constant `CSn` is not zero, whenever the new
`c_cflag` is not zero. -/
theorem meth_options_csize_report (h : Termios_h) (y : Tty σ) (ud : LuaValue) (s : σ)
    (sock : Int) (n : Int) (cs : Nat) (hcs : csize_constant h n = some cs)
    (hud : y.auxiliar_checkgroup [options_table "csize" (LuaValue.number n), ud] 1
      = some sock) :
    (meth_options h y [options_table "csize" (LuaValue.number n), ud] s).1.field "csize"
      = (if tcflag_or (tcflag_andnot (y.tcgetattr s sock).c_cflag h.CSIZE) cs != 0 && h.CS5 != 0
          then LuaValue.number 5
        else if tcflag_or (tcflag_andnot (y.tcgetattr s sock).c_cflag h.CSIZE) cs != 0 && h.CS6 != 0
          then LuaValue.number 6
        else if tcflag_or (tcflag_andnot (y.tcgetattr s sock).c_cflag h.CSIZE) cs != 0 && h.CS7 != 0
          then LuaValue.number 7
        else if tcflag_or (tcflag_andnot (y.tcgetattr s sock).c_cflag h.CSIZE) cs != 0 && h.CS8 != 0
          then LuaValue.number 8
        else LuaValue.nil) := by
  have hset := set_termios_csize_number h y.lua_str2number ud (y.tcgetattr s sock) n
  rw [hcs] at hset
  obtain ⟨F, hrun, hfill⟩ := meth_options_run h y [(Key.str "csize", LuaValue.number n)] ud s
    sock _ hud hset
  obtain ⟨F2, hfill2, _, _, hc, _⟩ := meth_options_fill_fields h
    { y.tcgetattr s sock with
      c_cflag := tcflag_or (tcflag_andnot (y.tcgetattr s sock).c_cflag h.CSIZE) cs }
  have hF : F2 = F := by
    rw [hfill] at hfill2
    injection hfill2 with hfill2
    injection hfill2 with hfill2 _
    injection hfill2 with hfill2
    exact hfill2.symm
  subst hF
  have hrun2 : meth_options h y [options_table "csize" (LuaValue.number n), ud] s
      = (Result.returned [LuaValue.table F2], y.tcsetattr s sock h.TCSANOW
          { y.tcgetattr s sock with
            c_cflag := tcflag_or (tcflag_andnot (y.tcgetattr s sock).c_cflag h.CSIZE) cs }) :=
    hrun
  rw [hrun2]
  exact hc

/-- Acceptance of a speed: with the single field `ispeed = n` (`ospeed = n`) in the
options table, `set_termios` returns normally exactly when `n`, converted to `int`, is
one of the 19 listed rates. -/
theorem set_termios_speed_accepts_iff (h : Termios_h) (s2n : String → Option Int)
    (ud : LuaValue) (t : Termios) (n : Int) :
    ((∃ r, set_termios h s2n [options_table "ispeed" (LuaValue.number n), ud] t 2
        = Except.ok r) ↔ to_int n ∈ baud_rates)
      ∧ ((∃ r, set_termios h s2n [options_table "ospeed" (LuaValue.number n), ud] t 2
        = Except.ok r) ↔ to_int n ∈ baud_rates) := by
  rw [set_termios_ispeed_number, set_termios_ospeed_number, ← baud_constant_isSome_iff h]
  cases baud_constant h (to_int n) <;> simp

/-- The speed round trip on the listed rates, for speed constants that are distinct and a
C library whose getter returns the constant its setter was just given: with the single field
`ospeed = r` (`ispeed = r`) in the options table, `meth_options` calls `cfsetospeed`
(`cfsetispeed`) alone on the settings read from the device and reports
`ospeed = r` (`ispeed = r`). -/
theorem meth_options_speed_round_trip (h : Termios_h) (y : Tty σ) (ud : LuaValue) (s : σ)
    (sock : Int) (r : Int) (hr : r ∈ baud_rates) (hB : (speed_constants h).Nodup)
    (hgo : ∀ b, baud_constant h r = some b →
      h.cfgetospeed (h.cfsetospeed (y.tcgetattr s sock) b) = b)
    (hgi : ∀ b, baud_constant h r = some b →
      h.cfgetispeed (h.cfsetispeed (y.tcgetattr s sock) b) = b)
    (hudo : y.auxiliar_checkgroup [options_table "ospeed" (LuaValue.number r), ud] 1
      = some sock)
    (hudi : y.auxiliar_checkgroup [options_table "ispeed" (LuaValue.number r), ud] 1
      = some sock) :
    ∃ b, baud_constant h r = some b
      ∧ set_termios h y.lua_str2number [options_table "ospeed" (LuaValue.number r), ud]
          (y.tcgetattr s sock) 2
          = Except.ok (h.cfsetospeed (y.tcgetattr s sock) b,
              [options_table "ospeed" (LuaValue.number r), ud])
      ∧ (meth_options h y [options_table "ospeed" (LuaValue.number r), ud] s).1.field "ospeed"
          = LuaValue.number r
      ∧ set_termios h y.lua_str2number [options_table "ispeed" (LuaValue.number r), ud]
          (y.tcgetattr s sock) 2
          = Except.ok (h.cfsetispeed (y.tcgetattr s sock) b,
              [options_table "ispeed" (LuaValue.number r), ud])
      ∧ (meth_options h y [options_table "ispeed" (LuaValue.number r), ud] s).1.field "ispeed"
          = LuaValue.number r := by
  have hsome := (baud_constant_isSome_iff h r).2 hr
  obtain ⟨b, hb⟩ := Option.isSome_iff_exists.1 hsome
  have hrate := baud_rate_constant h hB r b hb
  have hseto := set_termios_ospeed_number h y.lua_str2number ud (y.tcgetattr s sock) r
  have hseti := set_termios_ispeed_number h y.lua_str2number ud (y.tcgetattr s sock) r
  rw [to_int_baud_rate r hr, hb] at hseto hseti
  refine ⟨b, hb, hseto, ?_, hseti, ?_⟩
  · obtain ⟨F, hrun, hfill⟩ := meth_options_run h y [(Key.str "ospeed", LuaValue.number r)] ud
      s sock _ hudo hseto
    obtain ⟨F2, hfill2, ho, _, _, _⟩ := meth_options_fill_fields h
      (h.cfsetospeed (y.tcgetattr s sock) b)
    have hF : F2 = F := by
      rw [hfill] at hfill2
      injection hfill2 with hfill2
      injection hfill2 with hfill2 _
      injection hfill2 with hfill2
      exact hfill2.symm
    subst hF
    have hrun2 : meth_options h y [options_table "ospeed" (LuaValue.number r), ud] s
        = (Result.returned [LuaValue.table F2], y.tcsetattr s sock h.TCSANOW
            (h.cfsetospeed (y.tcgetattr s sock) b)) := hrun
    rw [hrun2]
    rw [hgo b hb, hrate] at ho
    exact ho
  · obtain ⟨F, hrun, hfill⟩ := meth_options_run h y [(Key.str "ispeed", LuaValue.number r)] ud
      s sock _ hudi hseti
    obtain ⟨F2, hfill2, _, hi, _, _⟩ := meth_options_fill_fields h
      (h.cfsetispeed (y.tcgetattr s sock) b)
    have hF : F2 = F := by
      rw [hfill] at hfill2
      injection hfill2 with hfill2
      injection hfill2 with hfill2 _
      injection hfill2 with hfill2
      exact hfill2.symm
    subst hF
    have hrun2 : meth_options h y [options_table "ispeed" (LuaValue.number r), ud] s
        = (Result.returned [LuaValue.table F2], y.tcsetattr s sock h.TCSANOW
            (h.cfsetispeed (y.tcgetattr s sock) b)) := hrun
    rw [hrun2]
    rw [hgi b hb, hrate] at hi
    exact hi

/-- The speed round trip at work on the example platform: 9600 baud set as output speed,
or as input speed, is reported as set. -/
theorem meth_options_speed_round_trip_linux :
    (meth_options linux_termios exTty
        [options_table "ospeed" (LuaValue.number 9600), LuaValue.userdata 3] exRaw).1.field
        "ospeed" = LuaValue.number 9600
      ∧ (meth_options linux_termios exTty
        [options_table "ispeed" (LuaValue.number 9600), LuaValue.userdata 3] exRaw).1.field
        "ispeed" = LuaValue.number 9600 := by
  obtain ⟨_, _, _, ho, _, hi⟩ := meth_options_speed_round_trip linux_termios exTty
    (LuaValue.userdata 3) exRaw 3 9600 (by decide) (by decide)
    (fun b hb => by
      have hb2 : b = 0o15 := (Option.some.inj hb).symm
      subst hb2
      decide)
    (fun b hb => by
      have hb2 : b = 0o15 := (Option.some.inj hb).symm
      subst hb2
      decide) rfl rfl
  exact ⟨ho, hi⟩

/-! ## The serial options: the claims -/

/-- C21 at the input `port:options({clocal = false})` on a Linux line whose control
flags are `CS8 | CREAD | CLOCAL`: `set_termios` clears `CLOCAL` and leaves every other bit
of the four flag words alone, as claimed, but the table `meth_options` returns holds
`clocal = true`, against the claim: `GET_FLAG_FROM_TERMIOS_STRUCT` pushes the logical
conjunction `c_cflag && CLOCAL`, true of every flag word that is not zero. -/
theorem meth_options_reports_cleared_flag_set :
    set_termios linux_termios exTty.lua_str2number
        [options_table "clocal" (LuaValue.boolean false), LuaValue.userdata 3] exRaw 2
        = Except.ok ({ exRaw with c_cflag := 0o260 },
            [options_table "clocal" (LuaValue.boolean false), LuaValue.userdata 3])
      ∧ (meth_options linux_termios exTty
          [options_table "clocal" (LuaValue.boolean false), LuaValue.userdata 3] exRaw).1.field
          "clocal" = LuaValue.boolean true :=
  ⟨rfl, rfl⟩

/-- C22 at the input `port:options({csize = 7})` on a Linux line whose control flags
are `CS8 | CREAD | CLOCAL`: `set_termios` replaces the `CSIZE` field by `CS7` and leaves
the other bits alone, as claimed, but the table `meth_options` returns holds `csize = 6`,
against the claim: the chain tests the logical conjunctions `c_cflag && CS5`,
`c_cflag && CS6`, ..., and `CS6` is the first constant that is not zero. -/
theorem meth_options_reports_csize_six :
    set_termios linux_termios exTty.lua_str2number
        [options_table "csize" (LuaValue.number 7), LuaValue.userdata 3] exRaw 2
        = Except.ok ({ exRaw with c_cflag := 0o4240 },
            [options_table "csize" (LuaValue.number 7), LuaValue.userdata 3])
      ∧ (0o4240 &&& linux_termios.CSIZE = linux_termios.CS7)
      ∧ (meth_options linux_termios exTty
          [options_table "csize" (LuaValue.number 7), LuaValue.userdata 3] exRaw).1.field
          "csize" = LuaValue.number 6 :=
  ⟨rfl, by decide, rfl⟩

/-- C23 at the input `port:options({ispeed = 4294967346})`, a number that is not one
of the 19 rates: the initialisation `int ispeed = lua_tointeger(L, -1)` keeps the low 32
bits, 50, so that `set_termios` raises no error and calls `cfsetispeed` with `B50`, and
the table `meth_options` returns holds `ispeed = 50`, against the claim that any other
number raises an error. -/
theorem set_termios_accepts_unlisted_rate :
    (4294967346 : Int) ∉ baud_rates
      ∧ set_termios linux_termios exTty.lua_str2number
          [options_table "ispeed" (LuaValue.number 4294967346), LuaValue.userdata 3] exRaw 2
          = Except.ok (linux_termios.cfsetispeed exRaw linux_termios.B50,
              [options_table "ispeed" (LuaValue.number 4294967346), LuaValue.userdata 3])
      ∧ (meth_options linux_termios exTty
          [options_table "ispeed" (LuaValue.number 4294967346), LuaValue.userdata 3]
          exRaw).1.field "ispeed" = LuaValue.number 50 :=
  ⟨by decide, rfl, rfl⟩

/-! ## `global_create`: the mode string -/

/-- A C string holds no NUL. -/
theorem c_str_no_nul (s : String) : '\x00' ∉ (c_str s).toList := by
  intro hmem
  have hp := List.mem_takeWhile_imp hmem
  simp at hp

/-- The string `luaL_checkstring` returns is a C string. -/
theorem luaL_checkstring_no_nul (number2str : Int → String) (L L1 : LuaStack) (narg : Int)
    (s : String) (hs : luaL_checkstring number2str L narg = Except.ok (s, L1)) :
    '\x00' ∉ s.toList := by
  unfold luaL_checkstring at hs
  split at hs
  · split at hs
    · injection hs with hs
      injection hs with hs _
      rw [← hs]
      exact c_str_no_nul _
    · injection hs with hs
      injection hs with hs _
      rw [← hs]
      exact c_str_no_nul _
    · cases hs
  · cases hs

/-- The scan raises `rd` exactly when an `r` is met and `wr` exactly when a `w` is met:
leaving the loop early, once both are set, loses nothing. -/
theorem mode_scan_eq (cs : List Char) (h0 : '\x00' ∉ cs) (rd wr : Bool) :
    mode_scan cs rd wr = (rd || decide ('r' ∈ cs), wr || decide ('w' ∈ cs)) := by
  induction cs generalizing rd wr with
  | nil => simp [mode_scan]
  | cons m rest ih =>
    have hm : m ≠ '\x00' := fun h => h0 (by simp [h])
    have h0r : '\x00' ∉ rest := fun h => h0 (by simp [h])
    have hrw : ('r' : Char) ≠ 'w' := by decide
    by_cases hr : m = 'r'
    · subst hr
      cases wr
      · simp [mode_scan, ih h0r, hrw]
      · simp [mode_scan, ih h0r, hrw]
    · by_cases hw : m = 'w'
      · subst hw
        cases rd
        · simp [mode_scan, ih h0r, hrw, hr]
        · simp [mode_scan, ih h0r, hrw]
      · have hr2 : ¬ 'r' = m := fun h => hr h.symm
        have hw2 : ¬ 'w' = m := fun h => hw h.symm
        cases rd <;> cases wr <;> simp [mode_scan, ih h0r, hr, hw, hm, hr2, hw2]

/-- C24: in `global_create`, once the two string arguments are checked, the scan of the
mode string (a total function of the string) yields `rd` = an `r` occurs in the mode and
`wr` = a `w` occurs in it; the call raises the argument error `Please specify at least
read or write mode` exactly when the mode holds neither letter; and otherwise, the third
argument being a table or absent, the device is opened with `O_RDWR` when both letters
occur, with `O_RDONLY` when only `r` occurs and with `O_WRONLY` when only `w` occurs. -/
theorem global_create_mode (f : Fcntl_h) (number2str : Int → String) (ptr : Nat)
    (L L1 L2 : LuaStack) (path mode : String)
    (hpath : luaL_checkstring number2str L 1 = Except.ok (path, L1))
    (hmode : luaL_checkstring number2str L1 2 = Except.ok (mode, L2)) :
    mode_scan mode.toList false false
        = (decide ('r' ∈ mode.toList), decide ('w' ∈ mode.toList))
      ∧ (global_create_open f number2str ptr L
            = Except.error
                (LuaError.bad_argument 2 "Please specify at least read or write mode")
          ↔ 'r' ∉ mode.toList ∧ 'w' ∉ mode.toList)
      ∧ (('r' ∈ mode.toList ∨ 'w' ∈ mode.toList) →
          (lua_istable L2 3 || lua_isnoneornil L2 3) = true →
          global_create_open f number2str ptr L
            = Except.ok
                (⟨path,
                  (if 'r' ∈ mode.toList ∧ 'w' ∈ mode.toList then f.O_RDWR
                    else if 'r' ∈ mode.toList then f.O_RDONLY
                    else f.O_WRONLY) ||| f.O_NOCTTY ||| f.O_NDELAY⟩,
                  lua_newuserdata L2 ptr)) := by
  have hscan := mode_scan_eq mode.toList (luaL_checkstring_no_nul number2str L1 L2 2 mode hmode)
    false false
  simp only [Bool.false_or] at hscan
  refine ⟨hscan, ?_, ?_⟩
  · unfold global_create_open
    simp only [hpath, hmode, hscan]
    by_cases hr : 'r' ∈ mode.toList <;> by_cases hw : 'w' ∈ mode.toList <;>
      by_cases h3 : (lua_istable L2 3 || lua_isnoneornil L2 3) = true <;>
      simp [hr, hw, h3]
  · intro hrw h3
    unfold global_create_open
    simp only [hpath, hmode, hscan, h3]
    by_cases hr : 'r' ∈ mode.toList <;> by_cases hw : 'w' ∈ mode.toList <;>
      simp_all

/-- C24 at work: the mode `rw+` on `/dev/ttyS0` opens the device read-write. -/
theorem global_create_mode_witness :
    mode_scan "rw+".toList false false
        = (decide ('r' ∈ "rw+".toList), decide ('w' ∈ "rw+".toList))
      ∧ (global_create_open linux_fcntl exTty.lua_number2str 7
            [LuaValue.string "rw+", LuaValue.string "/dev/ttyS0"]
            = Except.error
                (LuaError.bad_argument 2 "Please specify at least read or write mode")
          ↔ 'r' ∉ "rw+".toList ∧ 'w' ∉ "rw+".toList)
      ∧ (('r' ∈ "rw+".toList ∨ 'w' ∈ "rw+".toList) →
          (lua_istable [LuaValue.string "rw+", LuaValue.string "/dev/ttyS0"] 3
            || lua_isnoneornil [LuaValue.string "rw+", LuaValue.string "/dev/ttyS0"] 3) = true →
          global_create_open linux_fcntl exTty.lua_number2str 7
            [LuaValue.string "rw+", LuaValue.string "/dev/ttyS0"]
            = Except.ok
                (⟨"/dev/ttyS0",
                  (if 'r' ∈ "rw+".toList ∧ 'w' ∈ "rw+".toList then linux_fcntl.O_RDWR
                    else if 'r' ∈ "rw+".toList then linux_fcntl.O_RDONLY
                    else linux_fcntl.O_WRONLY) ||| linux_fcntl.O_NOCTTY ||| linux_fcntl.O_NDELAY⟩,
                  lua_newuserdata [LuaValue.string "rw+", LuaValue.string "/dev/ttyS0"] 7)) :=
  global_create_mode linux_fcntl exTty.lua_number2str 7
    [LuaValue.string "rw+", LuaValue.string "/dev/ttyS0"]
    [LuaValue.string "rw+", LuaValue.string "/dev/ttyS0"]
    [LuaValue.string "rw+", LuaValue.string "/dev/ttyS0"] "/dev/ttyS0" "rw+" rfl rfl

end LuaSocket
